import Mathlib

/-!
# The lambdachine reference interpreter (rts/InterpThreaded.c)

A shallow embedding of `engine` from `src/rts/InterpThreaded.c`, together with
the instruction format of `src/vm/bytecode.hh`.

Conventions of the embedding.

* Pointers are abstract addresses of type `Int`:
  a `Word *` into the thread stack is the index of the stack slot, a `BCIns *`
  is the index of the 32-bit instruction word, a `Closure *` or `InfoTable *`
  is the identity of the object; `NULL` is `0`.  Casts between a pointer and
  `Word` are the identity on that address.
* The stack is a map from slot addresses to words, the heap is a map from
  closure addresses to a header (`info`) and payload words.  Distinct
  closure addresses denote disjoint objects.
* One `step` runs one handler of `engine`: from the `DISPATCH_NEXT` that
  decodes the instruction at `pc` up to the next `DISPATCH_NEXT` (or up to the
  `return`).
* Declarations of this repository that are not part of the available sources
  (`Bytecode.h`, `InfoTables.h`, `MiscClosures.h`, `Arch.h`) are fields of
  `Env` or are modelled from the specification, and say so.
-/

namespace Lambdachine

/-! ## Data model -/

/-- Modelled from the spec: the `type` field of an info table (`InfoTables.h`
is not among the sources).  The spec lists the closure variants
CONSTR, THUNK, FUN, IND, PAP and BLACKHOLE. -/
inductive ClosureType
  | CONSTR
  | FUN
  | THUNK
  | IND
  | PAP
  | BLACKHOLE
  deriving DecidableEq, Repr

/-- The handler labels of `engine`: one per `op_` label of the source plus
`stop`.  The dispatch table `disp1` is built from `BCDEF`, so every opcode of
the interpreter has exactly one of these labels. -/
inductive Label
  | op_ADDRR | op_SUBRR | op_MULRR | op_DIVRR
  | op_JMP | op_MOV | op_KINT | op_NEW_INT | op_NOT | op_NEG
  | op_ISLT | op_ISGE | op_ISLE | op_ISGT | op_ISNE | op_ISEQ
  | op_ALLOC1 | op_ALLOC | op_LOADF | op_LOADFV | op_LOADBH | op_LOADSLF
  | op_JFUNC | op_IFUNC | op_FUNC
  | op_CASE | op_CASE_S | op_EVAL | op_UPDATE | op_RET1 | op_MOV_RES
  | op_CALLT | op_CALL | op_KLIT | op_INITF | op_ALLOCAP
  | stop
  deriving DecidableEq, Repr

/-- The `LcCode` record embedded in a `FuncInfoTable` / `ThunkInfoTable`
(fields as initialised for `silly1_info`): `framesize`, `arity`, the address
`code` of the first instruction and the literal pool `lits`. -/
structure LcCode where
  framesize : Nat
  arity : Nat
  code : Int
  lits : Nat → Int

/-- The immutable surroundings of the interpreter: code memory, info tables,
the dispatch table and the static objects of `MiscClosures.h`.  None of them is
written by `engine`. -/
structure Env where
  /-- Width of `Word` in bits (`LC_ARCH_BITS`, 32 or 64). -/
  wordBits : Nat
  /-- The dispatch table `disp1`, indexed by the 8-bit opcode. -/
  disp : Nat → Label
  /-- Code memory: the `u4` stored at an instruction address. -/
  instr : Int → Nat
  /-- The `type` field of the info table at an address. -/
  infoType : Int → ClosureType
  /-- The constructor tag recorded in the info table at an address. -/
  infoTag : Int → Nat
  /-- The `code` field read through a `FuncInfoTable *` at an address. -/
  infoCode : Int → LcCode
  stg_UPD_closure : Int
  stg_UPD_return_pc : Int
  stg_IND_info : Int
  stg_BLACKHOLE_closure : Int
  stg_Izh_con_info : Int
  /-- Address of the static closure `smallInt(v)`. -/
  smallInt : Int → Int
  /-- Address returned by the n-th call of the external allocator
  (`malloc` / `allocate`). -/
  alloc : Nat → Int

/-- The mutable state at an instruction boundary: the locals of `engine`
(`pc`, `base`, `last_result`, `code`, `callt_temp`), the thread fields
(`T->top`, `T->pc`, `T->base`, the stack) and the heap. -/
structure State where
  pc : Int
  base : Int
  top : Int
  last_result : Int
  /-- The local `code`: the address of the info table whose embedded `LcCode`
  is current (`&info->code`); `0` is `NULL`. -/
  code : Int
  callt_temp : Nat → Int
  stack : Int → Int
  /-- Header word of each closure (`getInfo` / `setInfo`). -/
  info : Int → Int
  /-- Payload words of each closure. -/
  payload : Int → Nat → Int
  /-- Number of allocator calls made so far. -/
  nalloc : Nat
  T_pc : Int
  T_base : Int

/-- Result of running one handler: execution continues at the next
instruction, `engine` returns a status, or an `LC_ASSERT` fails. -/
inductive Outcome
  | next (s : State)
  | exit (status : Int) (s : State)
  | assertFail

/-! ## Memory helpers -/

/-- Store `v` at address `a` of a word-addressed memory. -/
def wr (m : Int → Int) (a v : Int) : Int → Int :=
  fun x => if x = a then v else m x

/-- Store `v` in payload slot `i` of closure `cl`. -/
def wrPayload (m : Int → Nat → Int) (cl : Int) (i : Nat) (v : Int) : Int → Nat → Int :=
  fun c j => if c = cl ∧ j = i then v else m c j

/-- Register `r` of the current window: `base[r]`. -/
def State.reg (s : State) (r : Nat) : Int := s.stack (s.base + r)

/-- Assignment `base[r] = v`. -/
def State.setReg (s : State) (r : Nat) (v : Int) : State :=
  { s with stack := wr s.stack (s.base + r) v }

/-! ## Machine integers -/

/-- Conversion to `u4`. -/
def u4 (n : Nat) : Nat := n % 2 ^ 32

/-- Conversion to `u2`. -/
def u2 (n : Nat) : Nat := n % 2 ^ 16

/-- Conversion of a word or pointer difference to `u4`. -/
def u4OfInt (x : Int) : Nat := (x % 2 ^ 32).toNat

/-- Reduction to the range of `Word`. -/
def wrapW (env : Env) (x : Int) : Int := x % 2 ^ env.wordBits

/-- The cast `(WordInt)x`: the two's complement reading of a word. -/
def toSigned (env : Env) (x : Int) : Int :=
  if 2 * wrapW env x < 2 ^ env.wordBits then wrapW env x
  else wrapW env x - 2 ^ env.wordBits

/-! ## Instruction decoding

The decoders are those of `BcIns` in `src/vm/bytecode.hh` (`a()`, `b()`, `c()`,
`d()`, `j()`); the C macros of the same names in `Bytecode.h` are not among the
sources. -/

/-- The instruction word (`u4`) stored at instruction address `pc`. -/
def fetch (env : Env) (pc : Int) : Nat := u4 (env.instr pc)

/-- Opcode: the low 8 bits. -/
def bc_op (w : Nat) : Nat := w % 256

/-- Operand A: `(raw >> 8) & 0xff`. -/
def bc_a (w : Nat) : Nat := (w >>> 8) % 256

/-- Operand D: `raw >> 16`. -/
def bc_d (w : Nat) : Nat := w >>> 16

/-- Operand B, the high byte of D: `raw >> 24`. -/
def bc_b_from_d (d : Nat) : Nat := d >>> 8

/-- Operand C, the low byte of D: `(raw >> 16) & 0xff`. -/
def bc_c_from_d (d : Nat) : Nat := d % 256

/-- Branch offset of a D operand: `d - 0x8000`. -/
def bc_j_from_d (d : Nat) : Int := (d : Int) - 0x8000

/-- Branch offset of an instruction word: `(raw >> 16) - 0x8000`. -/
def bc_j (w : Nat) : Int := bc_j_from_d (bc_d w)

/-- Modelled from the spec: `bc_case_tag` of `Bytecode.h`.  A CASE_S entry is
`[target:16][tag:16]`, the tag in the low half. -/
def bc_case_tag (w : Nat) : Nat := w % 65536

/-- Modelled from the spec: `bc_case_target` of `Bytecode.h`, the high half of
a table word (the target of a CASE_S entry, the odd target of a CASE pair). -/
def bc_case_target (w : Nat) : Nat := w >>> 16

/-- Modelled from the spec: `bc_case_targetlo` of `Bytecode.h`, the low half
of a CASE table word (the even target). -/
def bc_case_targetlo (w : Nat) : Nat := w % 65536

/-- Modelled from the spec: `bc_case_mintag` of `Bytecode.h`; the word after a
CASE_S instruction is `[maxtag:16][mintag:16]`. -/
def bc_case_mintag (w : Nat) : Nat := w % 65536

/-- Modelled from the spec: `bc_case_maxtag` of `Bytecode.h`. -/
def bc_case_maxtag (w : Nat) : Nat := w >>> 16

/-- Modelled from the spec: `BC_ROUND` of `Bytecode.h`, the number of
instruction words needed for `n` bytes (rounded up to whole words). -/
def BC_ROUND (n : Nat) : Nat := (n + 3) / 4

/-- Modelled from the spec: the byte `*((u1 *)p + k)` of the instruction
stream starting at instruction address `p`; instruction words are
little-endian (`Arch.h` is not among the sources). -/
def argByte (env : Env) (p : Int) (k : Nat) : Nat :=
  (fetch env (p + ((k / 4 : Nat) : Int)) >>> (8 * (k % 4))) % 256

/-! ## Closure interface -/

/-- Modelled from the spec: `getTag` of `InfoTables.h`, the constructor tag
of a closure as a `u16`, read from its info table. -/
def getTag (env : Env) (s : State) (cl : Int) : Nat := u2 (env.infoTag (s.info cl))

/-- Modelled from the spec: `closure_HNF` of `InfoTables.h`, true iff the
info-table type is CONSTR, FUN or PAP. -/
def closure_HNF (env : Env) (s : State) (cl : Int) : Bool :=
  match env.infoType (s.info cl) with
  | .CONSTR => true
  | .FUN => true
  | .PAP => true
  | _ => false

/-- The stack check of the source: it always answers 0. -/
def stackOverflow (_s : State) (_top : Int) (_increment : Nat) : Int := 0

/-- Number of words of a frame header. -/
def STACK_FRAME_SIZEW : Nat := 3

/-- Number of words of an update frame. -/
def UPDATE_FRAME_SIZEW : Nat := STACK_FRAME_SIZEW + 2

/-- Capacity of the temporary area of CALLT. -/
def MAX_CALLT_ARGS : Nat := 12

/-- The values `engine` gives its locals before the first dispatch: `base` and
`pc` come from the thread, `last_result` is 0 and `code` is `NULL`. -/
def engine_init (s : State) : State :=
  { s with base := s.T_base, pc := s.T_pc, last_result := 0, code := 0 }

/-! ## Handlers

Every handler receives the state after `DISPATCH_NEXT` has incremented `pc`,
with `opA = bc_a` and `opC = bc_d` of the instruction word. -/

/-- Label `stop`. -/
def op_stop (s : State) : Outcome :=
  .exit 0 { s with T_pc := s.pc, T_base := s.base }

/-- Handler `op_ADDRR`. -/
def op_ADDRR (env : Env) (s : State) (opA opD : Nat) : Outcome :=
  let opB := bc_b_from_d opD
  let opC := bc_c_from_d opD
  .next (s.setReg opA (wrapW env (s.reg opB + s.reg opC)))

/-- Handler `op_SUBRR`. -/
def op_SUBRR (env : Env) (s : State) (opA opD : Nat) : Outcome :=
  let opB := bc_b_from_d opD
  let opC := bc_c_from_d opD
  .next (s.setReg opA (wrapW env (s.reg opB - s.reg opC)))

/-- Handler `op_MULRR`. -/
def op_MULRR (env : Env) (s : State) (opA opD : Nat) : Outcome :=
  let opB := bc_b_from_d opD
  let opC := bc_c_from_d opD
  .next (s.setReg opA (wrapW env (toSigned env (s.reg opB) * toSigned env (s.reg opC))))

/-- Handler `op_DIVRR`: nothing is done when the divisor is zero. -/
def op_DIVRR (env : Env) (s : State) (opA opD : Nat) : Outcome :=
  let opB := bc_b_from_d opD
  let opC := bc_c_from_d opD
  if toSigned env (s.reg opC) ≠ 0 then
    .next (s.setReg opA
      (wrapW env (Int.tdiv (toSigned env (s.reg opB)) (toSigned env (s.reg opC)))))
  else
    .next s

/-- Handler `op_JMP`. -/
def op_JMP (s : State) (opC : Nat) : Outcome :=
  .next { s with pc := s.pc + bc_j_from_d opC }

/-- Handler `op_MOV`. -/
def op_MOV (s : State) (opA opC : Nat) : Outcome :=
  .next (s.setReg opA (s.reg opC))

/-- Handler `op_KINT`: `base[opA] = (WordInt)opC` with `opC` the unsigned
16-bit D operand held in a `u4`. -/
def op_KINT (s : State) (opA opC : Nat) : Outcome :=
  .next (s.setReg opA (opC : Int))

/-- Handler `op_NEW_INT`. -/
def op_NEW_INT (env : Env) (s : State) (opA opC : Nat) : Outcome :=
  let val := toSigned env (s.reg opC)
  if -128 ≤ val ∧ val ≤ 127 then
    .next (s.setReg opA (env.smallInt val))
  else
    let cl := env.alloc s.nalloc
    let s1 := { s with nalloc := s.nalloc + 1 }
    let s2 := s1.setReg opA cl
    .next { s2 with info := wr s2.info cl env.stg_Izh_con_info,
                    payload := wrPayload s2.payload cl 0 (wrapW env val) }

/-- Handler `op_NOT`. -/
def op_NOT (env : Env) (s : State) (opA opC : Nat) : Outcome :=
  .next (s.setReg opA (wrapW env (-(s.reg opC) - 1)))

/-- Handler `op_NEG`. -/
def op_NEG (env : Env) (s : State) (opA opC : Nat) : Outcome :=
  .next (s.setReg opA (wrapW env (-(toSigned env (s.reg opC)))))

/-- The common shape of the six comparison handlers: skip the following JMP
word, and add its offset when the condition holds. -/
def condJump (env : Env) (s : State) (cond : Bool) : Outcome :=
  let s1 := { s with pc := s.pc + 1 }
  if cond then .next { s1 with pc := s1.pc + bc_j (fetch env (s1.pc - 1)) }
  else .next s1

/-- Handler `op_ISLT`. -/
def op_ISLT (env : Env) (s : State) (opA opC : Nat) : Outcome :=
  condJump env s (decide (toSigned env (s.reg opA) < toSigned env (s.reg opC)))

/-- Handler `op_ISGE`. -/
def op_ISGE (env : Env) (s : State) (opA opC : Nat) : Outcome :=
  condJump env s (decide (toSigned env (s.reg opA) ≥ toSigned env (s.reg opC)))

/-- Handler `op_ISLE`. -/
def op_ISLE (env : Env) (s : State) (opA opC : Nat) : Outcome :=
  condJump env s (decide (toSigned env (s.reg opA) ≤ toSigned env (s.reg opC)))

/-- Handler `op_ISGT`. -/
def op_ISGT (env : Env) (s : State) (opA opC : Nat) : Outcome :=
  condJump env s (decide (toSigned env (s.reg opA) > toSigned env (s.reg opC)))

/-- Handler `op_ISNE`. -/
def op_ISNE (env : Env) (s : State) (opA opC : Nat) : Outcome :=
  condJump env s (decide (s.reg opA ≠ s.reg opC))

/-- Handler `op_ISEQ`. -/
def op_ISEQ (env : Env) (s : State) (opA opC : Nat) : Outcome :=
  condJump env s (decide (s.reg opA = s.reg opC))

/-- Handler `op_ALLOC1`. -/
def op_ALLOC1 (env : Env) (s : State) (opA opD : Nat) : Outcome :=
  let opB := bc_b_from_d opD
  let opC := bc_c_from_d opD
  let cl := env.alloc s.nalloc
  let s1 := { s with nalloc := s.nalloc + 1, info := wr s.info cl (s.reg opB) }
  let s2 := { s1 with payload := wrPayload s1.payload cl 0 (s1.reg opC) }
  .next (s2.setReg opA cl)

/-- The payload loop of `op_ALLOC`:
`for (i = 0; i < sz; i++) cl->payload[i] = base[*arg++]`. -/
def op_ALLOC_fill (env : Env) (s : State) (cl : Int) (sz : Nat) : Int → Nat → Int :=
  (List.range sz).foldl
    (fun m i => wrPayload m cl i (s.reg (argByte env s.pc i))) s.payload

/-- Handler `op_ALLOC`: the size is read from register `opC`, the new closure
is not stored in a register, and `pc` advances by `(sz + 3) / 4` words. -/
def op_ALLOC (env : Env) (s : State) (_opA opD : Nat) : Outcome :=
  let opB := bc_b_from_d opD
  let opC := bc_c_from_d opD
  let sz := u4OfInt (s.reg opC)
  let cl := env.alloc s.nalloc
  let s1 := { s with nalloc := s.nalloc + 1, info := wr s.info cl (s.reg opB) }
  .next { s1 with payload := op_ALLOC_fill env s1 cl sz,
                  pc := s1.pc + ((u4 (sz + 3) / 4 : Nat) : Int) }

/-- Handler `op_LOADF`. -/
def op_LOADF (s : State) (opA opD : Nat) : Outcome :=
  let opB := bc_b_from_d opD
  let opC := bc_c_from_d opD
  let offset := opC % 256
  .next (s.setReg opA (s.payload (s.reg opB) offset))

/-- Handler `op_LOADFV`. -/
def op_LOADFV (s : State) (opA opC : Nat) : Outcome :=
  let offset := u2 opC
  let node := s.stack (s.base - 1)
  .next (s.setReg opA (s.payload node offset))

/-- Handler `op_LOADBH`. -/
def op_LOADBH (env : Env) (s : State) (opA : Nat) : Outcome :=
  .next (s.setReg opA env.stg_BLACKHOLE_closure)

/-- Handler `op_LOADSLF`. -/
def op_LOADSLF (s : State) (opA : Nat) : Outcome :=
  .next (s.setReg opA (s.stack (s.base - 1)))

/-- Handler `op_CASE`, the dense case table. -/
def op_CASE (env : Env) (s : State) (opA opC : Nat) : Outcome :=
  let cl := s.reg opA
  let num_cases := u2 opC
  let table := s.pc
  let pc1 := s.pc + (((num_cases + 1) >>> 1 : Nat) : Int)
  let tag := u2 (getTag env s cl)
  if tag < num_cases then
    let target := fetch env (table + ((tag >>> 1 : Nat) : Int))
    let offs := u2 (if tag % 2 ≠ 0 then bc_case_target target else bc_case_targetlo target)
    .next { s with pc := pc1 + (offs : Int) }
  else
    .next { s with pc := pc1 }


/-- How the `while (ilen > 4)` loop of `op_CASE_S` is left: by the
`goto op_CASE_S_found` inside the loop, or by its condition with the interval
that remains for the linear search. -/
inductive BinSearch
  | found
  | linear (istart ilen : Int)

/-- The binary-search loop of `op_CASE_S` with its locals `istart` and `ilen`.
The midpoint is the block-local `int imid` declared inside the loop body. -/
def op_CASE_S_while (env : Env) (table : Int) (tag : Nat) (istart ilen : Int) : BinSearch :=
  if h : ilen > 4 then
    let imid := Int.tdiv (istart + istart + ilen) 2
    if bc_case_tag (fetch env (table + imid)) = tag then
      .found
    else if bc_case_tag (fetch env (table + imid)) < tag then
      op_CASE_S_while env table tag istart (imid - istart)
    else
      op_CASE_S_while env table tag (imid + 1) (istart + ilen + 1 - imid)
  else
    .linear istart ilen
termination_by ilen.toNat
decreasing_by
  all_goals simp_wf
  all_goals
    have hb : ∀ x : Int, x - 1 ≤ 2 * Int.tdiv x 2 ∧ 2 * Int.tdiv x 2 ≤ x + 1 := by
      intro x
      rcases le_total 0 x with h0 | h0
      · rw [Int.tdiv_eq_ediv h0 (by decide)]
        omega
      · have hx : x = -(-x) := by omega
        rw [hx, Int.neg_tdiv, Int.tdiv_eq_ediv (by omega) (by decide)]
        omega
    have hb2 := hb (istart + istart + ilen)
    omega

/-- The linear-search loop of `op_CASE_S`:
`for (imid = istart; ilen > 0; ilen--, imid++)`, run for `n` remaining
iterations; the answer is the value of the function-level `imid` at the
`goto`, or `none` when the loop runs out. -/
def op_CASE_S_for (env : Env) (table : Int) (tag : Nat) : Nat → Int → Option Int
  | 0, _ => none
  | n + 1, imid =>
    if bc_case_tag (fetch env (table + imid)) = tag then some imid
    else op_CASE_S_for env table tag n (imid + 1)

/-- Label `op_CASE_S_found`, entered with the function-level `imid`. -/
def op_CASE_S_found (env : Env) (s : State) (table : Int) (tag : Nat) (imid : Int) : Outcome :=
  if bc_case_tag (fetch env (table + imid)) = tag then
    .next { s with pc := s.pc + (bc_case_target (fetch env (table + imid)) : Int) }
  else
    .assertFail

/-- Handler `op_CASE_S`, the sparse case table.  The function-level `imid` is
initialised to 0 and is assigned only by the `for` loop, so a match found by
the `while` loop reaches `op_CASE_S_found` with `imid = 0`. -/
def op_CASE_S (env : Env) (s : State) (opA opC : Nat) : Outcome :=
  let cl := s.reg opA
  let num_cases := u2 opC
  let min_tag := u2 (bc_case_mintag (fetch env s.pc))
  let max_tag := u2 (bc_case_maxtag (fetch env s.pc))
  let table := s.pc + 1
  let s1 := { s with pc := s.pc + 1 + (num_cases : Int) }
  if cl = 0 ∨ env.infoType (s.info cl) ≠ .CONSTR then .assertFail
  else
    let tag := u2 (getTag env s cl)
    if min_tag ≤ tag ∧ tag ≤ max_tag then
      match op_CASE_S_while env table tag 0 (num_cases : Int) with
      | .found => op_CASE_S_found env s1 table tag 0
      | .linear istart ilen =>
        match op_CASE_S_for env table tag ilen.toNat istart with
        | some imid => op_CASE_S_found env s1 table tag imid
        | none => .next s1
    else
      .next s1

/-- Handler `op_EVAL`. -/
def op_EVAL (env : Env) (s : State) (opA : Nat) : Outcome :=
  let tnode := s.reg opA
  if tnode = 0 then .assertFail
  else if closure_HNF env s tnode then
    .next { s with last_result := s.reg opA, pc := s.pc + 1 }
  else
    let top := s.top
    let info := s.info tnode
    let framesize := u4 (env.infoCode info).framesize
    if stackOverflow s s.top (STACK_FRAME_SIZEW + UPDATE_FRAME_SIZEW + framesize) ≠ 0 then
      .exit (-1) s
    else
      let return_pc := s.pc + 1
      let st0 := wr s.stack (top + 0) s.base
      let st1 := wr st0 (top + 1) return_pc
      let st2 := wr st1 (top + 2) env.stg_UPD_closure
      let st3 := wr st2 (top + 3) tnode
      let st4 := wr st3 (top + 4) 0
      let st5 := wr st4 (top + 5) (top + 3)
      let st6 := wr st5 (top + 6) env.stg_UPD_return_pc
      let st7 := wr st6 (top + 7) tnode
      let base := top + (STACK_FRAME_SIZEW : Int) + (UPDATE_FRAME_SIZEW : Int)
      .next { s with stack := st7, base := base, top := base + (framesize : Int),
                     code := info, pc := (env.infoCode info).code }

/-- Label `do_return`, the common return sequence. -/
def do_return (s : State) : Outcome :=
  let base := s.stack (s.base - 3)
  .next { s with top := s.base - 3, pc := s.stack (s.base - 2), base := base,
                 code := s.info (s.stack (base - 1)) }

/-- Handler `op_UPDATE`. -/
def op_UPDATE (env : Env) (s : State) (opA opC : Nat) : Outcome :=
  let oldnode := s.reg opA
  let newnode := s.reg opC
  let s1 := { s with info := wr s.info oldnode env.stg_IND_info }
  let s2 := { s1 with payload := wrPayload s1.payload oldnode 0 newnode }
  do_return { s2 with last_result := newnode }

/-- Handler `op_RET1`. -/
def op_RET1 (s : State) (opA : Nat) : Outcome :=
  do_return { s with last_result := s.reg opA }

/-- Handler `op_MOV_RES`. -/
def op_MOV_RES (s : State) (opA : Nat) : Outcome :=
  .next (s.setReg opA s.last_result)

/-- Store into the temporary area of CALLT. -/
def wrTemp (m : Nat → Int) (i : Nat) (v : Int) : Nat → Int :=
  fun j => if j = i then v else m j

/-- First loop of `op_CALLT`:
`for (i = 0; i < nargs - 1; i++, arg++) callt_temp[i] = base[*arg]`,
with `count` the `u4` value of `nargs - 1`. -/
def op_CALLT_save (env : Env) (s : State) (count : Nat) : Nat → Int :=
  (List.range count).foldl
    (fun t i => wrTemp t i (s.reg (argByte env s.pc i))) s.callt_temp

/-- Second loop of `op_CALLT`:
`for (i = 0; i < nargs - 1; i++) base[i + 1] = callt_temp[i]`. -/
def op_CALLT_restore (base : Int) (temp : Nat → Int) (count : Nat) (st : Int → Int) : Int → Int :=
  (List.range count).foldl
    (fun m i => wr m (base + ((i + 1 : Nat) : Int)) (temp i)) st

/-- Handler `op_CALLT`. -/
def op_CALLT (env : Env) (s : State) (opA opD : Nat) : Outcome :=
  let opB := bc_b_from_d opD
  let opC := bc_c_from_d opD
  let nargs := opB
  let arg0 := s.reg opC
  let fnode := s.reg opA
  if fnode = 0 ∨ env.infoType (s.info fnode) ≠ .FUN then .assertFail
  else
    let info := s.info fnode
    if nargs ≠ (env.infoCode info).arity then .exit (-1) s
    else
      let curframesize := u4OfInt (s.top - s.base)
      let newframesize := u4 (env.infoCode info).framesize
      if newframesize > curframesize ∧ stackOverflow s s.base newframesize ≠ 0 then
        .exit (-1) s
      else
        let s1 := if newframesize > curframesize
                  then { s with top := s.base + (newframesize : Int) } else s
        if nargs > MAX_CALLT_ARGS + 1 then .exit (-1) s1
        else
          let count := u4 (nargs + 2 ^ 32 - 1)
          let temp := op_CALLT_save env s1 count
          let st := wr s1.stack (s1.base + 0) arg0
          .next { s1 with callt_temp := temp,
                          stack := op_CALLT_restore s1.base temp count st,
                          code := info, pc := (env.infoCode info).code }

/-- The argument loop of `op_CALL`:
`for (i = 1; i < nargs; i++, arg++) top[i + 3] = base[*arg]`; iteration
`k = i - 1` reads byte `k` of the words that start at `pc`. -/
def op_CALL_copy (env : Env) (base top pc : Int) (nargs : Nat) (st : Int → Int) : Int → Int :=
  (List.range (nargs - 1)).foldl
    (fun m k => wr m (top + ((k + 1 + 3 : Nat) : Int)) (m (base + (argByte env pc k : Int)))) st

/-- Handler `op_CALL`. -/
def op_CALL (env : Env) (s : State) (opA opD : Nat) : Outcome :=
  let opB := bc_b_from_d opD
  let opC := bc_c_from_d opD
  let nargs := opC
  let arg0 := s.reg opB
  let fnode := s.reg opA
  let top := s.top
  if fnode = 0 ∨ env.infoType (s.info fnode) ≠ .FUN then .assertFail
  else
    let info := s.info fnode
    if nargs ≠ (env.infoCode info).arity then .exit (-1) s
    else
      let framesize := u4 (env.infoCode info).framesize
      if stackOverflow s top (STACK_FRAME_SIZEW + framesize) ≠ 0 then .exit (-1) s
      else
        let return_pc := s.pc + (BC_ROUND (u4 (nargs + 2 ^ 32 - 1)) : Int) + 1
        let st0 := wr s.stack (top + 0) s.base
        let st1 := wr st0 (top + 1) return_pc
        let st2 := wr st1 (top + 2) fnode
        let st3 := wr st2 (top + 3) arg0
        let st4 := op_CALL_copy env s.base top s.pc nargs st3
        let base := top + (STACK_FRAME_SIZEW : Int)
        .next { s with stack := st4, base := base, top := base + (framesize : Int),
                       code := info, pc := (env.infoCode info).code }

/-- Handler `op_KLIT`. -/
def op_KLIT (env : Env) (s : State) (opA opC : Nat) : Outcome :=
  let lit_id := u2 opC
  .next (s.setReg opA ((env.infoCode s.code).lits lit_id))

/-- Labels `op_INITF` and `op_ALLOCAP`: unimplemented, `return -1`. -/
def op_unimplemented (s : State) : Outcome := .exit (-1) s

/-! ## The dispatch loop -/

/-- One instruction: `DISPATCH_NEXT` followed by the handler it jumps to. -/
def step (env : Env) (s : State) : Outcome :=
  let opA := bc_a (fetch env s.pc)
  let opC := bc_d (fetch env s.pc)
  let s1 := { s with pc := s.pc + 1 }
  match env.disp (bc_op (fetch env s.pc)) with
  | .op_ADDRR => op_ADDRR env s1 opA opC
  | .op_SUBRR => op_SUBRR env s1 opA opC
  | .op_MULRR => op_MULRR env s1 opA opC
  | .op_DIVRR => op_DIVRR env s1 opA opC
  | .op_JMP => op_JMP s1 opC
  | .op_MOV => op_MOV s1 opA opC
  | .op_KINT => op_KINT s1 opA opC
  | .op_NEW_INT => op_NEW_INT env s1 opA opC
  | .op_NOT => op_NOT env s1 opA opC
  | .op_NEG => op_NEG env s1 opA opC
  | .op_ISLT => op_ISLT env s1 opA opC
  | .op_ISGE => op_ISGE env s1 opA opC
  | .op_ISLE => op_ISLE env s1 opA opC
  | .op_ISGT => op_ISGT env s1 opA opC
  | .op_ISNE => op_ISNE env s1 opA opC
  | .op_ISEQ => op_ISEQ env s1 opA opC
  | .op_ALLOC1 => op_ALLOC1 env s1 opA opC
  | .op_ALLOC => op_ALLOC env s1 opA opC
  | .op_LOADF => op_LOADF s1 opA opC
  | .op_LOADFV => op_LOADFV s1 opA opC
  | .op_LOADBH => op_LOADBH env s1 opA
  | .op_LOADSLF => op_LOADSLF s1 opA
  | .op_JFUNC => .next s1
  | .op_IFUNC => .next s1
  | .op_FUNC => .next s1
  | .op_CASE => op_CASE env s1 opA opC
  | .op_CASE_S => op_CASE_S env s1 opA opC
  | .op_EVAL => op_EVAL env s1 opA
  | .op_UPDATE => op_UPDATE env s1 opA opC
  | .op_RET1 => op_RET1 s1 opA
  | .op_MOV_RES => op_MOV_RES s1 opA
  | .op_CALLT => op_CALLT env s1 opA opC
  | .op_CALL => op_CALL env s1 opA opC
  | .op_KLIT => op_KLIT env s1 opA opC
  | .op_INITF => op_unimplemented s1
  | .op_ALLOCAP => op_unimplemented s1
  | .stop => op_stop s1

/-- Run up to `n` instructions; a `return` or a failed assertion ends the run. -/
def runN (env : Env) : Nat → State → Outcome
  | 0, s => .next s
  | n + 1, s =>
    match step env s with
    | .next s1 => runN env n s1
    | o => o

/-- The state of an outcome that still runs. -/
def Outcome.toState : Outcome → Option State
  | .next s => some s
  | _ => none

/-- The state an outcome continues with, or `d` when it does not continue. -/
def Outcome.stateOr (o : Outcome) (d : State) : State :=
  match o with
  | .next s => s
  | _ => d


/-! ## Instruction encoders (`src/vm/bytecode.hh`) -/

/-- Encoder `BcIns::abc`: `opcode | a << 8 | b << 24 | c << 16` with 8-bit
`a`, `b`, `c`. -/
def BcIns.abc (opcode a b c : Nat) : Nat :=
  u4 (u4 opcode ||| ((a % 256) <<< 8) ||| ((b % 256) <<< 24) ||| ((c % 256) <<< 16))

/-- Encoder `BcIns::ad`: `opcode | a << 8 | d << 16` with a 16-bit `d`. -/
def BcIns.ad (opcode a d : Nat) : Nat :=
  u4 (u4 opcode ||| ((a % 256) <<< 8) ||| ((d % 65536) <<< 16))

/-- Encoder `BcIns::asd`: as `ad`, the signed 16-bit `sd` converted to
`uint32_t` before the shift. -/
def BcIns.asd (opcode a : Nat) (sd : Int) : Nat :=
  u4 (u4 opcode ||| ((a % 256) <<< 8) ||| (u4 ((sd % 2 ^ 32).toNat <<< 16)))

/-- Encoder `BcIns::aj`: `ad(opcode, a, kBranchBias + offset)`. -/
def BcIns.aj (opcode a : Nat) (offset : Int) : Nat :=
  BcIns.ad opcode a ((0x8000 + offset) % 2 ^ 16).toNat

/-! ## Reference search for CASE_S -/

/-- The reference linear search of the specification over the `n` entries of
a CASE_S table: the target of the first entry whose tag is `tag`, scanning
entries `i, i + 1, ...`. -/
def caseS_linear_ref (env : Env) (table : Int) (tag : Nat) : Nat → Int → Option Nat
  | 0, _ => none
  | n + 1, i =>
    if bc_case_tag (fetch env (table + i)) = tag then
      some (bc_case_target (fetch env (table + i)))
    else caseS_linear_ref env table tag n (i + 1)

/-- The pc the specification prescribes for a CASE_S with `n` entries at
`table`, whose table ends at `after`: the matching entry's target added to
`after`, or `after` itself (the default arm) when no entry has the tag. -/
def caseS_pc_ref (env : Env) (table : Int) (n : Nat) (tag : Nat) (after : Int) : Int :=
  match caseS_linear_ref env table tag n 0 with
  | some target => after + (target : Int)
  | none => after

/-- The `n` entries of a CASE_S table are in ascending tag order. -/
def caseS_sorted (env : Env) (table : Int) (n : Nat) : Prop :=
  ∀ i j : Nat, i < j → j < n →
    bc_case_tag (fetch env (table + (i : Int))) < bc_case_tag (fetch env (table + (j : Int)))

/-! ## Runs that stay above a frame -/

/-- The run of `n` instructions from `s` ends in `s1`, and every instruction of
it starts with `base` and `top` at or above the stack address `q`: the code
runs in frames pushed at or above `q`. -/
def runsAbove (env : Env) (q : Int) : Nat → State → State → Prop
  | 0, s, s1 => s1 = s
  | n + 1, s, s1 =>
    q ≤ s.base ∧ q ≤ s.top ∧ ∃ m, step env s = .next m ∧ runsAbove env q n m s1

/-! ## A concrete machine

Opcode numbers follow the order of `BCDEF` in `src/vm/bytecode.hh`
(`kISLT = 0`, ..., `kSTOP = 40`). -/

/-- The dispatch table of the example machine. -/
def exDisp (op : Nat) : Label :=
  match op with
  | 0 => .op_ISLT | 1 => .op_ISGE | 2 => .op_ISLE | 3 => .op_ISGT
  | 4 => .op_ISEQ | 5 => .op_ISNE | 6 => .op_NOT | 7 => .op_NEG
  | 8 => .op_MOV | 9 => .op_MOV_RES | 10 => .op_UPDATE | 11 => .op_LOADF
  | 12 => .op_LOADFV | 13 => .op_LOADBH | 14 => .op_LOADSLF | 15 => .op_INITF
  | 16 => .op_ADDRR | 17 => .op_SUBRR | 18 => .op_MULRR | 19 => .op_DIVRR
  | 21 => .op_KLIT | 22 => .op_KINT | 23 => .op_NEW_INT
  | 24 => .op_ALLOC1 | 25 => .op_ALLOC | 26 => .op_ALLOCAP
  | 27 => .op_CALL | 28 => .op_CALLT | 29 => .op_RET1 | 30 => .op_JMP
  | 31 => .op_EVAL | 32 => .op_CASE | 33 => .op_CASE_S
  | 34 => .op_FUNC | 35 => .op_IFUNC | 36 => .op_JFUNC
  | _ => .stop

/-- Info tables of the example machine: 100 is a THUNK, 110 a FUN of arity 2,
120, 160 and 170 are CONSTR with tags 2, 5 and 3, 130 is `stg_IND_info`,
140 the info of `stg_UPD_closure`. -/
def exInfoType (i : Int) : ClosureType :=
  if i = 100 then .THUNK
  else if i = 110 then .FUN
  else if i = 120 then .CONSTR
  else if i = 130 then .IND
  else if i = 140 then .FUN
  else if i = 160 then .CONSTR
  else if i = 170 then .CONSTR
  else .BLACKHOLE

/-- Constructor tags of the example info tables. -/
def exInfoTag (i : Int) : Nat :=
  if i = 120 then 2 else if i = 160 then 5 else if i = 170 then 3 else 0

/-- Code records of the example info tables. -/
def exInfoCode (i : Int) : LcCode :=
  if i = 100 then { framesize := 1, arity := 0, code := 1000, lits := fun _ => 0 }
  else if i = 110 then { framesize := 2, arity := 2, code := 2000, lits := fun _ => 0 }
  else if i = 140 then { framesize := 2, arity := 0, code := 3000, lits := fun _ => 0 }
  else { framesize := 0, arity := 0, code := 0, lits := fun _ => 0 }

/-- Code memory of the example machine.
* 0: `EVAL r0`, bitmap, `EVAL r0`, bitmap, `STOP`.
* 1000 (thunk code): `LOADFV r0, 0; RET1 r0`.
* 2000 (function code): `MOV r1, r0; RET1 r1`.
* 3000 (update code): `MOV_RES r1; UPDATE r0, r1`.
* 4000: `CALL r0, r1, 2`, a word whose bytes all name `r2`, a word whose
  bytes all name `r1`, `STOP`.
* 5000: `CASE r1, 4` with packed targets 0, 5, 3, 9.
* 6000: `CASE_S r0, 5` with tags 1 to 5 and targets 10 to 50.
* 7000: `EVAL r1`, bitmap. -/
def exInstr (a : Int) : Nat :=
  if a = 0 then BcIns.ad 31 0 0
  else if a = 2 then BcIns.ad 31 0 0
  else if a = 4 then BcIns.ad 40 0 0
  else if a = 1000 then BcIns.ad 12 0 0
  else if a = 1001 then BcIns.ad 29 0 0
  else if a = 2000 then BcIns.ad 8 1 0
  else if a = 2001 then BcIns.ad 29 1 0
  else if a = 3000 then BcIns.ad 9 1 0
  else if a = 3001 then BcIns.ad 10 0 1
  else if a = 4000 then BcIns.abc 27 0 1 2
  else if a = 4001 then 0x02020202
  else if a = 4002 then 0x01010101
  else if a = 4003 then BcIns.ad 40 0 0
  else if a = 5000 then BcIns.ad 32 1 4
  else if a = 5001 then 0 + 5 * 65536
  else if a = 5002 then 3 + 9 * 65536
  else if a = 6000 then BcIns.ad 33 0 5
  else if a = 6001 then 1 + 5 * 65536
  else if a = 6002 then 1 + 10 * 65536
  else if a = 6003 then 2 + 20 * 65536
  else if a = 6004 then 3 + 30 * 65536
  else if a = 6005 then 4 + 40 * 65536
  else if a = 6006 then 5 + 50 * 65536
  else if a = 7000 then BcIns.ad 31 1 0
  else 0

/-- The example machine. -/
def exEnv : Env where
  wordBits := 64
  disp := exDisp
  instr := exInstr
  infoType := exInfoType
  infoTag := exInfoTag
  infoCode := exInfoCode
  stg_UPD_closure := 530
  stg_UPD_return_pc := 3000
  stg_IND_info := 130
  stg_BLACKHOLE_closure := 550
  stg_Izh_con_info := 150
  smallInt := fun v => 10000 + v
  alloc := fun n => 20000 + 10 * (n : Int)

/-- Example heap headers: 500 is a thunk, 510 a function closure, 520, 560 and
570 are constructors, 530 is `stg_UPD_closure`, 540 the closure of the running
code. -/
def exInfo (c : Int) : Int :=
  if c = 500 then 100
  else if c = 510 then 110
  else if c = 520 then 120
  else if c = 530 then 140
  else if c = 540 then 110
  else if c = 560 then 160
  else if c = 570 then 170
  else 0

/-- Example state: the frame header occupies slots 10 to 12, `base = 13`,
`top = 15`; register 0 holds the thunk 500, whose free variable is the
constructor 520; register 1 holds 520. -/
def exState : State where
  pc := 0
  base := 13
  top := 15
  last_result := 0
  code := 110
  callt_temp := fun _ => 0
  stack := fun a => if a = 12 then 540 else if a = 13 then 500 else if a = 14 then 520 else 0
  info := exInfo
  payload := fun c i => if c = 500 ∧ i = 0 then 520 else 0
  nalloc := 0
  T_pc := 0
  T_base := 13

/-- The example state at the `EVAL r1` of address 7000; register 1 holds the
constructor 520. -/
def exHnfState : State := { exState with pc := 7000 }

/-- The example state at the `CASE r1, 4` of address 5000. -/
def exCaseState : State := { exState with pc := 5000 }

/-- A state at the `CALL r0, r1, 2` of address 4000: `base = 13`, `top = 16`,
register 0 holds the function closure 510, registers 1 and 2 hold 111 and
222. -/
def exCallState : State :=
  { exState with
    pc := 4000
    top := 16
    stack := fun a =>
      if a = 12 then 540 else if a = 13 then 510 else if a = 14 then 111
      else if a = 15 then 222 else 0 }

/-- A state at the `UPDATE r0, r1` of address 3001, in an update frame with
`base = 18` whose header (slots 15 to 17) returns to pc 2 and base 13. -/
def exUpdState : State :=
  { exState with
    pc := 3001
    base := 18
    top := 20
    stack := fun a =>
      if a = 12 then 540 else if a = 13 then 500 else if a = 15 then 13
      else if a = 16 then 2 else if a = 17 then 530 else if a = 18 then 500
      else if a = 19 then 520 else 0 }

/-- A state at the `CASE_S r0, 5` of address 6000 whose register 0 holds the
constructor `cl`. -/
def exCaseSState (cl : Int) : State :=
  { exState with
    pc := 6000
    stack := fun a => if a = 12 then 540 else if a = 13 then cl else 0 }

/-! ## Field accessors of `BcIns` (`src/vm/bytecode.hh`) -/

/-- Accessor `BcIns::a`: `(raw_ >> 8) & 0xff` as `uint8_t`. -/
def BcIns.a (raw : Nat) : Nat := ((raw >>> 8) % 256) % 256

/-- Accessor `BcIns::b`: `raw_ >> 24` as `uint8_t`. -/
def BcIns.b (raw : Nat) : Nat := (raw >>> 24) % 256

/-- Accessor `BcIns::c`: `(raw_ >> 16) & 0xff` as `uint8_t`. -/
def BcIns.c (raw : Nat) : Nat := ((raw >>> 16) % 256) % 256

/-- Accessor `BcIns::d`: `raw_ >> 16` as `uint16_t`. -/
def BcIns.d (raw : Nat) : Nat := (raw >>> 16) % 65536

/-- Conversion of an unsigned value to `int16_t`: the low 16 bits read in
two's complement. -/
def toInt16 (n : Nat) : Int :=
  if n % 65536 < 32768 then ((n % 65536 : Nat) : Int) else ((n % 65536 : Nat) : Int) - 65536

/-- Accessor `BcIns::sd`: `raw_ >> 16` as `int16_t`. -/
def BcIns.sd (raw : Nat) : Int := toInt16 (raw >>> 16)

/-- Accessor `BcIns::j`: `(raw_ >> 16) - 0x8000`, computed in `uint32_t`, as
`int16_t`. -/
def BcIns.j (raw : Nat) : Int := toInt16 (u4 ((raw >>> 16) + 2 ^ 32 - 0x8000))

/-! ## Predicates used by the statements -/

/-- The six comparison handlers. -/
def isCompare (l : Label) : Prop :=
  l = .op_ISLT ∨ l = .op_ISGE ∨ l = .op_ISLE ∨ l = .op_ISGT ∨ l = .op_ISEQ ∨ l = .op_ISNE

/-- The predicate a comparison opcode tests on the words `x = base[A]` and
`y = base[D]`: signed order for ISLT, ISGE, ISLE, ISGT, equality of the words
for ISEQ and ISNE. -/
def comparePred (env : Env) (l : Label) (x y : Int) : Prop :=
  match l with
  | .op_ISLT => toSigned env x < toSigned env y
  | .op_ISGE => toSigned env x ≥ toSigned env y
  | .op_ISLE => toSigned env x ≤ toSigned env y
  | .op_ISGT => toSigned env x > toSigned env y
  | .op_ISEQ => x = y
  | .op_ISNE => x ≠ y
  | _ => False

/-- The current `code` is the Code record of the info table of the Node
`base[-1]`. -/
def codeMatchesNode (s : State) : Prop :=
  s.code = s.info (s.stack (s.base - 1))

/-- The Node/code invariant: `base[-1]` is a non-null closure whose info table
is FUN or THUNK, and `code` is that info table's Code record. -/
def nodeInvariant (env : Env) (s : State) : Prop :=
  s.stack (s.base - 1) ≠ 0 ∧
  (env.infoType (s.info (s.stack (s.base - 1))) = .FUN ∨
    env.infoType (s.info (s.stack (s.base - 1))) = .THUNK) ∧
  codeMatchesNode s

/-- The stack invariant `stack <= base <= top <= stack + stack_size` for a
thread whose stack array starts at address `stack` and has `stack_size`
words (both are fixed when the thread is created). -/
def stackInBounds (stack : Int) (stack_size : Nat) (s : State) : Prop :=
  stack ≤ s.base ∧ s.base ≤ s.top ∧ s.top ≤ stack + (stack_size : Int)

/-- A run of `n` consecutive CALLT instructions from `s` to `s1`, each of them
successful and each with a callee whose framesize is at most `bound`. -/
def tailCallRun (env : Env) (bound : Nat) : Nat → State → State → Prop
  | 0, s, s1 => s1 = s
  | n + 1, s, s1 =>
    env.disp (bc_op (fetch env s.pc)) = Label.op_CALLT ∧
    (env.infoCode (s.info (s.reg (bc_a (fetch env s.pc))))).framesize ≤ bound ∧
    ∃ m, step env s = .next m ∧ tailCallRun env bound n m s1

/-! ## A second concrete machine

The first example machine extended by more code, two more constructors and a
second function. -/

/-- Code memory of the second example machine: that of the first one and
* 8000: `ISLT r0, r1`, `JMP +1`.
* 8100: `CALLT r2, 2, r1` with the argument byte `r0` (a swap of `r0` and
  `r1`).
* 8200: `ALLOC1 r2, r0, r1`.
* 8300: `ALLOC r2, r0, 1` with argument bytes that all name `r1`.
* 8400: `CASE_S r0, 3` with mintag 5, maxtag 9 and the entries (5, 11),
  (7, 22), (9, 33).
* 8500: `CALL r0, r1, 1`. -/
def exInstr2 (a : Int) : Nat :=
  if a = 8000 then BcIns.ad 0 0 1
  else if a = 8001 then BcIns.aj 30 0 1
  else if a = 8100 then BcIns.abc 28 2 2 1
  else if a = 8101 then 0
  else if a = 8200 then BcIns.abc 24 2 0 1
  else if a = 8300 then BcIns.abc 25 2 0 1
  else if a = 8301 then 0x01010101
  else if a = 8400 then BcIns.ad 33 0 3
  else if a = 8401 then 5 + 9 * 65536
  else if a = 8402 then 5 + 11 * 65536
  else if a = 8403 then 7 + 22 * 65536
  else if a = 8404 then 9 + 33 * 65536
  else if a = 8500 then BcIns.abc 27 0 1 1
  else exInstr a

/-- Info table types of the second example machine: 180 and 190 are CONSTR
(tags 6 and 7), 200 is a FUN of arity 2 and framesize 5. -/
def exInfoType2 (i : Int) : ClosureType :=
  if i = 180 then .CONSTR
  else if i = 190 then .CONSTR
  else if i = 200 then .FUN
  else exInfoType i

/-- Constructor tags of the second example machine. -/
def exInfoTag2 (i : Int) : Nat :=
  if i = 180 then 6 else if i = 190 then 7 else exInfoTag i

/-- Code records of the second example machine. -/
def exInfoCode2 (i : Int) : LcCode :=
  if i = 200 then { framesize := 5, arity := 2, code := 2100, lits := fun _ => 0 }
  else exInfoCode i

/-- The second example machine. -/
def exEnv2 : Env :=
  { exEnv with
    instr := exInstr2
    infoType := exInfoType2
    infoTag := exInfoTag2
    infoCode := exInfoCode2 }

/-- Heap headers of the second example machine: 580 and 590 are constructors
with tags 6 and 7, 600 is a closure of the function with info table 200. -/
def exInfo2 (c : Int) : Int :=
  if c = 580 then 180
  else if c = 590 then 190
  else if c = 600 then 200
  else exInfo c

/-- A state of the second example machine at address `pc`: frame header in
slots 10 to 12 (Node 540), `base = 13`, `top = 16`, and the registers
`r0`, `r1`, `r2` hold `x0`, `x1`, `x2`. -/
def exRegs (pc x0 x1 x2 : Int) : State :=
  { exState with
    pc := pc
    top := 16
    info := exInfo2
    stack := fun a =>
      if a = 10 then 3 else if a = 11 then 4 else if a = 12 then 540
      else if a = 13 then x0 else if a = 14 then x1 else if a = 15 then x2 else 0 }

/-! ## The table reads of CASE_S -/

/-- The table indices read by the `while (ilen > 4)` loop of `op_CASE_S`, in
the order of the reads: each iteration reads `table[imid]`. -/
def op_CASE_S_while_reads (env : Env) (table : Int) (tag : Nat) (istart ilen : Int) :
    List Int :=
  if h : ilen > 4 then
    let imid := Int.tdiv (istart + istart + ilen) 2
    if bc_case_tag (fetch env (table + imid)) = tag then
      [imid]
    else if bc_case_tag (fetch env (table + imid)) < tag then
      imid :: op_CASE_S_while_reads env table tag istart (imid - istart)
    else
      imid :: op_CASE_S_while_reads env table tag (imid + 1) (istart + ilen + 1 - imid)
  else
    []
termination_by ilen.toNat
decreasing_by
  all_goals simp_wf
  all_goals
    have hb : ∀ x : Int, x - 1 ≤ 2 * Int.tdiv x 2 ∧ 2 * Int.tdiv x 2 ≤ x + 1 := by
      intro x
      rcases le_total 0 x with h0 | h0
      · rw [Int.tdiv_eq_ediv h0 (by decide)]
        omega
      · have hx : x = -(-x) := by omega
        rw [hx, Int.neg_tdiv, Int.tdiv_eq_ediv (by omega) (by decide)]
        omega
    have hb2 := hb (istart + istart + ilen)
    omega

/-- The table indices read by the linear loop of `op_CASE_S`
(`for (imid = istart; ilen > 0; ilen--, imid++)`), run for `n` remaining
iterations from `imid`. -/
def op_CASE_S_for_reads (env : Env) (table : Int) (tag : Nat) : Nat → Int → List Int
  | 0, _ => []
  | n + 1, imid =>
    if bc_case_tag (fetch env (table + imid)) = tag then [imid]
    else imid :: op_CASE_S_for_reads env table tag n (imid + 1)

/-- The table indices read by the search of `op_CASE_S` for a tag inside
`[min_tag, max_tag]`: the reads of the binary-search loop, followed by the
reads of the linear loop on the interval the first loop leaves. -/
def op_CASE_S_reads (env : Env) (table : Int) (tag : Nat) (num_cases : Nat) : List Int :=
  op_CASE_S_while_reads env table tag 0 (num_cases : Int) ++
    match op_CASE_S_while env table tag 0 (num_cases : Int) with
    | .found => []
    | .linear istart ilen => op_CASE_S_for_reads env table tag ilen.toNat istart

/-! ## A third concrete machine -/

/-- Code memory of the third example machine: that of the second one and
* 9000: `KINT r0, -1`; 9001: `KINT r1, -32768`.
* 9100: `NEW_INT r0, r0`.
* 9200: `KINT r0, 1; KINT r1, 2; ISLT r0, r1; JMP +1; KINT r2, 100;
  KINT r2, 200; RET1 r2`.
* 9300: `DIVRR r2, r0, r1`.
* 9400: `CALLT r2, 0, r1`; the word at 9404 has bytes that all name `r1`. -/
def exInstr3 (a : Int) : Nat :=
  if a = 9000 then BcIns.asd 22 0 (-1)
  else if a = 9001 then BcIns.asd 22 1 (-32768)
  else if a = 9100 then BcIns.ad 23 0 0
  else if a = 9200 then BcIns.ad 22 0 1
  else if a = 9201 then BcIns.ad 22 1 2
  else if a = 9202 then BcIns.ad 0 0 1
  else if a = 9203 then BcIns.aj 30 0 1
  else if a = 9204 then BcIns.ad 22 2 100
  else if a = 9205 then BcIns.ad 22 2 200
  else if a = 9206 then BcIns.ad 29 2 0
  else if a = 9300 then BcIns.abc 19 2 0 1
  else if a = 9400 then BcIns.abc 28 2 0 1
  else if a = 9404 then 0x01010101
  else exInstr2 a

/-- The third example machine, with 64-bit words. -/
def exEnv3 : Env := { exEnv2 with instr := exInstr3 }

/-- The third example machine with 32-bit words. -/
def exEnv3w32 : Env := { exEnv3 with wordBits := 32 }

/-- A state of the third example machine at the program of address 9200.  The
running frame has `base = 13` and `top = 16`, its Node is the function closure
540 and its header saves the base 5 and the return address 4 (a `STOP`); the
Node of the frame with base 5, in slot 4, is the function closure 540. -/
def exBranchState : State :=
  { exState with
    pc := 9200
    top := 16
    info := exInfo2
    stack := fun a =>
      if a = 4 then 540 else if a = 10 then 5 else if a = 11 then 4
      else if a = 12 then 540 else 0 }

/-! ## Basic facts about the memory helpers -/

theorem wr_same (m : Int → Int) (a v : Int) : wr m a v a = v := by
  simp [wr]

theorem wr_other (m : Int → Int) (a v x : Int) (h : x ≠ a) : wr m a v x = m x := by
  simp [wr, h]

theorem closure_HNF_of_type (env : Env) (s : State) (cl : Int)
    (h : env.infoType (s.info cl) = .CONSTR ∨ env.infoType (s.info cl) = .FUN ∨
      env.infoType (s.info cl) = .PAP) : closure_HNF env s cl = true := by
  unfold closure_HNF
  rcases h with h | h | h <;> simp [h]

theorem closure_HNF_of_IND (env : Env) (s : State) (cl : Int)
    (h : env.infoType (s.info cl) = .IND) : closure_HNF env s cl = false := by
  unfold closure_HNF
  simp [h]

theorem u4_of_lt (n : Nat) (h : n < 2 ^ 32) : u4 n = n := by
  unfold u4
  exact Nat.mod_eq_of_lt h

/-! ## EVAL -/

/-- C2: EVAL of a closure in head normal form (info type CONSTR, FUN or PAP)
pushes no frame: `base`, `top`, the whole stack and the heap are unchanged,
`last_result` becomes `base[A]`, and `pc` is the address after the one-word
live-out bitmap (two words past the EVAL instruction). -/
theorem C2_eval_hnf_fast_path (env : Env) (s : State)
    (hop : env.disp (bc_op (fetch env s.pc)) = Label.op_EVAL)
    (hnn : s.reg (bc_a (fetch env s.pc)) ≠ 0)
    (hty : env.infoType (s.info (s.reg (bc_a (fetch env s.pc)))) = .CONSTR ∨
      env.infoType (s.info (s.reg (bc_a (fetch env s.pc)))) = .FUN ∨
      env.infoType (s.info (s.reg (bc_a (fetch env s.pc)))) = .PAP) :
    step env s =
      .next { s with last_result := s.reg (bc_a (fetch env s.pc)), pc := s.pc + 2 } := by
  have hnf := closure_HNF_of_type env s _ hty
  have hnn1 : ¬ s.stack (s.base + (bc_a (fetch env s.pc) : Int)) = 0 := hnn
  have hnf1 : closure_HNF env { s with pc := s.pc + 1 }
      (s.stack (s.base + (bc_a (fetch env s.pc) : Int))) = true := hnf
  simp only [step, hop, op_EVAL, State.reg, hnn1, hnf1, if_false, if_true]
  congr 2
  omega

/-- The slow path of `op_EVAL` written out: the state after EVAL of a non-null
closure that is not in head normal form. -/
theorem step_eval_thunk (env : Env) (s : State)
    (hop : env.disp (bc_op (fetch env s.pc)) = Label.op_EVAL)
    (hnn : s.reg (bc_a (fetch env s.pc)) ≠ 0)
    (hnf : closure_HNF env s (s.reg (bc_a (fetch env s.pc))) = false) :
    step env s = .next { s with
      stack := wr (wr (wr (wr (wr (wr (wr (wr s.stack (s.top + 0) s.base)
        (s.top + 1) (s.pc + 1 + 1)) (s.top + 2) env.stg_UPD_closure)
        (s.top + 3) (s.reg (bc_a (fetch env s.pc)))) (s.top + 4) 0)
        (s.top + 5) (s.top + 3)) (s.top + 6) env.stg_UPD_return_pc)
        (s.top + 7) (s.reg (bc_a (fetch env s.pc))),
      base := s.top + 8,
      top := s.top + 8 +
        (u4 (env.infoCode (s.info (s.reg (bc_a (fetch env s.pc))))).framesize : Int),
      code := s.info (s.reg (bc_a (fetch env s.pc))),
      pc := (env.infoCode (s.info (s.reg (bc_a (fetch env s.pc))))).code } := by
  have hnn1 : ¬ s.stack (s.base + (bc_a (fetch env s.pc) : Int)) = 0 := hnn
  have hnf1 : closure_HNF env { s with pc := s.pc + 1 }
      (s.stack (s.base + (bc_a (fetch env s.pc) : Int))) = false := hnf
  simp only [step, hop, op_EVAL, State.reg, hnn1, hnf1, if_false, stackOverflow,
    STACK_FRAME_SIZEW, UPDATE_FRAME_SIZEW]
  simp only [ne_eq, not_true_eq_false, if_false, Bool.false_eq_true]
  congr 2 <;> first | rfl | (push_cast; omega)

/-- Witness of C2 on the example machine: `EVAL r1` at address 7000 with the
constructor 520 in register 1. -/
theorem C2_eval_hnf_fast_path_witness :
    exEnv.infoType (exHnfState.info (exHnfState.reg (bc_a (fetch exEnv exHnfState.pc))))
      = .CONSTR ∧
    step exEnv exHnfState =
      .next { exHnfState with
        last_result := exHnfState.reg (bc_a (fetch exEnv exHnfState.pc)),
        pc := exHnfState.pc + 2 } :=
  ⟨by decide,
   C2_eval_hnf_fast_path exEnv exHnfState (by decide) (by decide) (Or.inl (by decide))⟩

/-- The frames written by the slow path of EVAL, slot by slot. -/
theorem eval_thunk_frames (env : Env) (s : State)
    (hop : env.disp (bc_op (fetch env s.pc)) = Label.op_EVAL)
    (hnn : s.reg (bc_a (fetch env s.pc)) ≠ 0)
    (hnf : closure_HNF env s (s.reg (bc_a (fetch env s.pc))) = false) :
    ∃ s1, step env s = .next s1 ∧
      s1.stack (s.top + 0) = s.base ∧
      s1.stack (s.top + 1) = s.pc + 2 ∧
      s1.stack (s.top + 2) = env.stg_UPD_closure ∧
      s1.stack (s.top + 3) = s.reg (bc_a (fetch env s.pc)) ∧
      s1.stack (s.top + 4) = 0 ∧
      s1.stack (s.top + 5) = s.top + 3 ∧
      s1.stack (s.top + 6) = env.stg_UPD_return_pc ∧
      s1.stack (s.top + 7) = s.reg (bc_a (fetch env s.pc)) ∧
      ∀ a, (a < s.top ∨ s.top + 7 < a) → s1.stack a = s.stack a := by
  refine ⟨_, step_eval_thunk env s hop hnn hnf, ?_⟩
  simp only [wr]
  refine ⟨?_, ?_, ?_, ?_, ?_, ?_, ?_, ?_, ?_⟩
  · simp
  · simp; omega
  · simp
  · simp
  · simp
  · simp
  · simp
  · simp
  · intro a ha
    have h0 : a ≠ s.top + 0 := by omega
    have h1 : a ≠ s.top + 1 := by omega
    have h2 : a ≠ s.top + 2 := by omega
    have h3 : a ≠ s.top + 3 := by omega
    have h4 : a ≠ s.top + 4 := by omega
    have h5 : a ≠ s.top + 5 := by omega
    have h6 : a ≠ s.top + 6 := by omega
    have h7 : a ≠ s.top + 7 := by omega
    simp only [h0, h1, h2, h3, h4, h5, h6, h7, if_false]

/-- C3: EVAL of a non-null closure `t` that is not in head normal form writes
the eight slots `top[0..7]` (`top` taken before the instruction) with the old
base, the return pc after the live-out bitmap, `stg_UPD_closure`, `t`, 0, the
address of `top[3]`, `stg_UPD_return_pc` and `t`; every other stack slot keeps
its value. -/
theorem C3_eval_thunk_writes_frames (env : Env) (s : State)
    (hop : env.disp (bc_op (fetch env s.pc)) = Label.op_EVAL)
    (hnn : s.reg (bc_a (fetch env s.pc)) ≠ 0)
    (hnf : closure_HNF env s (s.reg (bc_a (fetch env s.pc))) = false) :
    ∃ s1, step env s = .next s1 ∧
      s1.stack (s.top + 0) = s.base ∧
      s1.stack (s.top + 1) = s.pc + 2 ∧
      s1.stack (s.top + 2) = env.stg_UPD_closure ∧
      s1.stack (s.top + 3) = s.reg (bc_a (fetch env s.pc)) ∧
      s1.stack (s.top + 4) = 0 ∧
      s1.stack (s.top + 5) = s.top + 3 ∧
      s1.stack (s.top + 6) = env.stg_UPD_return_pc ∧
      s1.stack (s.top + 7) = s.reg (bc_a (fetch env s.pc)) ∧
      ∀ a, (a < s.top ∨ s.top + 7 < a) → s1.stack a = s.stack a :=
  eval_thunk_frames env s hop hnn hnf

/-- Witness of C3 on the example machine: `EVAL r0` at address 0 with the
thunk 500 in register 0. -/
theorem C3_eval_thunk_writes_frames_witness :
    closure_HNF exEnv exState (exState.reg (bc_a (fetch exEnv exState.pc))) = false ∧
    ∃ s1, step exEnv exState = .next s1 ∧
      s1.stack (exState.top + 0) = exState.base ∧
      s1.stack (exState.top + 1) = exState.pc + 2 ∧
      s1.stack (exState.top + 2) = exEnv.stg_UPD_closure ∧
      s1.stack (exState.top + 3) = exState.reg (bc_a (fetch exEnv exState.pc)) ∧
      s1.stack (exState.top + 4) = 0 ∧
      s1.stack (exState.top + 5) = exState.top + 3 ∧
      s1.stack (exState.top + 6) = exEnv.stg_UPD_return_pc ∧
      s1.stack (exState.top + 7) = exState.reg (bc_a (fetch exEnv exState.pc)) ∧
      ∀ a, (a < exState.top ∨ exState.top + 7 < a) → s1.stack a = exState.stack a :=
  ⟨by decide,
   C3_eval_thunk_writes_frames exEnv exState (by decide) (by decide) (by decide)⟩

/-- C4 (as amended): after EVAL of a non-null closure `t` that is not in head
normal form and whose info table has the Code record `c`, the registers are
`base = (old top) + 8` (a frame header of 3 words and an update frame of 5
words lie between), `top = base + c.framesize`, `code = c` and `pc` = the
first instruction of `c`. -/
theorem C4_eval_thunk_registers (env : Env) (s : State)
    (hop : env.disp (bc_op (fetch env s.pc)) = Label.op_EVAL)
    (hnn : s.reg (bc_a (fetch env s.pc)) ≠ 0)
    (hnf : closure_HNF env s (s.reg (bc_a (fetch env s.pc))) = false)
    (hfs : (env.infoCode (s.info (s.reg (bc_a (fetch env s.pc))))).framesize < 2 ^ 32) :
    ∃ s1, step env s = .next s1 ∧
      s1.base = s.top + 8 ∧
      s1.top = s1.base +
        ((env.infoCode (s.info (s.reg (bc_a (fetch env s.pc))))).framesize : Int) ∧
      s1.code = s.info (s.reg (bc_a (fetch env s.pc))) ∧
      s1.pc = (env.infoCode (s.info (s.reg (bc_a (fetch env s.pc))))).code := by
  refine ⟨_, step_eval_thunk env s hop hnn hnf, rfl, ?_, rfl, rfl⟩
  simp only [u4_of_lt _ hfs]

/-- Witness of C4 on the example machine. -/
theorem C4_eval_thunk_registers_witness :
    closure_HNF exEnv exState (exState.reg (bc_a (fetch exEnv exState.pc))) = false ∧
    ∃ s1, step exEnv exState = .next s1 ∧
      s1.base = exState.top + 8 ∧
      s1.top = s1.base +
        ((exEnv.infoCode (exState.info
          (exState.reg (bc_a (fetch exEnv exState.pc))))).framesize : Int) ∧
      s1.code = exState.info (exState.reg (bc_a (fetch exEnv exState.pc))) ∧
      s1.pc = (exEnv.infoCode (exState.info
          (exState.reg (bc_a (fetch exEnv exState.pc))))).code :=
  ⟨by decide,
   C4_eval_thunk_registers exEnv exState (by decide) (by decide) (by decide) (by decide)⟩

/-- C4 as stated fails: on the example machine, EVAL of the thunk 500 with
`top = 15` is the slow path and leaves `base = 23`, which is `top + 8` and
not `top + 6`. -/
theorem C4_base_is_not_top_plus_six :
    exEnv.disp (bc_op (fetch exEnv exState.pc)) = Label.op_EVAL ∧
    closure_HNF exEnv exState (exState.reg (bc_a (fetch exEnv exState.pc))) = false ∧
    (step exEnv exState).toState.map (fun s1 => s1.base) = some 23 ∧
    (step exEnv exState).toState.map (fun s1 => decide (s1.base = exState.top + 6))
      = some false := by
  refine ⟨by decide, by decide, by decide, by decide⟩

/-! ## UPDATE and the return sequence -/

/-- The state after `step` at an UPDATE instruction. -/
theorem step_update (env : Env) (s : State)
    (hop : env.disp (bc_op (fetch env s.pc)) = Label.op_UPDATE) :
    step env s = .next { s with
      info := wr s.info (s.reg (bc_a (fetch env s.pc))) env.stg_IND_info,
      payload := wrPayload s.payload (s.reg (bc_a (fetch env s.pc))) 0
        (s.reg (bc_d (fetch env s.pc))),
      last_result := s.reg (bc_d (fetch env s.pc)),
      top := s.base - 3,
      pc := s.stack (s.base - 2),
      base := s.stack (s.base - 3),
      code := wr s.info (s.reg (bc_a (fetch env s.pc))) env.stg_IND_info
        (s.stack (s.stack (s.base - 3) - 1)) } := by
  simp only [step, hop, op_UPDATE, do_return, State.reg]

/-- The state after `step` at a RET1 instruction. -/
theorem step_ret1 (env : Env) (s : State)
    (hop : env.disp (bc_op (fetch env s.pc)) = Label.op_RET1) :
    step env s = .next { s with
      last_result := s.reg (bc_a (fetch env s.pc)),
      top := s.base - 3,
      pc := s.stack (s.base - 2),
      base := s.stack (s.base - 3),
      code := s.info (s.stack (s.stack (s.base - 3) - 1)) } := by
  simp only [step, hop, op_RET1, do_return, State.reg]

/-- The state after `step` at a MOV_RES instruction. -/
theorem step_mov_res (env : Env) (s : State)
    (hop : env.disp (bc_op (fetch env s.pc)) = Label.op_MOV_RES) :
    step env s = .next { s with
      pc := s.pc + 1,
      stack := wr s.stack (s.base + (bc_a (fetch env s.pc) : Int)) s.last_result } := by
  simp only [step, hop, op_MOV_RES, State.setReg]

/-- C8: UPDATE A,D with `oldnode = base[A]` and `newnode = base[D]` sets the
info of `oldnode` to `stg_IND_info` and its `payload[0]` to `newnode`, leaves
every other closure (and the other payload words of `oldnode`) and the stack
unchanged, sets `last_result = newnode` and runs the common return sequence:
`top = old base - 3`, `pc = old base[-2]`, `base = old base[-3]`, `code` = the
info of the closure at the new `base[-1]`. -/
theorem C8_update_writes_indirection (env : Env) (s : State)
    (hop : env.disp (bc_op (fetch env s.pc)) = Label.op_UPDATE) :
    ∃ s1, step env s = .next s1 ∧
      s1.info (s.reg (bc_a (fetch env s.pc))) = env.stg_IND_info ∧
      s1.payload (s.reg (bc_a (fetch env s.pc))) 0 = s.reg (bc_d (fetch env s.pc)) ∧
      (∀ c, c ≠ s.reg (bc_a (fetch env s.pc)) →
        s1.info c = s.info c ∧ ∀ i, s1.payload c i = s.payload c i) ∧
      (∀ i, i ≠ 0 → s1.payload (s.reg (bc_a (fetch env s.pc))) i
        = s.payload (s.reg (bc_a (fetch env s.pc))) i) ∧
      s1.stack = s.stack ∧
      s1.last_result = s.reg (bc_d (fetch env s.pc)) ∧
      s1.top = s.base - 3 ∧
      s1.pc = s.stack (s.base - 2) ∧
      s1.base = s.stack (s.base - 3) ∧
      s1.code = s1.info (s1.stack (s1.base - 1)) := by
  refine ⟨_, step_update env s hop, ?_, ?_, ?_, ?_, rfl, rfl, rfl, rfl, rfl, rfl⟩
  · simp [wr]
  · simp [wrPayload]
  · intro c hc
    refine ⟨by simp [wr, hc], fun i => by simp [wrPayload, hc]⟩
  · intro i hi
    simp [wrPayload, hi]

/-- Witness of C8 on the example machine: `UPDATE r0, r1` at address 3001
overwrites the thunk 500 with an indirection to 520. -/
theorem C8_update_writes_indirection_witness :
    ∃ s1, step exEnv exUpdState = .next s1 ∧
      s1.info (exUpdState.reg (bc_a (fetch exEnv exUpdState.pc))) = exEnv.stg_IND_info ∧
      s1.payload (exUpdState.reg (bc_a (fetch exEnv exUpdState.pc))) 0
        = exUpdState.reg (bc_d (fetch exEnv exUpdState.pc)) ∧
      (∀ c, c ≠ exUpdState.reg (bc_a (fetch exEnv exUpdState.pc)) →
        s1.info c = exUpdState.info c ∧ ∀ i, s1.payload c i = exUpdState.payload c i) ∧
      (∀ i, i ≠ 0 → s1.payload (exUpdState.reg (bc_a (fetch exEnv exUpdState.pc))) i
        = exUpdState.payload (exUpdState.reg (bc_a (fetch exEnv exUpdState.pc))) i) ∧
      s1.stack = exUpdState.stack ∧
      s1.last_result = exUpdState.reg (bc_d (fetch exEnv exUpdState.pc)) ∧
      s1.top = exUpdState.base - 3 ∧
      s1.pc = exUpdState.stack (exUpdState.base - 2) ∧
      s1.base = exUpdState.stack (exUpdState.base - 3) ∧
      s1.code = s1.info (s1.stack (s1.base - 1)) :=
  C8_update_writes_indirection exEnv exUpdState (by decide)

/-! ## Dense CASE -/

theorem fetch_lt (env : Env) (a : Int) : fetch env a < 2 ^ 32 := by
  unfold fetch u4
  exact Nat.mod_lt _ (by decide)

theorem bc_d_fetch_lt (env : Env) (a : Int) : bc_d (fetch env a) < 65536 := by
  have h := fetch_lt env a
  unfold bc_d
  rw [Nat.shiftRight_eq_div_pow]
  omega

/-- C10: dense CASE A,n with `t = getTag(base[A])`.  When `t < n` the next pc
is the address after the table of `(n + 1) / 2` words plus the packed target
of `t`: the low 16 bits of table word `t / 2` for even `t`, the high 16 bits
for odd `t`.  When `t >= n` the next pc is the address after the table.
Nothing but `pc` changes. -/
theorem C10_case_dense_jump (env : Env) (s : State)
    (hop : env.disp (bc_op (fetch env s.pc)) = Label.op_CASE) :
    let n := bc_d (fetch env s.pc)
    let t := getTag env s (s.reg (bc_a (fetch env s.pc)))
    let after : Int := s.pc + 1 + (((n + 1) / 2 : Nat) : Int)
    let word := fetch env (s.pc + 1 + ((t / 2 : Nat) : Int))
    (t < n → t % 2 = 0 →
      step env s = .next { s with pc := after + ((word % 65536 : Nat) : Int) }) ∧
    (t < n → t % 2 = 1 →
      step env s = .next { s with pc := after + ((word / 65536 : Nat) : Int) }) ∧
    (n ≤ t → step env s = .next { s with pc := after }) := by
  intro n t after word
  have hn : u2 (bc_d (fetch env s.pc)) = n := by
    have := bc_d_fetch_lt env s.pc
    unfold u2
    exact Nat.mod_eq_of_lt this
  have ht : u2 (getTag env { s with pc := s.pc + 1 }
      (s.stack (s.base + (bc_a (fetch env s.pc) : Int)))) = t := by
    show u2 (u2 _) = u2 _
    unfold u2
    exact Nat.mod_mod _ _
  have hw := fetch_lt env (s.pc + 1 + ((t / 2 : Nat) : Int))
  have hsh1 : ∀ k : Nat, k >>> 1 = k / 2 := fun k => by
    rw [Nat.shiftRight_eq_div_pow]
  have hsh16 : ∀ k : Nat, k >>> 16 = k / 65536 := fun k => by
    rw [Nat.shiftRight_eq_div_pow]
  refine ⟨fun hlt hev => ?_, fun hlt hodd => ?_, fun hge => ?_⟩
  · have hev1 : ¬ t % 2 ≠ 0 := by omega
    simp only [step, hop, op_CASE, State.reg, hn, ht, hlt, if_true, hev1, if_false,
      bc_case_targetlo, hsh1]
    have hu : u2 (word % 65536) = word % 65536 := by
      unfold u2; omega
    simp only [word] at hu
    simp only [hu]
  · have hodd1 : t % 2 ≠ 0 := by omega
    have hodd2 : ¬ t % 2 = 0 := by omega
    simp only [step, hop, op_CASE, State.reg, hn, ht, hlt, if_true, hodd1, hodd2,
      bc_case_target, hsh1, hsh16, ne_eq, not_false_eq_true]
    have hu : u2 (word / 65536) = word / 65536 := by
      unfold u2; omega
    simp only [word] at hu
    simp only [hu]
  · have hge1 : ¬ t < n := by omega
    simp only [step, hop, op_CASE, State.reg, hn, ht, hge1, if_false, hsh1]

/-- Witness of C10, the scenario of the specification: tag 2, `CASE r1, 4`
with packed targets 0, 5, 3, 9; the table ends at 5003 and the next pc is 3
words past it. -/
theorem C10_case_dense_jump_witness :
    getTag exEnv exCaseState (exCaseState.reg (bc_a (fetch exEnv exCaseState.pc))) = 2 ∧
    bc_d (fetch exEnv exCaseState.pc) = 4 ∧
    step exEnv exCaseState = .next { exCaseState with pc := 5003 + 3 } :=
  ⟨by decide, by decide,
   (C10_case_dense_jump exEnv exCaseState (by decide)).1 (by decide) (by decide)⟩

/-! ## CALL -/

/-- The argument loop of CALL leaves every slot below `top + 4` alone. -/
theorem call_copy_loop_below (env : Env) (base top pc : Int) (n : Nat) (st : Int → Int)
    (a : Int) (ha : a < top + 4) :
    ((List.range n).foldl
      (fun m k => wr m (top + ((k + 1 + 3 : Nat) : Int)) (m (base + (argByte env pc k : Int))))
      st) a = st a := by
  induction n with
  | zero => simp
  | succ n ih =>
    have hne : a ≠ top + ((n + 1 + 3 : Nat) : Int) := by
      clear ih
      push_cast
      omega
    simp only [List.range_succ, List.foldl_append, List.foldl_cons, List.foldl_nil]
    rw [wr_other _ _ _ _ hne]
    exact ih

/-- The argument loop of CALL stores argument `i` in slot `top + 4 + i`, when
the argument registers lie below `top`. -/
theorem call_copy_loop_arg (env : Env) (base top pc : Int) (n : Nat) (st : Int → Int)
    (hwin : ∀ k, k < n → base + (argByte env pc k : Int) < top)
    (i : Nat) (hi : i < n) :
    ((List.range n).foldl
      (fun m k => wr m (top + ((k + 1 + 3 : Nat) : Int)) (m (base + (argByte env pc k : Int))))
      st) (top + 4 + (i : Int)) = st (base + (argByte env pc i : Int)) := by
  induction n with
  | zero => omega
  | succ n ih =>
    simp only [List.range_succ, List.foldl_append, List.foldl_cons, List.foldl_nil]
    by_cases hin : i = n
    · subst hin
      have haddr : top + 4 + (i : Int) = top + ((i + 1 + 3 : Nat) : Int) := by
        clear ih
        push_cast
        omega
      have hlow : base + (argByte env pc i : Int) < top + 4 := by
        have := hwin i hi
        clear ih
        omega
      rw [haddr, wr_same]
      exact call_copy_loop_below env base top pc i st _ hlow
    · have hne : top + 4 + (i : Int) ≠ top + ((n + 1 + 3 : Nat) : Int) := by
        clear ih
        push_cast
        omega
      rw [wr_other _ _ _ _ hne]
      exact ih (fun k hk => hwin k (by omega)) (by omega)

/-- The state after `step` at a CALL instruction whose callee is a non-null
FUN closure of matching arity. -/
theorem step_call (env : Env) (s : State)
    (hop : env.disp (bc_op (fetch env s.pc)) = Label.op_CALL)
    (hnn : s.reg (bc_a (fetch env s.pc)) ≠ 0)
    (hfun : env.infoType (s.info (s.reg (bc_a (fetch env s.pc)))) = .FUN)
    (har : (env.infoCode (s.info (s.reg (bc_a (fetch env s.pc))))).arity
      = bc_c_from_d (bc_d (fetch env s.pc))) :
    step env s = .next { s with
      stack := op_CALL_copy env s.base s.top (s.pc + 1) (bc_c_from_d (bc_d (fetch env s.pc)))
        (wr (wr (wr (wr s.stack (s.top + 0) s.base)
          (s.top + 1)
          (s.pc + 1 + (BC_ROUND (u4 (bc_c_from_d (bc_d (fetch env s.pc)) + 2 ^ 32 - 1)) : Int)
            + 1))
          (s.top + 2) (s.reg (bc_a (fetch env s.pc))))
          (s.top + 3) (s.reg (bc_b_from_d (bc_d (fetch env s.pc))))),
      base := s.top + 3,
      top := s.top + 3 +
        (u4 (env.infoCode (s.info (s.reg (bc_a (fetch env s.pc))))).framesize : Int),
      code := s.info (s.reg (bc_a (fetch env s.pc))),
      pc := (env.infoCode (s.info (s.reg (bc_a (fetch env s.pc))))).code } := by
  have hnn1 : ¬ s.stack (s.base + (bc_a (fetch env s.pc) : Int)) = 0 := hnn
  have hfun1 : env.infoType (s.info (s.stack (s.base + (bc_a (fetch env s.pc) : Int))))
      = .FUN := hfun
  have har1 : (env.infoCode (s.info (s.stack (s.base + (bc_a (fetch env s.pc) : Int))))).arity
      = bc_c_from_d (bc_d (fetch env s.pc)) := har
  simp only [step, hop, op_CALL, State.reg, hnn1, hfun1, har1, stackOverflow,
    STACK_FRAME_SIZEW, ne_eq, not_true_eq_false, or_self, if_false]
  rfl

/-- C5: a CALL A,B,C whose callee `base[A]` is a non-null FUN closure with
arity C and Code record `c` pushes the frame header at the old `top`:
`top[0]` = old base, `top[1]` = return pc, `top[2] = base[A]`,
`top[3] = base[B]`; afterwards `base = old top + 3`, `top = base + c.framesize`,
`code = c`, `pc` = first instruction of `c`.  The return pc is the address
after the instruction plus `BC_ROUND(C - 1) + 1` with `C - 1` computed in
`u4`; for `C >= 1` that is the address right after a payload of
`BC_ROUND(C - 1)` argument words and one mask word. -/
theorem C5_call_pushes_frame (env : Env) (s : State)
    (hop : env.disp (bc_op (fetch env s.pc)) = Label.op_CALL)
    (hnn : s.reg (bc_a (fetch env s.pc)) ≠ 0)
    (hfun : env.infoType (s.info (s.reg (bc_a (fetch env s.pc)))) = .FUN)
    (har : (env.infoCode (s.info (s.reg (bc_a (fetch env s.pc))))).arity
      = bc_c_from_d (bc_d (fetch env s.pc)))
    (hfs : (env.infoCode (s.info (s.reg (bc_a (fetch env s.pc))))).framesize < 2 ^ 32) :
    let A := bc_a (fetch env s.pc)
    let B := bc_b_from_d (bc_d (fetch env s.pc))
    let C := bc_c_from_d (bc_d (fetch env s.pc))
    let c := env.infoCode (s.info (s.reg A))
    ∃ s1, step env s = .next s1 ∧
      s1.stack (s.top + 0) = s.base ∧
      s1.stack (s.top + 1) = s.pc + 1 + ((BC_ROUND (u4 (C + 2 ^ 32 - 1)) + 1 : Nat) : Int) ∧
      (1 ≤ C → s1.stack (s.top + 1) = s.pc + 1 + ((1 + BC_ROUND (C - 1) : Nat) : Int)) ∧
      s1.stack (s.top + 2) = s.reg A ∧
      s1.stack (s.top + 3) = s.reg B ∧
      s1.base = s.top + 3 ∧
      s1.top = s1.base + (c.framesize : Int) ∧
      s1.code = s.info (s.reg A) ∧
      s1.pc = c.code := by
  intro A B C c
  have hC : C < 256 := Nat.mod_lt _ (by decide)
  have hret : s.pc + 1 + (BC_ROUND (u4 (C + 2 ^ 32 - 1)) : Int) + 1
      = s.pc + 1 + ((BC_ROUND (u4 (C + 2 ^ 32 - 1)) + 1 : Nat) : Int) := by
    push_cast; omega
  refine ⟨_, step_call env s hop hnn hfun har, ?_, ?_, ?_, ?_, ?_, rfl, ?_, rfl, rfl⟩
  · show op_CALL_copy _ _ _ _ _ _ _ = _
    unfold op_CALL_copy
    rw [call_copy_loop_below _ _ _ _ _ _ _ (show _ < s.top + 4 by omega)]
    simp [wr]
  · show op_CALL_copy _ _ _ _ _ _ _ = _
    unfold op_CALL_copy
    rw [call_copy_loop_below _ _ _ _ _ _ _ (show _ < s.top + 4 by omega)]
    simp only [wr]
    simp only [← hret]
    simp
  · intro h1
    show op_CALL_copy _ _ _ _ _ _ _ = _
    unfold op_CALL_copy
    rw [call_copy_loop_below _ _ _ _ _ _ _ (show _ < s.top + 4 by omega)]
    have hu : u4 (C + 2 ^ 32 - 1) = C - 1 := by
      unfold u4; omega
    simp only [wr]
    simp only [hu]
    simp
    omega
  · show op_CALL_copy _ _ _ _ _ _ _ = _
    unfold op_CALL_copy
    rw [call_copy_loop_below _ _ _ _ _ _ _ (show _ < s.top + 4 by omega)]
    simp [wr]
  · show op_CALL_copy _ _ _ _ _ _ _ = _
    unfold op_CALL_copy
    rw [call_copy_loop_below _ _ _ _ _ _ _ (show _ < s.top + 4 by omega)]
    simp [wr]
  · show _ + (u4 _ : Int) = _
    rw [u4_of_lt _ hfs]

/-- Witness of C5 on the example machine: `CALL r0, r1, 2` at address 4000
with `base = 13`, `top = 16` and the arity-2 function closure 510 in register
0; the payload is the two words 4001 and 4002, the return pc is 4003. -/
theorem C5_call_pushes_frame_witness :
    exEnv.infoType (exCallState.info (exCallState.reg (bc_a (fetch exEnv exCallState.pc))))
      = .FUN ∧
    (exEnv.infoCode (exCallState.info
      (exCallState.reg (bc_a (fetch exEnv exCallState.pc))))).arity = 2 ∧
    ∃ s1, step exEnv exCallState = .next s1 ∧
      s1.stack (16 + 0) = 13 ∧
      s1.stack (16 + 1) = 4003 ∧
      (1 ≤ 2 → s1.stack (16 + 1) = 4003) ∧
      s1.stack (16 + 2) = 510 ∧
      s1.stack (16 + 3) = 111 ∧
      s1.base = 16 + 3 ∧
      s1.top = s1.base + 2 ∧
      s1.code = 110 ∧
      s1.pc = 2000 :=
  ⟨by decide, by decide,
   C5_call_pushes_frame exEnv exCallState (by decide) (by decide) (by decide) (by decide)
     (by decide)⟩

/-- C6 (as amended): the `C - 1` extra argument register bytes of a CALL are
the packed bytes that immediately follow the CALL instruction; the one-word
live-out mask comes after them, so that the return pc is one word past the
`BC_ROUND(C - 1)` argument words.  For every `i` with `0 <= i <= C - 2` the
pushed frame has `top[4 + i] = base[args[i]]`, the value the register had
before the instruction, provided the argument registers lie in the caller's
window (below `top`). -/
theorem C6_call_args_follow_instruction (env : Env) (s : State)
    (hop : env.disp (bc_op (fetch env s.pc)) = Label.op_CALL)
    (hnn : s.reg (bc_a (fetch env s.pc)) ≠ 0)
    (hfun : env.infoType (s.info (s.reg (bc_a (fetch env s.pc)))) = .FUN)
    (har : (env.infoCode (s.info (s.reg (bc_a (fetch env s.pc))))).arity
      = bc_c_from_d (bc_d (fetch env s.pc)))
    (hwin : ∀ i : Nat, i + 1 < bc_c_from_d (bc_d (fetch env s.pc)) →
      s.base + (argByte env (s.pc + 1) i : Int) < s.top) :
    let C := bc_c_from_d (bc_d (fetch env s.pc))
    ∃ s1, step env s = .next s1 ∧
      (∀ i : Nat, i + 1 < C →
        s1.stack (s.top + 4 + (i : Int)) = s.reg (argByte env (s.pc + 1) i)) ∧
      (1 ≤ C → s1.stack (s.top + 1) = (s.pc + 1 + (BC_ROUND (C - 1) : Int)) + 1) := by
  intro C
  have hC : C < 256 := Nat.mod_lt _ (by decide)
  refine ⟨_, step_call env s hop hnn hfun har, ?_, ?_⟩
  · intro i hi
    show op_CALL_copy _ _ _ _ _ _ _ = _
    unfold op_CALL_copy
    rw [call_copy_loop_arg env s.base s.top (s.pc + 1) (C - 1) _
      (fun k hk => hwin k (by omega)) i (by omega)]
    have hlt := hwin i hi
    have h0 : s.base + (argByte env (s.pc + 1) i : Int) ≠ s.top + 0 := by omega
    have h1 : s.base + (argByte env (s.pc + 1) i : Int) ≠ s.top + 1 := by omega
    have h2 : s.base + (argByte env (s.pc + 1) i : Int) ≠ s.top + 2 := by omega
    have h3 : s.base + (argByte env (s.pc + 1) i : Int) ≠ s.top + 3 := by omega
    rw [wr_other _ _ _ _ h3, wr_other _ _ _ _ h2, wr_other _ _ _ _ h1, wr_other _ _ _ _ h0]
    rfl
  · intro h1
    show op_CALL_copy _ _ _ _ _ _ _ = _
    unfold op_CALL_copy
    rw [call_copy_loop_below _ _ _ _ _ _ _ (show _ < s.top + 4 by omega)]
    have hu : u4 (C + 2 ^ 32 - 1) = C - 1 := by
      unfold u4; omega
    have h3 : s.top + 1 ≠ s.top + 3 := by omega
    have h2 : s.top + 1 ≠ s.top + 2 := by omega
    rw [wr_other _ _ _ _ h3, wr_other _ _ _ _ h2, wr_same]
    simp only [C] at hu
    rw [hu]

/-- Witness of C6 on the example machine: the only extra argument byte of the
`CALL r0, r1, 2` at 4000 is the first byte of the word at 4001 and names
register 2, whose value 222 is stored in `top[4]`. -/
theorem C6_call_args_follow_instruction_witness :
    argByte exEnv (exCallState.pc + 1) 0 = 2 ∧
    ∃ s1, step exEnv exCallState = .next s1 ∧
      (∀ i : Nat, i + 1 < 2 →
        s1.stack (exCallState.top + 4 + (i : Int))
          = exCallState.reg (argByte exEnv (exCallState.pc + 1) i)) ∧
      (1 ≤ 2 → s1.stack (exCallState.top + 1)
          = (exCallState.pc + 1 + (BC_ROUND (2 - 1) : Int)) + 1) :=
  ⟨by decide,
   C6_call_args_follow_instruction exEnv exCallState (by decide) (by decide) (by decide)
     (by decide) (by
       intro i hi
       have hi0 : i = 0 := by
         have hC : bc_c_from_d (bc_d (fetch exEnv exCallState.pc)) = 2 := by decide
         omega
       subst hi0
       decide)⟩

/-- C6 as stated fails: on the example machine the word right after the CALL
instruction (4001) holds the argument byte 2 and the following word (4002)
starts with the byte 1.  The pushed `top[4]` is 222, the value of register 2,
and not 111, the value of the register named by the first byte after the
first payload word. -/
theorem C6_args_are_not_after_the_mask :
    exEnv.disp (bc_op (fetch exEnv exCallState.pc)) = Label.op_CALL ∧
    bc_c_from_d (bc_d (fetch exEnv exCallState.pc)) = 2 ∧
    (step exEnv exCallState).toState.map (fun s1 => s1.stack (exCallState.top + 4))
      = some 222 ∧
    exCallState.reg (argByte exEnv (exCallState.pc + 1) 0) = 222 ∧
    exCallState.reg (argByte exEnv (exCallState.pc + 2) 0) = 111 ∧
    (step exEnv exCallState).toState.map (fun s1 => decide
      (s1.stack (exCallState.top + 4)
        = exCallState.reg (argByte exEnv (exCallState.pc + 2) 0))) = some false := by
  refine ⟨by decide, by decide, by decide, by decide, by decide, by decide⟩

/-! ## Stack writes stay above `base` and `top` -/

theorem setReg_stack_below (s : State) (r : Nat) (v : Int) (q a : Int)
    (hb : q ≤ s.base) (ha : a < q) : (s.setReg r v).stack a = s.stack a := by
  have hne : a ≠ s.base + (r : Int) := by omega
  simp only [State.setReg]
  exact wr_other _ _ _ _ hne

theorem callt_restore_below (base : Int) (temp : Nat → Int) (n : Nat) (st : Int → Int)
    (a : Int) (ha : a < base) : op_CALLT_restore base temp n st a = st a := by
  unfold op_CALLT_restore
  induction n with
  | zero => simp
  | succ n ih =>
    have hne : a ≠ base + ((n + 1 : Nat) : Int) := by
      clear ih
      push_cast
      omega
    simp only [List.range_succ, List.foldl_append, List.foldl_cons, List.foldl_nil]
    rw [wr_other _ _ _ _ hne]
    exact ih

theorem condJump_stack (env : Env) (s s1 : State) (c : Bool)
    (h : condJump env s c = .next s1) : s1.stack = s.stack := by
  unfold condJump at h
  split at h <;> cases h <;> rfl

/-- One instruction writes no stack slot below `q` when both `base` and `top`
are at or above `q`. -/
theorem step_stack_below (env : Env) (s s1 : State) (q : Int)
    (h : step env s = .next s1) (hb : q ≤ s.base) (ht : q ≤ s.top)
    (a : Int) (ha : a < q) : s1.stack a = s.stack a := by
  unfold step at h
  split at h
  case h_1 =>
    simp only [op_ADDRR] at h; cases h; exact setReg_stack_below _ _ _ q a hb ha
  case h_2 =>
    simp only [op_SUBRR] at h; cases h; exact setReg_stack_below _ _ _ q a hb ha
  case h_3 =>
    simp only [op_MULRR] at h; cases h; exact setReg_stack_below _ _ _ q a hb ha
  case h_4 =>
    simp only [op_DIVRR] at h
    split at h
    · cases h; exact setReg_stack_below _ _ _ q a hb ha
    · cases h; rfl
  case h_5 => simp only [op_JMP] at h; cases h; rfl
  case h_6 => simp only [op_MOV] at h; cases h; exact setReg_stack_below _ _ _ q a hb ha
  case h_7 => simp only [op_KINT] at h; cases h; exact setReg_stack_below _ _ _ q a hb ha
  case h_8 =>
    simp only [op_NEW_INT] at h
    split at h
    · cases h; exact setReg_stack_below _ _ _ q a hb ha
    · cases h
      exact setReg_stack_below { s with pc := s.pc + 1, nalloc := s.nalloc + 1 } _ _ q a hb ha
  case h_9 => simp only [op_NOT] at h; cases h; exact setReg_stack_below _ _ _ q a hb ha
  case h_10 => simp only [op_NEG] at h; cases h; exact setReg_stack_below _ _ _ q a hb ha
  case h_11 => rw [condJump_stack _ _ _ _ h]
  case h_12 => rw [condJump_stack _ _ _ _ h]
  case h_13 => rw [condJump_stack _ _ _ _ h]
  case h_14 => rw [condJump_stack _ _ _ _ h]
  case h_15 => rw [condJump_stack _ _ _ _ h]
  case h_16 => rw [condJump_stack _ _ _ _ h]
  case h_17 =>
    simp only [op_ALLOC1] at h
    cases h
    exact setReg_stack_below
      { s with pc := s.pc + 1, nalloc := s.nalloc + 1, info := _, payload := _ } _ _ q a hb ha
  case h_18 => simp only [op_ALLOC] at h; cases h; rfl
  case h_19 => simp only [op_LOADF] at h; cases h; exact setReg_stack_below _ _ _ q a hb ha
  case h_20 => simp only [op_LOADFV] at h; cases h; exact setReg_stack_below _ _ _ q a hb ha
  case h_21 => simp only [op_LOADBH] at h; cases h; exact setReg_stack_below _ _ _ q a hb ha
  case h_22 => simp only [op_LOADSLF] at h; cases h; exact setReg_stack_below _ _ _ q a hb ha
  case h_23 => cases h; rfl
  case h_24 => cases h; rfl
  case h_25 => cases h; rfl
  case h_26 =>
    simp only [op_CASE] at h
    split at h <;> cases h <;> rfl
  case h_27 =>
    simp only [op_CASE_S] at h
    split at h
    · cases h
    · split at h
      · split at h
        · simp only [op_CASE_S_found] at h
          split at h
          · cases h; rfl
          · cases h
        · split at h
          · simp only [op_CASE_S_found] at h
            split at h
            · cases h; rfl
            · cases h
          · cases h; rfl
      · cases h; rfl
  case h_28 =>
    simp only [op_EVAL] at h
    split at h
    · cases h
    · split at h
      · cases h; rfl
      · split at h
        · cases h
        · cases h
          have h0 : a ≠ s.top + 0 := by omega
          have h1 : a ≠ s.top + 1 := by omega
          have h2 : a ≠ s.top + 2 := by omega
          have h3 : a ≠ s.top + 3 := by omega
          have h4 : a ≠ s.top + 4 := by omega
          have h5 : a ≠ s.top + 5 := by omega
          have h6 : a ≠ s.top + 6 := by omega
          have h7 : a ≠ s.top + 7 := by omega
          simp only [wr, h0, h1, h2, h3, h4, h5, h6, h7, if_false]
  case h_29 => simp only [op_UPDATE, do_return] at h; cases h; rfl
  case h_30 => simp only [op_RET1, do_return] at h; cases h; rfl
  case h_31 => simp only [op_MOV_RES] at h; cases h; exact setReg_stack_below _ _ _ q a hb ha
  case h_32 =>
    simp only [op_CALLT] at h
    split at h
    · cases h
    · split at h
      · cases h
      · split at h
        · cases h
        · split at h
          · cases h
          · cases h
            have hab : a < s.base := by omega
            have h0 : a ≠ s.base + 0 := by omega
            split
            · simp only
              rw [callt_restore_below _ _ _ _ _ hab]
              exact wr_other _ _ _ _ h0
            · simp only
              rw [callt_restore_below _ _ _ _ _ hab]
              exact wr_other _ _ _ _ h0
  case h_33 =>
    simp only [op_CALL] at h
    split at h
    · cases h
    · split at h
      · cases h
      · split at h
        · cases h
        · cases h
          have hat : a < s.top + 4 := by omega
          have h0 : a ≠ s.top + 0 := by omega
          have h1 : a ≠ s.top + 1 := by omega
          have h2 : a ≠ s.top + 2 := by omega
          have h3 : a ≠ s.top + 3 := by omega
          simp only [op_CALL_copy]
          rw [call_copy_loop_below _ _ _ _ _ _ _ hat]
          simp only [wr, h0, h1, h2, h3, if_false]
  case h_34 => simp only [op_KLIT] at h; cases h; exact setReg_stack_below _ _ _ q a hb ha
  case h_35 => simp only [op_unimplemented] at h; cases h
  case h_36 => simp only [op_unimplemented] at h; cases h
  case h_37 => simp only [op_stop] at h; cases h

/-- A run that stays above `q` leaves every stack slot below `q` unchanged. -/
theorem runsAbove_stack_below (env : Env) (q : Int) (n : Nat) (s s1 : State)
    (h : runsAbove env q n s s1) (a : Int) (ha : a < q) : s1.stack a = s.stack a := by
  induction n generalizing s with
  | zero =>
    simp only [runsAbove] at h
    rw [h]
  | succ n ih =>
    obtain ⟨hb, ht, m, hm, hrest⟩ := h
    rw [ih m hrest, step_stack_below env s m q hm hb ht a ha]

/-! ## CALL followed by RET1 -/

/-- A CALL that continues (no failed assertion, no `return -1`) had a
non-null FUN callee of matching arity. -/
theorem call_next_inv (env : Env) (s s1 : State)
    (hop : env.disp (bc_op (fetch env s.pc)) = Label.op_CALL)
    (h : step env s = .next s1) :
    s.reg (bc_a (fetch env s.pc)) ≠ 0 ∧
    env.infoType (s.info (s.reg (bc_a (fetch env s.pc)))) = .FUN ∧
    (env.infoCode (s.info (s.reg (bc_a (fetch env s.pc))))).arity
      = bc_c_from_d (bc_d (fetch env s.pc)) := by
  simp only [step, hop, op_CALL, State.reg] at h
  split at h
  · cases h
  · rename_i hassert
    split at h
    · cases h
    · rename_i harity
      simp only [not_or, ne_eq, not_not] at hassert harity
      exact ⟨hassert.1, hassert.2, harity.symm⟩

/-- Field-wise description of a RET1 step. -/
theorem step_ret1_fields (env : Env) (s : State)
    (hop : env.disp (bc_op (fetch env s.pc)) = Label.op_RET1) :
    ∃ s1, step env s = .next s1 ∧
      s1.last_result = s.reg (bc_a (fetch env s.pc)) ∧
      s1.top = s.base - 3 ∧
      s1.pc = s.stack (s.base - 2) ∧
      s1.base = s.stack (s.base - 3) ∧
      s1.code = s.info (s.stack (s.stack (s.base - 3) - 1)) ∧
      s1.stack = s.stack ∧ s1.info = s.info ∧ s1.payload = s.payload :=
  ⟨_, step_ret1 env s hop, rfl, rfl, rfl, rfl, rfl, rfl, rfl, rfl⟩

/-- C7: CALL/RET1 round trip.  A CALL succeeds from a state with base `b` and
top `p`; the callee then runs any number of instructions in the frame the CALL
pushed or in frames above it (`base` and `top` stay at or above `p + 3`) and
executes RET1 A in the frame that the CALL pushed.  The interpreter resumes
with `base = b`, `top = p`, `pc` = the return pc saved by the CALL (the
address after the CALL payload), `code` = the info of the closure at
`b[-1]`, `last_result` = the callee's `base[A]`, and every stack slot below
`p` holds the value it had just before the CALL. -/
theorem C7_call_ret1_round_trip (env : Env) (s0 s1 s2 : State) (n : Nat)
    (hop : env.disp (bc_op (fetch env s0.pc)) = Label.op_CALL)
    (hcall : step env s0 = .next s1)
    (hbody : runsAbove env (s0.top + 3) n s1 s2)
    (hframe : s2.base = s0.top + 3)
    (hret : env.disp (bc_op (fetch env s2.pc)) = Label.op_RET1) :
    ∃ s3, step env s2 = .next s3 ∧
      s3.base = s0.base ∧
      s3.top = s0.top ∧
      s3.pc = s1.stack (s0.top + 1) ∧
      s3.pc = s0.pc + 1 +
        ((BC_ROUND (u4 (bc_c_from_d (bc_d (fetch env s0.pc)) + 2 ^ 32 - 1)) + 1 : Nat) : Int) ∧
      s3.code = s3.info (s3.stack (s0.base - 1)) ∧
      s3.last_result = s2.reg (bc_a (fetch env s2.pc)) ∧
      ∀ a, a < s0.top → s3.stack a = s0.stack a := by
  obtain ⟨hnn, hfun, har⟩ := call_next_inv env s0 s1 hop hcall
  have hs1 := step_call env s0 hop hnn hfun har
  rw [hcall] at hs1
  injection hs1 with hs1
  -- the slots written by the CALL
  have hlow : ∀ a, a < s0.top + 4 → s1.stack a =
      (wr (wr (wr (wr s0.stack (s0.top + 0) s0.base)
          (s0.top + 1)
          (s0.pc + 1 + (BC_ROUND (u4 (bc_c_from_d (bc_d (fetch env s0.pc)) + 2 ^ 32 - 1)) : Int)
            + 1))
          (s0.top + 2) (s0.reg (bc_a (fetch env s0.pc))))
          (s0.top + 3) (s0.reg (bc_b_from_d (bc_d (fetch env s0.pc))))) a := by
    intro a ha
    rw [hs1]
    show op_CALL_copy _ _ _ _ _ _ _ = _
    unfold op_CALL_copy
    exact call_copy_loop_below _ _ _ _ _ _ _ ha
  have h10 : s1.stack (s0.top + 0) = s0.base := by
    rw [hlow _ (by omega)]
    simp [wr]
  have h11 : s1.stack (s0.top + 1) = s0.pc + 1 +
      ((BC_ROUND (u4 (bc_c_from_d (bc_d (fetch env s0.pc)) + 2 ^ 32 - 1)) + 1 : Nat) : Int) := by
    rw [hlow _ (by omega)]
    simp [wr]
    omega
  have h1below : ∀ a, a < s0.top → s1.stack a = s0.stack a := by
    intro a ha
    rw [hlow _ (by omega)]
    have h0 : a ≠ s0.top + 0 := by omega
    have h1 : a ≠ s0.top + 1 := by omega
    have h2 : a ≠ s0.top + 2 := by omega
    have h3 : a ≠ s0.top + 3 := by omega
    simp only [wr, h0, h1, h2, h3, if_false]
  -- the callee leaves the slots below its frame alone
  have h2below : ∀ a, a < s0.top + 3 → s2.stack a = s1.stack a :=
    fun a ha => runsAbove_stack_below env (s0.top + 3) n s1 s2 hbody a ha
  obtain ⟨s3, hstep, hlr, htop, hpc, hbase, hcode, hstack, hinfo, _⟩ :=
    step_ret1_fields env s2 hret
  have e3 : s2.base - 3 = s0.top + 0 := by omega
  have e2 : s2.base - 2 = s0.top + 1 := by omega
  have hb3 : s3.base = s0.base := by
    rw [hbase, e3, h2below _ (by omega), h10]
  refine ⟨s3, hstep, hb3, ?_, ?_, ?_, ?_, hlr, ?_⟩
  · rw [htop]; omega
  · rw [hpc, e2, h2below _ (by omega)]
  · rw [hpc, e2, h2below _ (by omega), h11]
  · rw [hcode, hinfo, hstack, ← hbase, hb3]
  · intro a ha
    rw [hstack, h2below _ (by omega), h1below _ ha]

/-- Witness of C7 on the example machine: the `CALL r0, r1, 2` at 4000 (base
13, top 16) enters the function code at 2000, which runs `MOV r1, r0` and then
`RET1 r1`; execution resumes at 4003 with base 13 and top 16. -/
theorem C7_call_ret1_round_trip_witness :
    ∃ s3, step exEnv ((runN exEnv 2 exCallState).stateOr exCallState) = .next s3 ∧
      s3.base = exCallState.base ∧
      s3.top = exCallState.top ∧
      s3.pc = ((step exEnv exCallState).stateOr exCallState).stack (exCallState.top + 1) ∧
      s3.pc = exCallState.pc + 1 +
        ((BC_ROUND (u4 (bc_c_from_d (bc_d (fetch exEnv exCallState.pc)) + 2 ^ 32 - 1)) + 1
          : Nat) : Int) ∧
      s3.code = s3.info (s3.stack (exCallState.base - 1)) ∧
      s3.last_result = ((runN exEnv 2 exCallState).stateOr exCallState).reg
        (bc_a (fetch exEnv ((runN exEnv 2 exCallState).stateOr exCallState).pc)) ∧
      ∀ a, a < exCallState.top → s3.stack a = exCallState.stack a :=
  C7_call_ret1_round_trip exEnv exCallState
    ((step exEnv exCallState).stateOr exCallState)
    ((runN exEnv 2 exCallState).stateOr exCallState) 1
    (by decide) (by rfl)
    ⟨by decide, by decide, (runN exEnv 2 exCallState).stateOr exCallState, by rfl, rfl⟩
    (by decide) (by decide)

/-! ## The thunk update protocol -/

/-- C1 (as amended): the thunk update protocol.  EVAL forces a non-null
closure `t` that is not in head normal form; the thunk's code runs in the
frame pushed by the EVAL or above it and returns with RET1 A from that frame;
the update frame's return code at `stg_UPD_return_pc`, taken to be
`MOV_RES r1` followed by `UPDATE r0, r1`, then runs.  Afterwards the info of
`t` is `stg_IND_info`, `payload[0]` of `t` is the value the thunk returned,
`last_result` is that value, and the interpreter is back in the forcing frame
(`base`, `top` as before the EVAL, `pc` after the live-out bitmap).  A second
EVAL of `t` does not take the head-normal-form fast path: the type IND is
not CONSTR, FUN or PAP, so that EVAL pushes the two frames again. -/
theorem C1_thunk_update_protocol (env : Env) (s0 s1 s2 : State) (n : Nat)
    (hop : env.disp (bc_op (fetch env s0.pc)) = Label.op_EVAL)
    (hnn : s0.reg (bc_a (fetch env s0.pc)) ≠ 0)
    (hnf : closure_HNF env s0 (s0.reg (bc_a (fetch env s0.pc))) = false)
    (heval : step env s0 = .next s1)
    (hbody : runsAbove env (s0.top + 8) n s1 s2)
    (hframe : s2.base = s0.top + 8)
    (hret : env.disp (bc_op (fetch env s2.pc)) = Label.op_RET1)
    (hmov : env.disp (bc_op (fetch env env.stg_UPD_return_pc)) = Label.op_MOV_RES ∧
      bc_a (fetch env env.stg_UPD_return_pc) = 1)
    (hupd : env.disp (bc_op (fetch env (env.stg_UPD_return_pc + 1))) = Label.op_UPDATE ∧
      bc_a (fetch env (env.stg_UPD_return_pc + 1)) = 0 ∧
      bc_d (fetch env (env.stg_UPD_return_pc + 1)) = 1)
    (hind : env.infoType env.stg_IND_info = .IND) :
    ∃ s5, runN env 3 s2 = .next s5 ∧
      s5.info (s0.reg (bc_a (fetch env s0.pc))) = env.stg_IND_info ∧
      s5.payload (s0.reg (bc_a (fetch env s0.pc))) 0 = s2.reg (bc_a (fetch env s2.pc)) ∧
      s5.last_result = s2.reg (bc_a (fetch env s2.pc)) ∧
      s5.base = s0.base ∧ s5.top = s0.top ∧ s5.pc = s0.pc + 2 ∧
      closure_HNF env s5 (s0.reg (bc_a (fetch env s0.pc))) = false ∧
      ∀ s6 : State,
        s6.info (s0.reg (bc_a (fetch env s0.pc))) = env.stg_IND_info →
        env.disp (bc_op (fetch env s6.pc)) = Label.op_EVAL →
        s6.reg (bc_a (fetch env s6.pc)) = s0.reg (bc_a (fetch env s0.pc)) →
        ∃ s7, step env s6 = .next s7 ∧
          s7.base = s6.top + 8 ∧
          s7.stack (s6.top + 3) = s0.reg (bc_a (fetch env s0.pc)) ∧
          s7.stack (s6.top + 6) = env.stg_UPD_return_pc ∧
          s7.stack (s6.top + 7) = s0.reg (bc_a (fetch env s0.pc)) := by
  -- the frames pushed by the EVAL
  obtain ⟨x, hx, hx0, hx1, _, hx3, _, hx5, hx6, _, _⟩ :=
    eval_thunk_frames env s0 hop hnn hnf
  rw [heval] at hx
  injection hx with hx
  subst hx
  have h2below : ∀ a, a < s0.top + 8 → s2.stack a = s1.stack a :=
    fun a ha => runsAbove_stack_below env (s0.top + 8) n s1 s2 hbody a ha
  -- RET1 from the thunk's frame
  obtain ⟨s3, hstep3, hlr3, htop3, hpc3, hbase3, _, hstack3, hinfo3, hpay3⟩ :=
    step_ret1_fields env s2 hret
  have e3 : s2.base - 3 = s0.top + 5 := by omega
  have e2 : s2.base - 2 = s0.top + 6 := by omega
  have hpc3a : s3.pc = env.stg_UPD_return_pc := by
    rw [hpc3, e2, h2below _ (by omega), hx6]
  have hbase3a : s3.base = s0.top + 3 := by
    rw [hbase3, e3, h2below _ (by omega), hx5]
  -- MOV_RES r1 in the update frame
  have hop4 : env.disp (bc_op (fetch env s3.pc)) = Label.op_MOV_RES := by
    rw [hpc3a]; exact hmov.1
  have hstep4 := step_mov_res env s3 hop4
  have ha4 : bc_a (fetch env s3.pc) = 1 := by rw [hpc3a]; exact hmov.2
  rw [ha4] at hstep4
  -- UPDATE r0, r1
  have hop5 : env.disp (bc_op (fetch env (s3.pc + 1))) = Label.op_UPDATE := by
    rw [hpc3a]; exact hupd.1
  have ha5 : bc_a (fetch env (s3.pc + 1)) = 0 := by rw [hpc3a]; exact hupd.2.1
  have hd5 : bc_d (fetch env (s3.pc + 1)) = 1 := by rw [hpc3a]; exact hupd.2.2
  have hstep5 := step_update env
    { s3 with pc := s3.pc + 1,
              stack := wr s3.stack (s3.base + ((1 : Nat) : Int)) s3.last_result } hop5
  simp only [ha5, hd5, State.reg] at hstep5
  -- the two registers of the update frame
  have hr0 : wr s3.stack (s3.base + ((1 : Nat) : Int)) s3.last_result
      (s3.base + ((0 : Nat) : Int)) = s0.reg (bc_a (fetch env s0.pc)) := by
    rw [wr_other _ _ _ _ (by push_cast; omega), hstack3, hbase3a]
    have : s0.top + 3 + ((0 : Nat) : Int) = s0.top + 3 := by push_cast; omega
    rw [this, h2below _ (by omega), hx3]
  have hr1 : wr s3.stack (s3.base + ((1 : Nat) : Int)) s3.last_result
      (s3.base + ((1 : Nat) : Int)) = s2.reg (bc_a (fetch env s2.pc)) := by
    rw [wr_same, hlr3]
  have hsaved_base : wr s3.stack (s3.base + ((1 : Nat) : Int)) s3.last_result
      (s3.base - 3) = s0.base := by
    rw [wr_other _ _ _ _ (by push_cast; omega), hstack3, hbase3a]
    have : s0.top + 3 - 3 = s0.top + 0 := by omega
    rw [this, h2below _ (by omega), hx0]
  have hsaved_pc : wr s3.stack (s3.base + ((1 : Nat) : Int)) s3.last_result
      (s3.base - 2) = s0.pc + 2 := by
    rw [wr_other _ _ _ _ (by push_cast; omega), hstack3, hbase3a]
    have : s0.top + 3 - 2 = s0.top + 1 := by omega
    rw [this, h2below _ (by omega), hx1]
  rw [hr0, hr1, hsaved_base, hsaved_pc] at hstep5
  simp only [runN, hstep3, hstep4, hstep5]
  refine ⟨_, rfl, ?_, ?_, rfl, rfl, ?_, rfl, ?_, ?_⟩
  · simp [wr]
  · simp [wrPayload]
  · show s3.base - 3 = s0.top
    rw [hbase3a]; omega
  · apply closure_HNF_of_IND
    simp [wr, hind]
  · intro s6 h6info h6op h6reg
    have h6nn : s6.reg (bc_a (fetch env s6.pc)) ≠ 0 := by rw [h6reg]; exact hnn
    have h6nf : closure_HNF env s6 (s6.reg (bc_a (fetch env s6.pc))) = false := by
      apply closure_HNF_of_IND
      rw [h6reg, h6info]
      exact hind
    obtain ⟨s7, h7, _, _, _, h73, _, _, h76, h77, _⟩ :=
      eval_thunk_frames env s6 h6op h6nn h6nf
    refine ⟨s7, h7, ?_, ?_, h76, ?_⟩
    · have h7' := step_eval_thunk env s6 h6op h6nn h6nf
      rw [h7] at h7'
      injection h7' with h7'
      rw [h7']
    · rw [h73, h6reg]
    · rw [h77, h6reg]

/-- Witness of C1 on the example machine: `EVAL r0` at address 0 forces the
thunk 500, whose code `LOADFV r0, 0; RET1 r0` returns the constructor 520; the
update code at 3000 is `MOV_RES r1; UPDATE r0, r1`. -/
theorem C1_thunk_update_protocol_witness :
    closure_HNF exEnv exState (exState.reg (bc_a (fetch exEnv exState.pc))) = false ∧
    ∃ s5, runN exEnv 3 ((runN exEnv 2 exState).stateOr exState) = .next s5 ∧
      s5.info (exState.reg (bc_a (fetch exEnv exState.pc))) = exEnv.stg_IND_info ∧
      s5.payload (exState.reg (bc_a (fetch exEnv exState.pc))) 0
        = ((runN exEnv 2 exState).stateOr exState).reg
            (bc_a (fetch exEnv ((runN exEnv 2 exState).stateOr exState).pc)) ∧
      s5.last_result = ((runN exEnv 2 exState).stateOr exState).reg
            (bc_a (fetch exEnv ((runN exEnv 2 exState).stateOr exState).pc)) ∧
      s5.base = exState.base ∧ s5.top = exState.top ∧ s5.pc = exState.pc + 2 ∧
      closure_HNF exEnv s5 (exState.reg (bc_a (fetch exEnv exState.pc))) = false ∧
      ∀ s6 : State,
        s6.info (exState.reg (bc_a (fetch exEnv exState.pc))) = exEnv.stg_IND_info →
        exEnv.disp (bc_op (fetch exEnv s6.pc)) = Label.op_EVAL →
        s6.reg (bc_a (fetch exEnv s6.pc)) = exState.reg (bc_a (fetch exEnv exState.pc)) →
        ∃ s7, step exEnv s6 = .next s7 ∧
          s7.base = s6.top + 8 ∧
          s7.stack (s6.top + 3) = exState.reg (bc_a (fetch exEnv exState.pc)) ∧
          s7.stack (s6.top + 6) = exEnv.stg_UPD_return_pc ∧
          s7.stack (s6.top + 7) = exState.reg (bc_a (fetch exEnv exState.pc)) :=
  ⟨by decide,
   C1_thunk_update_protocol exEnv exState
     ((step exEnv exState).stateOr exState)
     ((runN exEnv 2 exState).stateOr exState) 1
     (by decide) (by decide) (by decide) (by rfl)
     ⟨by decide, by decide, (runN exEnv 2 exState).stateOr exState, by rfl, rfl⟩
     (by decide) (by decide) ⟨by decide, by decide⟩ ⟨by decide, by decide, by decide⟩
     (by decide)⟩

/-- C1 as stated fails: on the example machine register 0 holds the thunk 500
(not in head normal form).  Five instructions (EVAL, the thunk's
`LOADFV r0, 0` and `RET1 r0`, then `MOV_RES r1` and `UPDATE r0, r1` of the
update frame) leave the thunk with info `stg_IND_info` (130) and `payload[0]`
= 520, the returned value, back in the forcing frame (base 13, top 15) at the
second `EVAL r0` (address 2).  That second EVAL is not the fast path: it
pushes the frames again (`base` becomes 23, slot 22 holds the thunk). -/
theorem C1_second_eval_pushes_frames :
    exEnv.disp (bc_op (fetch exEnv exState.pc)) = Label.op_EVAL ∧
    exState.reg (bc_a (fetch exEnv exState.pc)) = 500 ∧
    closure_HNF exEnv exState 500 = false ∧
    (runN exEnv 5 exState).toState.map
      (fun s => (s.pc, s.base, s.top, s.info 500, s.payload 500 0, s.last_result))
      = some (2, 13, 15, 130, 520, 520) ∧
    (runN exEnv 5 exState).toState.map
      (fun s => (exEnv.disp (bc_op (fetch exEnv s.pc)), s.reg (bc_a (fetch exEnv s.pc))))
      = some (Label.op_EVAL, 500) ∧
    (runN exEnv 6 exState).toState.map
      (fun s => (s.base, s.stack 22, decide (s.base = 13 ∧ s.top = 15)))
      = some (23, 500, false) := by
  refine ⟨by decide, by decide, by decide, by decide, by decide, by decide⟩

/-! ## Sparse CASE_S -/

/-- A CASE_S whose searches find nothing continues at the address after its
table. -/
theorem case_s_not_found (env : Env) (s : State) (istart ilen : Int)
    (hop : env.disp (bc_op (fetch env s.pc)) = Label.op_CASE_S)
    (hnn : s.reg (bc_a (fetch env s.pc)) ≠ 0)
    (hty : env.infoType (s.info (s.reg (bc_a (fetch env s.pc)))) = .CONSTR)
    (hw : op_CASE_S_while env (s.pc + 1 + 1)
      (u2 (getTag env s (s.reg (bc_a (fetch env s.pc))))) 0
      ((u2 (bc_d (fetch env s.pc)) : Nat) : Int) = .linear istart ilen)
    (hfor : op_CASE_S_for env (s.pc + 1 + 1)
      (u2 (getTag env s (s.reg (bc_a (fetch env s.pc))))) ilen.toNat istart = none) :
    step env s = .next { s with pc := s.pc + 1 + 1 + ((u2 (bc_d (fetch env s.pc)) : Nat) : Int) } := by
  have hnn1 : ¬ s.stack (s.base + (bc_a (fetch env s.pc) : Int)) = 0 := hnn
  have hty1 : env.infoType (s.info (s.stack (s.base + (bc_a (fetch env s.pc) : Int))))
      = .CONSTR := hty
  have hw1 : op_CASE_S_while env (s.pc + 1 + 1)
      (u2 (getTag env { s with pc := s.pc + 1 }
        (s.stack (s.base + (bc_a (fetch env s.pc) : Int))))) 0
      ((u2 (bc_d (fetch env s.pc)) : Nat) : Int) = .linear istart ilen := hw
  have hfor1 : op_CASE_S_for env (s.pc + 1 + 1)
      (u2 (getTag env { s with pc := s.pc + 1 }
        (s.stack (s.base + (bc_a (fetch env s.pc) : Int))))) ilen.toNat istart = none := hfor
  simp only [step, hop, op_CASE_S, State.reg, hnn1, hty1, hw1, hfor1, ne_eq,
    not_true_eq_false, or_self, if_false]
  split <;> rfl

/-- A CASE_S whose binary search hits the tag at a midpoint reaches
`op_CASE_S_found` with `imid = 0`; when entry 0 has another tag the assertion
there fails. -/
theorem case_s_found_in_while (env : Env) (s : State)
    (hop : env.disp (bc_op (fetch env s.pc)) = Label.op_CASE_S)
    (hnn : s.reg (bc_a (fetch env s.pc)) ≠ 0)
    (hty : env.infoType (s.info (s.reg (bc_a (fetch env s.pc)))) = .CONSTR)
    (hmin : u2 (bc_case_mintag (fetch env (s.pc + 1)))
      ≤ u2 (getTag env s (s.reg (bc_a (fetch env s.pc)))))
    (hmax : u2 (getTag env s (s.reg (bc_a (fetch env s.pc))))
      ≤ u2 (bc_case_maxtag (fetch env (s.pc + 1))))
    (hw : op_CASE_S_while env (s.pc + 1 + 1)
      (u2 (getTag env s (s.reg (bc_a (fetch env s.pc))))) 0
      ((u2 (bc_d (fetch env s.pc)) : Nat) : Int) = .found)
    (h0 : bc_case_tag (fetch env (s.pc + 1 + 1 + 0))
      ≠ u2 (getTag env s (s.reg (bc_a (fetch env s.pc))))) :
    step env s = .assertFail := by
  have hnn1 : ¬ s.stack (s.base + (bc_a (fetch env s.pc) : Int)) = 0 := hnn
  have hty1 : env.infoType (s.info (s.stack (s.base + (bc_a (fetch env s.pc) : Int))))
      = .CONSTR := hty
  have hw1 : op_CASE_S_while env (s.pc + 1 + 1)
      (u2 (getTag env { s with pc := s.pc + 1 }
        (s.stack (s.base + (bc_a (fetch env s.pc) : Int))))) 0
      ((u2 (bc_d (fetch env s.pc)) : Nat) : Int) = .found := hw
  have hr : u2 (bc_case_mintag (fetch env (s.pc + 1)))
      ≤ u2 (getTag env { s with pc := s.pc + 1 }
        (s.stack (s.base + (bc_a (fetch env s.pc) : Int)))) ∧
      u2 (getTag env { s with pc := s.pc + 1 }
        (s.stack (s.base + (bc_a (fetch env s.pc) : Int))))
      ≤ u2 (bc_case_maxtag (fetch env (s.pc + 1))) := ⟨hmin, hmax⟩
  have h01 : ¬ bc_case_tag (fetch env (s.pc + 1 + 1 + 0))
      = u2 (getTag env { s with pc := s.pc + 1 }
        (s.stack (s.base + (bc_a (fetch env s.pc) : Int)))) := h0
  simp only [step, hop, op_CASE_S, State.reg, hnn1, hty1, hw1, hr, ne_eq,
    not_true_eq_false, or_self, if_false, and_self, if_true, op_CASE_S_found, h01]

/-- The binary search of the example table for tag 5: the midpoint entry 2 has
tag 3, which is smaller, and the search continues in the lower interval
`[0, 2)`. -/
theorem ex_case_s_while_tag5 : op_CASE_S_while exEnv 6002 5 0 5 = .linear 0 2 := by
  rw [op_CASE_S_while]
  have h1 : Int.tdiv (0 + 0 + 5) 2 = 2 := by decide
  have h2 : bc_case_tag (fetch exEnv (6002 + 2)) = 3 := by decide
  simp only [h1, h2]
  rw [op_CASE_S_while]
  simp

/-- The binary search of the example table for tag 3 hits the midpoint. -/
theorem ex_case_s_while_tag3 : op_CASE_S_while exEnv 6002 3 0 5 = .found := by
  rw [op_CASE_S_while]
  have h1 : Int.tdiv (0 + 0 + 5) 2 = 2 := by decide
  have h2 : bc_case_tag (fetch exEnv (6002 + 2)) = 3 := by decide
  simp only [h1, h2]
  simp

theorem ex_case_s_sorted : caseS_sorted exEnv 6002 5 := by
  intro i j hij hj
  interval_cases j <;> interval_cases i <;> decide

/-- C9, evaluated at a failing input.  The example table at 6002 has the five
entries (1,10), (2,20), (3,30), (4,40), (5,50), sorted ascending by tag, with
mintag 1 and maxtag 5; the table ends at 6007.  For the scrutinee tag 5 the
handler continues at 6007 (the default arm), whereas the reference linear
search finds entry 4 and gives 6057.  For the scrutinee tag 3, found by the
binary search at the midpoint, the handler fails the assertion of
`op_CASE_S_found`, whereas the reference gives 6037. -/
theorem C9_case_s_differs_from_linear_search :
    caseS_sorted exEnv 6002 5 ∧
    getTag exEnv (exCaseSState 560) ((exCaseSState 560).reg 0) = 5 ∧
    step exEnv (exCaseSState 560) = .next { exCaseSState 560 with pc := 6007 } ∧
    caseS_pc_ref exEnv 6002 5 5 6007 = 6057 ∧
    getTag exEnv (exCaseSState 570) ((exCaseSState 570).reg 0) = 3 ∧
    step exEnv (exCaseSState 570) = .assertFail ∧
    caseS_pc_ref exEnv 6002 5 3 6007 = 6037 := by
  refine ⟨ex_case_s_sorted, by decide, ?_, by decide, by decide, ?_, by decide⟩
  · exact case_s_not_found exEnv (exCaseSState 560) 0 2 (by decide) (by decide) (by decide)
      ex_case_s_while_tag5 (by decide)
  · exact case_s_found_in_while exEnv (exCaseSState 570) (by decide) (by decide) (by decide)
      (by decide) (by decide) ex_case_s_while_tag3 (by decide)

/-! ## Instruction encoding -/

/-- Packing of the AD format: the three fields do not overlap, so the
bitwise OR is a sum. -/
theorem pack_ad (op a d : Nat) (ho : op < 256) (ha : a < 256) :
    op ||| (a <<< 8) ||| (d <<< 16) = 65536 * d + 256 * a + op := by
  have h1 : op ||| a <<< 8 = 256 * a + op := by
    rw [Nat.shiftLeft_eq, Nat.or_comm, Nat.mul_comm]
    exact (Nat.mul_add_lt_is_or (i := 8) (by omega) a).symm
  have h2 : 256 * a + op < 2 ^ 16 := by omega
  rw [h1, Nat.shiftLeft_eq, Nat.or_comm, Nat.mul_comm]
  have h3 := (Nat.mul_add_lt_is_or (i := 16) h2 d).symm
  rw [h3]
  omega

/-- Packing of the ABC format. -/
theorem pack_abc (op a b c : Nat) (ho : op < 256) (ha : a < 256) (hc : c < 256) :
    op ||| (a <<< 8) ||| (b <<< 24) ||| (c <<< 16)
      = 16777216 * b + 65536 * c + 256 * a + op := by
  have h1 : op ||| a <<< 8 = 256 * a + op := by
    rw [Nat.shiftLeft_eq, Nat.or_comm, Nat.mul_comm]
    exact (Nat.mul_add_lt_is_or (i := 8) (by omega) a).symm
  have h2 : 256 * a + op < 2 ^ 16 := by omega
  have h3 : c <<< 16 ||| (256 * a + op) = 65536 * c + 256 * a + op := by
    rw [Nat.shiftLeft_eq, Nat.mul_comm]
    have := (Nat.mul_add_lt_is_or (i := 16) h2 c).symm
    rw [this]
    omega
  have h4 : 65536 * c + 256 * a + op < 2 ^ 24 := by omega
  rw [h1, Nat.or_assoc, Nat.or_comm (256 * a + op), Nat.or_assoc, h3, Nat.shiftLeft_eq,
    Nat.mul_comm]
  have h5 := (Nat.mul_add_lt_is_or (i := 24) h4 b).symm
  rw [h5]
  omega

/-- The word built by `BcIns::ad`, as a sum of its fields. -/
theorem ad_value (op a d : Nat) (ho : op < 256) (ha : a < 256) (hd : d < 65536) :
    BcIns.ad op a d = 65536 * d + 256 * a + op := by
  unfold BcIns.ad u4
  rw [Nat.mod_eq_of_lt (show op < 2 ^ 32 by omega), Nat.mod_eq_of_lt ha,
    Nat.mod_eq_of_lt hd, pack_ad op a d ho ha]
  omega

/-- The word built by `BcIns::abc`, as a sum of its fields. -/
theorem abc_value (op a b c : Nat) (ho : op < 256) (ha : a < 256) (hb : b < 256)
    (hc : c < 256) :
    BcIns.abc op a b c = 16777216 * b + 65536 * c + 256 * a + op := by
  unfold BcIns.abc u4
  rw [Nat.mod_eq_of_lt (show op < 2 ^ 32 by omega), Nat.mod_eq_of_lt ha,
    Nat.mod_eq_of_lt hb, Nat.mod_eq_of_lt hc, pack_abc op a b c ho ha hc]
  omega

/-- The word built by `BcIns::asd`, as a sum of its fields. -/
theorem asd_value (op a : Nat) (sd : Int) (ho : op < 256) (ha : a < 256) :
    BcIns.asd op a sd = 65536 * (sd % 65536).toNat + 256 * a + op := by
  unfold BcIns.asd u4
  have hsh : ((sd % 2 ^ 32).toNat <<< 16) % 2 ^ 32 = (sd % 65536).toNat <<< 16 := by
    rw [Nat.shiftLeft_eq, Nat.shiftLeft_eq]
    omega
  have hlt : (sd % 65536).toNat < 65536 := by omega
  rw [Nat.mod_eq_of_lt (show op < 2 ^ 32 by omega), Nat.mod_eq_of_lt ha, hsh,
    pack_ad op a _ ho ha]
  omega

/-- The word built by `BcIns::aj`, as a sum of its fields. -/
theorem aj_value (op a : Nat) (off : Int) (ho : op < 256) (ha : a < 256)
    (hlo : -32768 ≤ off) (hhi : off ≤ 32767) :
    BcIns.aj op a off = 65536 * (off + 32768).toNat + 256 * a + op := by
  unfold BcIns.aj
  have hd : ((0x8000 + off) % 2 ^ 16).toNat = (off + 32768).toNat := by omega
  rw [hd, ad_value op a _ ho ha (by omega)]

/-- The interpreter's branch offset of a word built by `BcIns::aj` is the
encoded offset. -/
theorem bc_j_aj (op a : Nat) (off : Int) (ho : op < 256) (ha : a < 256)
    (hlo : -32768 ≤ off) (hhi : off ≤ 32767) :
    bc_j (BcIns.aj op a off) = off := by
  rw [aj_value op a off ho ha hlo hhi]
  unfold bc_j bc_j_from_d bc_d
  rw [Nat.shiftRight_eq_div_pow]
  omega

/-- C12: instruction encoding round trip.  For every opcode (an 8-bit value)
and all field values: `abc(op,a,b,c)` decodes to `a() = a`, `b() = b`,
`c() = c`; `ad(op,a,d)` decodes to `a() = a`, `d() = d`; `asd(op,a,sd)` decodes
to `a() = a`, `sd() = sd` for every signed 16-bit `sd`; `aj(op,a,off)` decodes
to `a() = a`, `j() = off` for every signed 16-bit `off`; in every case the low
8 bits of the word are the opcode; and for every 32-bit word
`d() = b() * 256 + c()`. -/
theorem C12_encoding_round_trip (opcode a b c d : Nat) (sd off : Int)
    (ho : opcode < 256) (ha : a < 256) (hb : b < 256) (hc : c < 256) (hd : d < 65536)
    (hsd : -32768 ≤ sd ∧ sd ≤ 32767) (hoff : -32768 ≤ off ∧ off ≤ 32767) :
    (BcIns.a (BcIns.abc opcode a b c) = a ∧ BcIns.b (BcIns.abc opcode a b c) = b ∧
      BcIns.c (BcIns.abc opcode a b c) = c ∧ BcIns.abc opcode a b c % 256 = opcode) ∧
    (BcIns.a (BcIns.ad opcode a d) = a ∧ BcIns.d (BcIns.ad opcode a d) = d ∧
      BcIns.ad opcode a d % 256 = opcode) ∧
    (BcIns.a (BcIns.asd opcode a sd) = a ∧ BcIns.sd (BcIns.asd opcode a sd) = sd ∧
      BcIns.asd opcode a sd % 256 = opcode) ∧
    (BcIns.a (BcIns.aj opcode a off) = a ∧ BcIns.j (BcIns.aj opcode a off) = off ∧
      BcIns.aj opcode a off % 256 = opcode) ∧
    (∀ raw : Nat, raw < 2 ^ 32 → BcIns.d raw = BcIns.b raw * 256 + BcIns.c raw) := by
  have e8 : ∀ k : Nat, k >>> 8 = k / 256 := fun k => by rw [Nat.shiftRight_eq_div_pow]
  have e16 : ∀ k : Nat, k >>> 16 = k / 65536 := fun k => by rw [Nat.shiftRight_eq_div_pow]
  have e24 : ∀ k : Nat, k >>> 24 = k / 16777216 := fun k => by
    rw [Nat.shiftRight_eq_div_pow]
  refine ⟨?_, ?_, ?_, ?_, ?_⟩
  · rw [abc_value opcode a b c ho ha hb hc]
    simp only [BcIns.a, BcIns.b, BcIns.c, e8, e16, e24]
    omega
  · rw [ad_value opcode a d ho ha hd]
    simp only [BcIns.a, BcIns.d, e8, e16]
    omega
  · rw [asd_value opcode a sd ho ha]
    simp only [BcIns.a, BcIns.sd, toInt16, e8, e16]
    refine ⟨by omega, ?_, by omega⟩
    split <;> omega
  · rw [aj_value opcode a off ho ha hoff.1 hoff.2]
    simp only [BcIns.a, BcIns.j, toInt16, u4, e8, e16]
    refine ⟨by omega, ?_, by omega⟩
    split <;> omega
  · intro raw hraw
    simp only [BcIns.d, BcIns.b, BcIns.c, e16, e24]
    omega

/-- Witness of C12: the fields of `CALL r1, r2, 3` (opcode 27), of an AD word
with `d = 515`, and of the signed operands -1 and -32768. -/
theorem C12_encoding_round_trip_witness :
    (BcIns.a (BcIns.abc 27 1 2 3) = 1 ∧ BcIns.b (BcIns.abc 27 1 2 3) = 2 ∧
      BcIns.c (BcIns.abc 27 1 2 3) = 3 ∧ BcIns.abc 27 1 2 3 % 256 = 27) ∧
    (BcIns.a (BcIns.ad 27 1 515) = 1 ∧ BcIns.d (BcIns.ad 27 1 515) = 515 ∧
      BcIns.ad 27 1 515 % 256 = 27) ∧
    (BcIns.a (BcIns.asd 27 1 (-1)) = 1 ∧ BcIns.sd (BcIns.asd 27 1 (-1)) = -1 ∧
      BcIns.asd 27 1 (-1) % 256 = 27) ∧
    (BcIns.a (BcIns.aj 27 1 (-32768)) = 1 ∧ BcIns.j (BcIns.aj 27 1 (-32768)) = -32768 ∧
      BcIns.aj 27 1 (-32768) % 256 = 27) ∧
    (∀ raw : Nat, raw < 2 ^ 32 → BcIns.d raw = BcIns.b raw * 256 + BcIns.c raw) :=
  C12_encoding_round_trip 27 1 2 3 515 (-1) (-32768) (by decide) (by decide) (by decide)
    (by decide) (by decide) ⟨by decide, by decide⟩ ⟨by decide, by decide⟩

/-! ## Comparison and branch -/

/-- The state after a comparison handler: only `pc` changes, by two words and,
when the condition holds, by the offset of the following word. -/
theorem condJump_eq (env : Env) (s : State) (c : Bool) :
    condJump env { s with pc := s.pc + 1 } c =
      .next { s with pc := if c = true then s.pc + 2 + bc_j (fetch env (s.pc + 1))
                           else s.pc + 2 } := by
  unfold condJump
  cases c
  · simp only [Bool.false_eq_true, if_false]
    congr 2
    omega
  · simp only [if_true]
    congr 2
    have h : s.pc + 1 + 1 - 1 = s.pc + 1 := by omega
    show s.pc + 1 + 1 + bc_j (fetch env (s.pc + 1 + 1 - 1)) = _
    rw [h]
    omega

/-- C11: each comparison opcode ISLT, ISGE, ISLE, ISGT (signed comparison of
the words `base[A]` and `base[D]`) and ISEQ, ISNE (equality of the words)
consumes the following word, whose branch offset is `off`.  The next pc is
`pc_after_jmp + off` when the predicate holds and `pc_after_jmp` otherwise
(for `off` different from 0 the next pc is `pc_after_jmp + off` if and only
if the predicate holds); nothing but `pc` is modified, in particular no
register.  When the following word is a JMP built by `aj` with a signed
16-bit offset, `off` is that offset. -/
theorem C11_compare_and_branch (env : Env) (s : State) (l : Label)
    (hop : env.disp (bc_op (fetch env s.pc)) = l) (hl : isCompare l) :
    let P := comparePred env l (s.reg (bc_a (fetch env s.pc))) (s.reg (bc_d (fetch env s.pc)))
    let off := bc_j (fetch env (s.pc + 1))
    let after := s.pc + 2
    ∃ s1, step env s = .next s1 ∧
      s1 = { s with pc := s1.pc } ∧
      s1.stack = s.stack ∧
      (P → s1.pc = after + off) ∧
      (¬ P → s1.pc = after) ∧
      (off ≠ 0 → (s1.pc = after + off ↔ P)) ∧
      (∀ (opj a : Nat) (o : Int), opj < 256 → a < 256 → -32768 ≤ o → o ≤ 32767 →
        fetch env (s.pc + 1) = BcIns.aj opj a o → off = o) := by
  intro P off after
  have key : ∀ c : Bool, (c = true ↔ P) →
      step env s = condJump env { s with pc := s.pc + 1 } c →
      ∃ s1, step env s = .next s1 ∧
        s1 = { s with pc := s1.pc } ∧
        s1.stack = s.stack ∧
        (P → s1.pc = after + off) ∧
        (¬ P → s1.pc = after) ∧
        (off ≠ 0 → (s1.pc = after + off ↔ P)) ∧
        (∀ (opj a : Nat) (o : Int), opj < 256 → a < 256 → -32768 ≤ o → o ≤ 32767 →
          fetch env (s.pc + 1) = BcIns.aj opj a o → off = o) := by
    intro c hc hstep
    rw [condJump_eq] at hstep
    have hoffeq : ∀ (opj a : Nat) (o : Int), opj < 256 → a < 256 → -32768 ≤ o → o ≤ 32767 →
        fetch env (s.pc + 1) = BcIns.aj opj a o → off = o := by
      intro opj a o ho ha hlo hhi hw
      show bc_j (fetch env (s.pc + 1)) = o
      rw [hw]
      exact bc_j_aj opj a o ho ha hlo hhi
    cases c with
    | false =>
      have hnP : ¬ P := fun hP => Bool.noConfusion (hc.2 hP)
      rw [if_neg Bool.false_ne_true] at hstep
      refine ⟨_, hstep, rfl, rfl, fun hP => absurd hP hnP, fun _ => rfl, ?_, hoffeq⟩
      intro hoff
      constructor
      · intro h
        exfalso
        apply hoff
        have h2 : s.pc + 2 = s.pc + 2 + off := h
        omega
      · intro hP
        exact absurd hP hnP
    | true =>
      have hP : P := hc.1 rfl
      rw [if_pos rfl] at hstep
      exact ⟨_, hstep, rfl, rfl, fun _ => rfl, fun hnP => absurd hP hnP,
        fun _ => ⟨fun _ => hP, fun _ => rfl⟩, hoffeq⟩
  rcases hl with h | h | h | h | h | h
  · subst h
    exact key (decide (toSigned env (s.reg (bc_a (fetch env s.pc))) <
        toSigned env (s.reg (bc_d (fetch env s.pc)))))
      (by simp [P, comparePred]) (by simp only [step, hop, op_ISLT]; rfl)
  · subst h
    exact key (decide (toSigned env (s.reg (bc_a (fetch env s.pc))) ≥
        toSigned env (s.reg (bc_d (fetch env s.pc)))))
      (by simp [P, comparePred]) (by simp only [step, hop, op_ISGE]; rfl)
  · subst h
    exact key (decide (toSigned env (s.reg (bc_a (fetch env s.pc))) ≤
        toSigned env (s.reg (bc_d (fetch env s.pc)))))
      (by simp [P, comparePred]) (by simp only [step, hop, op_ISLE]; rfl)
  · subst h
    exact key (decide (toSigned env (s.reg (bc_a (fetch env s.pc))) >
        toSigned env (s.reg (bc_d (fetch env s.pc)))))
      (by simp [P, comparePred]) (by simp only [step, hop, op_ISGT]; rfl)
  · subst h
    exact key (decide (s.reg (bc_a (fetch env s.pc)) = s.reg (bc_d (fetch env s.pc))))
      (by simp [P, comparePred]) (by simp only [step, hop, op_ISEQ]; rfl)
  · subst h
    exact key (decide (s.reg (bc_a (fetch env s.pc)) ≠ s.reg (bc_d (fetch env s.pc))))
      (by simp [P, comparePred]) (by simp only [step, hop, op_ISNE]; rfl)

/-- Witness of C11 on the second example machine: `ISLT r0, r1` at 8000 with
`r0 = 1`, `r1 = 2`, followed by `JMP +1`; the predicate holds and the next pc
is 8003. -/
theorem C11_compare_and_branch_witness :
    comparePred exEnv2 Label.op_ISLT
      ((exRegs 8000 1 2 0).reg (bc_a (fetch exEnv2 (exRegs 8000 1 2 0).pc)))
      ((exRegs 8000 1 2 0).reg (bc_d (fetch exEnv2 (exRegs 8000 1 2 0).pc))) ∧
    fetch exEnv2 8001 = BcIns.aj 30 0 1 ∧
    ∃ s1, step exEnv2 (exRegs 8000 1 2 0) = .next s1 ∧ s1.pc = 8002 + 1 ∧
      s1.stack = (exRegs 8000 1 2 0).stack := by
  have hP : comparePred exEnv2 Label.op_ISLT
      ((exRegs 8000 1 2 0).reg (bc_a (fetch exEnv2 (exRegs 8000 1 2 0).pc)))
      ((exRegs 8000 1 2 0).reg (bc_d (fetch exEnv2 (exRegs 8000 1 2 0).pc))) := by
    show toSigned exEnv2 _ < toSigned exEnv2 _
    decide
  obtain ⟨s1, hstep, _, hstack, hyes, _, _, hoff⟩ :=
    C11_compare_and_branch exEnv2 (exRegs 8000 1 2 0) Label.op_ISLT (by decide)
      (Or.inl rfl)
  refine ⟨hP, by decide, s1, hstep, ?_, hstack⟩
  rw [hyes hP, hoff 30 0 1 (by decide) (by decide) (by decide) (by decide) (by decide)]
  rfl

/-! ## CALLT -/

/-- The first loop of CALLT stores argument `i` in `callt_temp[i]`. -/
theorem callt_save_at (env : Env) (s : State) (n i : Nat) (hi : i < n) :
    op_CALLT_save env s n i = s.reg (argByte env s.pc i) := by
  unfold op_CALLT_save
  induction n with
  | zero => omega
  | succ n ih =>
    simp only [List.range_succ, List.foldl_append, List.foldl_cons, List.foldl_nil]
    by_cases hin : i = n
    · subst hin
      simp [wrTemp]
    · have hlt : i < n := by omega
      simp only [wrTemp, hin, if_false]
      exact ih hlt

/-- The first loop of CALLT does not depend on `top`. -/
theorem callt_save_top (env : Env) (s : State) (top : Int) (n : Nat) :
    op_CALLT_save env { s with top := top } n = op_CALLT_save env s n := by
  unfold op_CALLT_save State.reg
  rfl

/-- The second loop of CALLT leaves every slot up to `base` alone. -/
theorem callt_restore_le (base : Int) (temp : Nat → Int) (n : Nat) (st : Int → Int)
    (a : Int) (ha : a ≤ base) : op_CALLT_restore base temp n st a = st a := by
  unfold op_CALLT_restore
  induction n with
  | zero => simp
  | succ n ih =>
    have hne : a ≠ base + ((n + 1 : Nat) : Int) := by
      clear ih
      push_cast
      omega
    simp only [List.range_succ, List.foldl_append, List.foldl_cons, List.foldl_nil]
    rw [wr_other _ _ _ _ hne]
    exact ih

/-- The second loop of CALLT stores `callt_temp[i]` in `base[i + 1]`. -/
theorem callt_restore_at (base : Int) (temp : Nat → Int) (n : Nat) (st : Int → Int)
    (i : Nat) (hi : i < n) :
    op_CALLT_restore base temp n st (base + ((i + 1 : Nat) : Int)) = temp i := by
  unfold op_CALLT_restore
  induction n with
  | zero => omega
  | succ n ih =>
    simp only [List.range_succ, List.foldl_append, List.foldl_cons, List.foldl_nil]
    by_cases hin : i = n
    · subst hin
      exact wr_same _ _ _
    · have hne : base + ((i + 1 : Nat) : Int) ≠ base + ((n + 1 : Nat) : Int) := by
        clear ih
        push_cast
        omega
      rw [wr_other _ _ _ _ hne]
      exact ih (by omega)

/-- Field-wise description of a CALLT step whose callee is a non-null FUN
closure of matching arity, with at most 13 arguments. -/
theorem step_callt_fields (env : Env) (s : State)
    (hop : env.disp (bc_op (fetch env s.pc)) = Label.op_CALLT)
    (hnn : s.reg (bc_a (fetch env s.pc)) ≠ 0)
    (hfun : env.infoType (s.info (s.reg (bc_a (fetch env s.pc)))) = .FUN)
    (har : (env.infoCode (s.info (s.reg (bc_a (fetch env s.pc))))).arity
      = bc_b_from_d (bc_d (fetch env s.pc)))
    (hmax : bc_b_from_d (bc_d (fetch env s.pc)) ≤ 13) :
    ∃ s1, step env s = .next s1 ∧
      s1.base = s.base ∧
      s1.top = (if u4 (env.infoCode (s.info (s.reg (bc_a (fetch env s.pc))))).framesize
                    > u4OfInt (s.top - s.base)
                then s.base +
                  (u4 (env.infoCode (s.info (s.reg (bc_a (fetch env s.pc))))).framesize : Int)
                else s.top) ∧
      s1.code = s.info (s.reg (bc_a (fetch env s.pc))) ∧
      s1.pc = (env.infoCode (s.info (s.reg (bc_a (fetch env s.pc))))).code ∧
      (∃ temp : Nat → Int,
        (∀ i : Nat, i < u4 (bc_b_from_d (bc_d (fetch env s.pc)) + 2 ^ 32 - 1) →
          temp i = s.reg (argByte env (s.pc + 1) i)) ∧
        s1.stack = op_CALLT_restore s.base temp
          (u4 (bc_b_from_d (bc_d (fetch env s.pc)) + 2 ^ 32 - 1))
          (wr s.stack (s.base + 0) (s.reg (bc_c_from_d (bc_d (fetch env s.pc)))))) ∧
      s1.info = s.info ∧ s1.payload = s.payload ∧ s1.last_result = s.last_result := by
  have hnn1 : ¬ s.stack (s.base + (bc_a (fetch env s.pc) : Int)) = 0 := hnn
  have hfun1 : env.infoType (s.info (s.stack (s.base + (bc_a (fetch env s.pc) : Int))))
      = .FUN := hfun
  have har1 : (env.infoCode (s.info (s.stack (s.base + (bc_a (fetch env s.pc) : Int))))).arity
      = bc_b_from_d (bc_d (fetch env s.pc)) := har
  have hmax1 : ¬ bc_b_from_d (bc_d (fetch env s.pc)) > 12 + 1 := by omega
  simp only [step, hop, op_CALLT, State.reg, hnn1, hfun1, har1, stackOverflow,
    MAX_CALLT_ARGS, hmax1, ne_eq, not_true_eq_false, or_self, and_false, if_false]
  generalize u4 (bc_b_from_d (bc_d (fetch env s.pc)) + 2 ^ 32 - 1) = count
  by_cases hg : u4 (env.infoCode (s.info (s.stack (s.base + (bc_a (fetch env s.pc) : Int))))).framesize
      > u4OfInt (s.top - s.base)
  · simp only [hg, if_true]
    refine ⟨_, rfl, rfl, rfl, rfl, rfl, ⟨_, ?_, rfl⟩, rfl, rfl, rfl⟩
    intro i hi
    exact callt_save_at env _ count i hi
  · simp only [hg, if_false]
    refine ⟨_, rfl, rfl, rfl, rfl, rfl, ⟨_, ?_, rfl⟩, rfl, rfl, rfl⟩
    intro i hi
    exact callt_save_at env _ count i hi

/-- C15: CALLT argument placement without aliasing.  For every successful
CALLT A,B,C (callee `base[A]` a non-null FUN closure of arity `nargs = B`) with
`1 <= nargs <= 13` and the packed argument bytes `args[0..nargs-2]` that
follow the instruction, the post-state has `base[0]` = the pre-state
`base[C]` and `base[i + 1]` = the pre-state `base[args[i]]` for every
`i < nargs - 1`, whatever registers the arguments name; `base` is unchanged,
`code` and `pc` become the callee's. -/
theorem C15_callt_places_arguments (env : Env) (s : State)
    (hop : env.disp (bc_op (fetch env s.pc)) = Label.op_CALLT)
    (hnn : s.reg (bc_a (fetch env s.pc)) ≠ 0)
    (hfun : env.infoType (s.info (s.reg (bc_a (fetch env s.pc)))) = .FUN)
    (har : (env.infoCode (s.info (s.reg (bc_a (fetch env s.pc))))).arity
      = bc_b_from_d (bc_d (fetch env s.pc)))
    (hmin : 1 ≤ bc_b_from_d (bc_d (fetch env s.pc)))
    (hmax : bc_b_from_d (bc_d (fetch env s.pc)) ≤ 13) :
    let nargs := bc_b_from_d (bc_d (fetch env s.pc))
    let C := bc_c_from_d (bc_d (fetch env s.pc))
    ∃ s1, step env s = .next s1 ∧
      s1.base = s.base ∧
      s1.reg 0 = s.reg C ∧
      (∀ i : Nat, i + 1 < nargs → s1.reg (i + 1) = s.reg (argByte env (s.pc + 1) i)) ∧
      s1.code = s.info (s.reg (bc_a (fetch env s.pc))) ∧
      s1.pc = (env.infoCode (s.info (s.reg (bc_a (fetch env s.pc))))).code := by
  intro nargs C
  obtain ⟨s1, hstep, hbase, _, hcode, hpc, ⟨temp, htemp, hstack⟩, _, _, _⟩ :=
    step_callt_fields env s hop hnn hfun har hmax
  have hcount : u4 (nargs + 2 ^ 32 - 1) = nargs - 1 := by
    unfold u4
    omega
  refine ⟨s1, hstep, hbase, ?_, ?_, hcode, hpc⟩
  · show s1.stack (s1.base + ((0 : Nat) : Int)) = _
    rw [hstack, hbase]
    have h0 : s.base + ((0 : Nat) : Int) = s.base + 0 := by push_cast; rfl
    rw [h0, callt_restore_le _ _ _ _ _ (by omega), wr_same]
  · intro i hi
    show s1.stack (s1.base + ((i + 1 : Nat) : Int)) = _
    rw [hcount] at hstack htemp
    rw [hstack, hbase, callt_restore_at _ _ _ _ i (by omega)]
    exact htemp i (by omega)

/-- Witness of C15, a swap of `r0` and `r1`: `CALLT r2, 2, r1` at 8100 with the
argument byte `r0`, registers `r0 = 111`, `r1 = 222` and the arity-2 function
closure 600 in `r2`; afterwards `r0 = 222` and `r1 = 111`. -/
theorem C15_callt_places_arguments_witness :
    bc_b_from_d (bc_d (fetch exEnv2 (exRegs 8100 111 222 600).pc)) = 2 ∧
    bc_c_from_d (bc_d (fetch exEnv2 (exRegs 8100 111 222 600).pc)) = 1 ∧
    argByte exEnv2 ((exRegs 8100 111 222 600).pc + 1) 0 = 0 ∧
    ∃ s1, step exEnv2 (exRegs 8100 111 222 600) = .next s1 ∧
      s1.base = (exRegs 8100 111 222 600).base ∧
      s1.reg 0 = 222 ∧
      (∀ i : Nat, i + 1 < 2 → s1.reg (i + 1) = 111) ∧
      s1.code = 200 ∧
      s1.pc = 2100 := by
  obtain ⟨s1, hstep, hbase, h0, hargs, hcode, hpc⟩ :=
    C15_callt_places_arguments exEnv2 (exRegs 8100 111 222 600) (by decide) (by decide)
      (by decide) (by decide) (by decide) (by decide)
  refine ⟨by decide, by decide, by decide, s1, hstep, hbase, ?_, ?_, ?_, ?_⟩
  · rw [h0]; decide
  · intro i hi
    have hi0 : i = 0 := by omega
    subst hi0
    rw [hargs 0 (by decide)]
    decide
  · rw [hcode]; decide
  · rw [hpc]; decide

/-- A CALLT that continues had a non-null FUN callee of matching arity and at
most 13 arguments. -/
theorem callt_next_inv (env : Env) (s s1 : State)
    (hop : env.disp (bc_op (fetch env s.pc)) = Label.op_CALLT)
    (h : step env s = .next s1) :
    s.reg (bc_a (fetch env s.pc)) ≠ 0 ∧
    env.infoType (s.info (s.reg (bc_a (fetch env s.pc)))) = .FUN ∧
    (env.infoCode (s.info (s.reg (bc_a (fetch env s.pc))))).arity
      = bc_b_from_d (bc_d (fetch env s.pc)) ∧
    bc_b_from_d (bc_d (fetch env s.pc)) ≤ 13 := by
  simp only [step, hop, op_CALLT, State.reg, MAX_CALLT_ARGS] at h
  split at h
  · cases h
  · rename_i hassert
    split at h
    · cases h
    · rename_i harity
      split at h
      · cases h
      · split at h
        · cases h
        · rename_i hmany
          simp only [not_or, ne_eq, not_not] at hassert harity
          exact ⟨hassert.1, hassert.2, harity.symm, by omega⟩

/-- One successful CALLT, with `base <= top`: `base` and the slots below it are
unchanged and `top` becomes the larger of the old `top` and
`base + framesize`. -/
theorem callt_step_frame (env : Env) (s s1 : State)
    (hbt : s.base ≤ s.top) (hsz : s.top - s.base < 2 ^ 32)
    (hop : env.disp (bc_op (fetch env s.pc)) = Label.op_CALLT)
    (h : step env s = .next s1)
    (hfs : (env.infoCode (s.info (s.reg (bc_a (fetch env s.pc))))).framesize < 2 ^ 32) :
    s1.base = s.base ∧
    (∀ a, a < s.base → s1.stack a = s.stack a) ∧
    s1.top = max s.top
      (s.base + ((env.infoCode (s.info (s.reg (bc_a (fetch env s.pc))))).framesize : Int)) := by
  obtain ⟨hnn, hfun, har, hmax⟩ := callt_next_inv env s s1 hop h
  obtain ⟨x, hx, hbase, htop, _, _, ⟨temp, _, hstack⟩, _, _, _⟩ :=
    step_callt_fields env s hop hnn hfun har hmax
  rw [h] at hx
  injection hx with hx
  subst hx
  refine ⟨hbase, ?_, ?_⟩
  · intro a ha
    rw [hstack, callt_restore_le _ _ _ _ _ (by omega)]
    exact wr_other _ _ _ _ (by omega)
  · rw [htop, u4_of_lt _ hfs]
    have hcur : ((u4OfInt (s.top - s.base) : Nat) : Int) = s.top - s.base := by
      unfold u4OfInt
      omega
    by_cases hg : (env.infoCode (s.info (s.reg (bc_a (fetch env s.pc))))).framesize
        > u4OfInt (s.top - s.base)
    · rw [if_pos hg]
      have h2 : s.top ≤ s.base +
          ((env.infoCode (s.info (s.reg (bc_a (fetch env s.pc))))).framesize : Int) := by
        omega
      exact (max_eq_right h2).symm
    · rw [if_neg hg]
      have h2 : s.base +
          ((env.infoCode (s.info (s.reg (bc_a (fetch env s.pc))))).framesize : Int)
          ≤ s.top := by
        omega
      exact (max_eq_left h2).symm

/-- C16 (as amended): tail calls preserve stack depth.  Every successful CALLT
from a state with `base <= top` leaves `base` and all stack slots below `base`
(in particular the frame header `base[-3]`, `base[-2]`, `base[-1]`) unchanged
and pushes no frame; afterwards `top = max(old top, base + callee framesize)`.
Any sequence of consecutive tail calls keeps `base` and the slots below it
fixed, never lowers `top`, and keeps `top` bounded by the larger of the
initial `top` and `base` + the largest callee framesize. -/
theorem C16_tail_calls_keep_frame (env : Env) (s : State)
    (hbt : s.base ≤ s.top) (hsz : s.top - s.base < 2 ^ 32) :
    (∀ s1 : State,
      env.disp (bc_op (fetch env s.pc)) = Label.op_CALLT →
      step env s = .next s1 →
      (env.infoCode (s.info (s.reg (bc_a (fetch env s.pc))))).framesize < 2 ^ 32 →
      s1.base = s.base ∧
      (∀ a, a < s.base → s1.stack a = s.stack a) ∧
      s1.top = max s.top
        (s.base + ((env.infoCode (s.info (s.reg (bc_a (fetch env s.pc))))).framesize : Int))) ∧
    (∀ (n bound : Nat) (s1 : State),
      bound < 2 ^ 32 →
      tailCallRun env bound n s s1 →
      s1.base = s.base ∧
      (∀ a, a < s.base → s1.stack a = s.stack a) ∧
      s.top ≤ s1.top ∧
      s1.top ≤ max s.top (s.base + (bound : Int))) := by
  refine ⟨fun s1 hop h hfs => callt_step_frame env s s1 hbt hsz hop h hfs, ?_⟩
  intro n bound s1 hbound
  induction n generalizing s with
  | zero =>
    intro hrun
    simp only [tailCallRun] at hrun
    subst hrun
    exact ⟨rfl, fun _ _ => rfl, le_refl _, le_max_left _ _⟩
  | succ n ih =>
    intro hrun
    obtain ⟨hop, hle, m, hm, hrest⟩ := hrun
    obtain ⟨hb, hst, ht⟩ := callt_step_frame env s m hbt hsz hop hm (by omega)
    have hmt : s.top ≤ m.top := by rw [ht]; exact le_max_left _ _
    have hmb : m.top ≤ max s.top (s.base + (bound : Int)) := by
      rw [ht]
      apply max_le (le_max_left _ _)
      exact le_trans (by omega) (le_max_right _ _)
    have hmbt : m.base ≤ m.top := by omega
    have hmsz : m.top - m.base < 2 ^ 32 := by
      have h1 : max s.top (s.base + (bound : Int)) - s.base < 2 ^ 32 := by
        rcases max_cases s.top (s.base + (bound : Int)) with ⟨h, _⟩ | ⟨h, _⟩ <;> rw [h] <;> omega
      omega
    obtain ⟨ib, ist, it1, it2⟩ := ih m hmbt hmsz hrest
    refine ⟨by rw [ib, hb], ?_, le_trans hmt it1, ?_⟩
    · intro a ha
      rw [ist a (by omega), hst a ha]
    · refine le_trans it2 ?_
      rw [hb]
      exact max_le hmb (le_max_right _ _)

/-- Witness of C16 on the second example machine: the `CALLT r2, 2, r1` at
8100 with `base = 13`, `top = 16` and a callee of framesize 5 leaves
`base = 13` and raises `top` to `max 16 (13 + 5)`. -/
theorem C16_tail_calls_keep_frame_witness :
    (∀ s1 : State,
      exEnv2.disp (bc_op (fetch exEnv2 (exRegs 8100 111 222 600).pc)) = Label.op_CALLT →
      step exEnv2 (exRegs 8100 111 222 600) = .next s1 →
      (exEnv2.infoCode ((exRegs 8100 111 222 600).info
        ((exRegs 8100 111 222 600).reg
          (bc_a (fetch exEnv2 (exRegs 8100 111 222 600).pc))))).framesize < 2 ^ 32 →
      s1.base = (exRegs 8100 111 222 600).base ∧
      (∀ a, a < (exRegs 8100 111 222 600).base →
        s1.stack a = (exRegs 8100 111 222 600).stack a) ∧
      s1.top = max (exRegs 8100 111 222 600).top
        ((exRegs 8100 111 222 600).base +
          ((exEnv2.infoCode ((exRegs 8100 111 222 600).info
            ((exRegs 8100 111 222 600).reg
              (bc_a (fetch exEnv2 (exRegs 8100 111 222 600).pc))))).framesize : Int))) ∧
    (∀ (n bound : Nat) (s1 : State),
      bound < 2 ^ 32 →
      tailCallRun exEnv2 bound n (exRegs 8100 111 222 600) s1 →
      s1.base = (exRegs 8100 111 222 600).base ∧
      (∀ a, a < (exRegs 8100 111 222 600).base →
        s1.stack a = (exRegs 8100 111 222 600).stack a) ∧
      (exRegs 8100 111 222 600).top ≤ s1.top ∧
      s1.top ≤ max (exRegs 8100 111 222 600).top
        ((exRegs 8100 111 222 600).base + (bound : Int))) :=
  C16_tail_calls_keep_frame exEnv2 (exRegs 8100 111 222 600) (by decide) (by decide)

/-- C16 as stated fails: on the second example machine the `CALLT r2, 2, r1`
at 8100 is executed in a frame with `base = 13` and `top = 23`; the callee's
framesize is 5.  The tail call succeeds and leaves `top = 23`, which is above
`base` + the callee framesize = 18. -/
theorem C16_top_exceeds_callee_framesize :
    exEnv2.disp (bc_op (fetch exEnv2 8100)) = Label.op_CALLT ∧
    (exEnv2.infoCode (exInfo2 600)).framesize = 5 ∧
    (step exEnv2 { exRegs 8100 111 222 600 with top := 23 }).toState.map
      (fun s1 => (s1.base, s1.top, decide (s1.top ≤ s1.base + 5))) = some (13, 23, false) := by
  refine ⟨by decide, by decide, by decide⟩

/-! ## Fatal errors -/

/-- C17: arity mismatch is fatal and atomic.  For a CALL (nargs = operand C)
or a CALLT (nargs = operand B) whose callee `base[A]` is a non-null FUN closure
with an arity different from nargs, the handler returns the status -1, which
is not zero, and so does every run of at least one instruction from that
state (the engine); the state at the return has the stack, `top`, the heap and
the thread's saved `pc` and `base` of the state before the instruction. -/
theorem C17_arity_mismatch_is_fatal (env : Env) (s : State)
    (hnn : s.reg (bc_a (fetch env s.pc)) ≠ 0)
    (hfun : env.infoType (s.info (s.reg (bc_a (fetch env s.pc)))) = .FUN) :
    let arity := (env.infoCode (s.info (s.reg (bc_a (fetch env s.pc))))).arity
    ((env.disp (bc_op (fetch env s.pc)) = Label.op_CALL ∧
        bc_c_from_d (bc_d (fetch env s.pc)) ≠ arity) ∨
      (env.disp (bc_op (fetch env s.pc)) = Label.op_CALLT ∧
        bc_b_from_d (bc_d (fetch env s.pc)) ≠ arity)) →
    step env s = .exit (-1) { s with pc := s.pc + 1 } ∧
    (-1 : Int) ≠ 0 ∧
    (∀ n, runN env (n + 1) s = .exit (-1) { s with pc := s.pc + 1 }) ∧
    ({ s with pc := s.pc + 1 } : State).stack = s.stack ∧
    ({ s with pc := s.pc + 1 } : State).top = s.top := by
  intro arity hcase
  have hnn1 : ¬ s.stack (s.base + (bc_a (fetch env s.pc) : Int)) = 0 := hnn
  have hfun1 : env.infoType (s.info (s.stack (s.base + (bc_a (fetch env s.pc) : Int))))
      = .FUN := hfun
  have hstep : step env s = .exit (-1) { s with pc := s.pc + 1 } := by
    rcases hcase with ⟨hop, hne⟩ | ⟨hop, hne⟩
    · have hne1 : ¬ bc_c_from_d (bc_d (fetch env s.pc))
          = (env.infoCode (s.info (s.stack (s.base + (bc_a (fetch env s.pc) : Int))))).arity :=
        hne
      simp only [step, hop, op_CALL, State.reg, hnn1, hfun1, hne1, ne_eq,
        not_true_eq_false, or_self, if_false, not_false_eq_true, if_true]
    · have hne1 : ¬ bc_b_from_d (bc_d (fetch env s.pc))
          = (env.infoCode (s.info (s.stack (s.base + (bc_a (fetch env s.pc) : Int))))).arity :=
        hne
      simp only [step, hop, op_CALLT, State.reg, hnn1, hfun1, hne1, ne_eq,
        not_true_eq_false, or_self, if_false, not_false_eq_true, if_true]
  refine ⟨hstep, by decide, ?_, rfl, rfl⟩
  intro n
  simp only [runN, hstep]

/-- Witness of C17, the scenario of the specification: `CALL r0, r1, 1` at 8500
calls the arity-2 function closure 510 with `nargs = 1`. -/
theorem C17_arity_mismatch_is_fatal_witness :
    (exEnv2.infoCode ((exRegs 8500 510 111 0).info
      ((exRegs 8500 510 111 0).reg (bc_a (fetch exEnv2 (exRegs 8500 510 111 0).pc))))).arity
      = 2 ∧
    bc_c_from_d (bc_d (fetch exEnv2 (exRegs 8500 510 111 0).pc)) = 1 ∧
    step exEnv2 (exRegs 8500 510 111 0)
      = .exit (-1) { exRegs 8500 510 111 0 with pc := (exRegs 8500 510 111 0).pc + 1 } ∧
    (-1 : Int) ≠ 0 ∧
    (∀ n, runN exEnv2 (n + 1) (exRegs 8500 510 111 0)
      = .exit (-1) { exRegs 8500 510 111 0 with pc := (exRegs 8500 510 111 0).pc + 1 }) ∧
    ({ exRegs 8500 510 111 0 with pc := (exRegs 8500 510 111 0).pc + 1 } : State).stack
      = (exRegs 8500 510 111 0).stack ∧
    ({ exRegs 8500 510 111 0 with pc := (exRegs 8500 510 111 0).pc + 1 } : State).top
      = (exRegs 8500 510 111 0).top :=
  ⟨by decide, by decide,
   C17_arity_mismatch_is_fatal exEnv2 (exRegs 8500 510 111 0) (by decide) (by decide)
     (Or.inl ⟨by decide, by decide⟩)⟩

/-- C18, evaluated at failing inputs.  The stack check of the source answers
0 for every thread, `top` and increment.  Take a thread whose stack is the 16
slots 0 to 15 (`stack = 0`, `stack_size = 16`).  On the first example machine
`EVAL r0` of the thunk 500 with `base = 13`, `top = 15` does not return: it
writes the slots 15 to 22 and leaves `top = 24`.  The `CALL r0, r1, 2` with
`top = 16` does not return either and leaves `top = 21`, and on the second
example machine the `CALLT r2, 2, r1` with `top = 16` leaves `top = 18`. -/
theorem C18_stack_overflow_is_not_signalled :
    (∀ (s : State) (top : Int) (increment : Nat), stackOverflow s top increment = 0) ∧
    stackInBounds 0 16 exState ∧
    (step exEnv exState).toState.map
      (fun s1 => (s1.base, s1.top, s1.stack 22, decide (s1.top ≤ 0 + 16)))
      = some (23, 24, 500, false) ∧
    stackInBounds 0 16 exCallState ∧
    (step exEnv exCallState).toState.map
      (fun s1 => (s1.base, s1.top, s1.stack 18, decide (s1.top ≤ 0 + 16)))
      = some (19, 21, 510, false) ∧
    stackInBounds 0 16 (exRegs 8100 111 222 600) ∧
    (step exEnv2 (exRegs 8100 111 222 600)).toState.map
      (fun s1 => (s1.base, s1.top, decide (s1.top ≤ 0 + 16)))
      = some (13, 18, false) := by
  refine ⟨fun _ _ _ => rfl, ?_, by decide, ?_, by decide, ?_, by decide⟩
  · unfold stackInBounds
    decide
  · unfold stackInBounds
    decide
  · unfold stackInBounds
    decide

/-! ## The Node/code invariant -/

/-- An EVAL that continues had a non-null operand. -/
theorem eval_next_inv (env : Env) (s s1 : State)
    (hop : env.disp (bc_op (fetch env s.pc)) = Label.op_EVAL)
    (h : step env s = .next s1) : s.reg (bc_a (fetch env s.pc)) ≠ 0 := by
  simp only [step, hop, op_EVAL, State.reg] at h
  split at h
  · cases h
  · rename_i hnn
    exact hnn

/-- The Node/code invariant is established by the steps that push a frame.
After every CALL step `base[-1]` is the callee, a non-null FUN closure, and
`code` is the Code record of its info table.  After every EVAL step of a
closure `t` that is not in head normal form `base[-1]` is `t`, non-null, and
`code` is the Code record of its info table; when `t` is a THUNK the whole
invariant holds.  An EVAL step of a closure in head normal form preserves the
invariant. -/
theorem node_invariant_after_call_eval (env : Env) (s s1 : State)
    (h : step env s = .next s1) :
    (env.disp (bc_op (fetch env s.pc)) = Label.op_CALL →
      nodeInvariant env s1 ∧ s1.stack (s1.base - 1) = s.reg (bc_a (fetch env s.pc))) ∧
    (env.disp (bc_op (fetch env s.pc)) = Label.op_EVAL →
      closure_HNF env s (s.reg (bc_a (fetch env s.pc))) = false →
      codeMatchesNode s1 ∧
      s1.stack (s1.base - 1) = s.reg (bc_a (fetch env s.pc)) ∧
      s1.stack (s1.base - 1) ≠ 0 ∧
      (env.infoType (s.info (s.reg (bc_a (fetch env s.pc)))) = .THUNK →
        nodeInvariant env s1)) ∧
    (env.disp (bc_op (fetch env s.pc)) = Label.op_EVAL →
      closure_HNF env s (s.reg (bc_a (fetch env s.pc))) = true →
      (nodeInvariant env s → nodeInvariant env s1) ∧
      (codeMatchesNode s → codeMatchesNode s1)) := by
  refine ⟨fun hop => ?_, fun hop hnf => ?_, fun hop hnf => ?_⟩
  · obtain ⟨hnn, hfun, har⟩ := call_next_inv env s s1 hop h
    have hs := step_call env s hop hnn hfun har
    rw [h] at hs
    injection hs with hs
    have hnode : s1.stack (s1.base - 1) = s.reg (bc_a (fetch env s.pc)) := by
      rw [hs]
      show op_CALL_copy _ _ _ _ _ _ (s.top + 3 - 1) = _
      unfold op_CALL_copy
      rw [call_copy_loop_below _ _ _ _ _ _ _ (show s.top + 3 - 1 < s.top + 4 by omega)]
      have e : s.top + 3 - 1 = s.top + 2 := by omega
      rw [e, wr_other _ _ _ _ (show s.top + 2 ≠ s.top + 3 by omega), wr_same]
    have hinfo : s1.info = s.info := by rw [hs]
    have hcode : s1.code = s.info (s.reg (bc_a (fetch env s.pc))) := by rw [hs]
    refine ⟨⟨?_, ?_, ?_⟩, hnode⟩
    · rw [hnode]; exact hnn
    · rw [hnode, hinfo]; exact Or.inl hfun
    · unfold codeMatchesNode
      rw [hnode, hinfo, hcode]
  · have hnn := eval_next_inv env s s1 hop h
    have hs := step_eval_thunk env s hop hnn hnf
    rw [h] at hs
    injection hs with hs
    have hnode : s1.stack (s1.base - 1) = s.reg (bc_a (fetch env s.pc)) := by
      rw [hs]
      show wr _ _ _ (s.top + 8 - 1) = _
      have e : s.top + 8 - 1 = s.top + 7 := by omega
      rw [e, wr_same]
    have hinfo : s1.info = s.info := by rw [hs]
    have hcode : s1.code = s.info (s.reg (bc_a (fetch env s.pc))) := by rw [hs]
    have hcm : codeMatchesNode s1 := by
      unfold codeMatchesNode
      rw [hnode, hinfo, hcode]
    refine ⟨hcm, hnode, ?_, fun hth => ⟨?_, ?_, hcm⟩⟩
    · rw [hnode]; exact hnn
    · rw [hnode]; exact hnn
    · rw [hnode, hinfo]; exact Or.inr hth
  · have hnn := eval_next_inv env s s1 hop h
    have hnn1 : ¬ s.stack (s.base + (bc_a (fetch env s.pc) : Int)) = 0 := hnn
    have hnf1 : closure_HNF env { s with pc := s.pc + 1 }
        (s.stack (s.base + (bc_a (fetch env s.pc) : Int))) = true := hnf
    simp only [step, hop, op_EVAL, State.reg, hnn1, hnf1, if_false, if_true] at h
    injection h with h
    subst h
    exact ⟨fun hi => hi, fun hi => hi⟩

/-- C13, evaluated at a failing input.  On the second example machine the
state at the `CALLT r2, 2, r1` of address 8100 satisfies the Node/code
invariant: `base[-1]` is the FUN closure 540 with info table 110 and `code` is
110.  The callee in `r2` is the closure 600, a FUN of arity 2 with info table
200.  The tail call succeeds and leaves `base = 13`; afterwards `code` is 200
and `pc` is the callee's code 2100, but `base[-1]` is still 540, whose info
table is 110: the invariant does not hold after the CALLT.  The
`CALL r0, r1, 2` at 4000 of the first example machine, in contrast, stores its
callee 510 in the new `base[-1]` and the invariant holds after it. -/
theorem C13_callt_leaves_stale_node :
    nodeInvariant exEnv2 (exRegs 8100 111 222 600) ∧
    exEnv2.disp (bc_op (fetch exEnv2 (exRegs 8100 111 222 600).pc)) = Label.op_CALLT ∧
    (exRegs 8100 111 222 600).reg (bc_a (fetch exEnv2 (exRegs 8100 111 222 600).pc)) = 600 ∧
    (exRegs 8100 111 222 600).info 600 = 200 ∧
    exEnv2.infoType 200 = .FUN ∧
    (step exEnv2 (exRegs 8100 111 222 600)).toState.map
      (fun s1 => (s1.base, s1.code, s1.pc)) = some (13, 200, 2100) ∧
    (step exEnv2 (exRegs 8100 111 222 600)).toState.map
      (fun s1 => (s1.stack (s1.base - 1), s1.info (s1.stack (s1.base - 1)),
        decide (s1.code = s1.info (s1.stack (s1.base - 1))))) = some (540, 110, false) ∧
    ¬ nodeInvariant exEnv2
      ((step exEnv2 (exRegs 8100 111 222 600)).stateOr (exRegs 8100 111 222 600)) ∧
    exEnv.disp (bc_op (fetch exEnv exCallState.pc)) = Label.op_CALL ∧
    (step exEnv exCallState).toState.map
      (fun s1 => (s1.stack (s1.base - 1), s1.info (s1.stack (s1.base - 1)), s1.code))
      = some (510, 110, 110) ∧
    nodeInvariant exEnv ((step exEnv exCallState).stateOr exCallState) := by
  refine ⟨?_, by decide, by decide, by decide, by decide, by decide, by decide, ?_,
    by decide, by decide, ?_⟩
  · unfold nodeInvariant codeMatchesNode
    decide
  · unfold nodeInvariant codeMatchesNode
    decide
  · unfold nodeInvariant codeMatchesNode
    decide

/-! ## Trailing payloads -/

/-- A CASE_S step that continues lands at or after the end of its table. -/
theorem case_s_next_pc (env : Env) (s s1 : State)
    (hop : env.disp (bc_op (fetch env s.pc)) = Label.op_CASE_S)
    (h : step env s = .next s1) :
    ∃ k : Nat, s1.pc = s.pc + 1 + 1 + ((u2 (bc_d (fetch env s.pc)) : Nat) : Int) + (k : Int) := by
  simp only [step, hop, op_CASE_S] at h
  split at h
  · cases h
  · split at h
    · split at h
      · simp only [op_CASE_S_found] at h
        split at h
        · cases h
          exact ⟨_, rfl⟩
        · cases h
      · split at h
        · simp only [op_CASE_S_found] at h
          split at h
          · cases h
            exact ⟨_, rfl⟩
          · cases h
        · cases h
          exact ⟨0, by simp⟩
    · cases h
      exact ⟨0, by simp⟩

/-- A CASE_S whose scrutinee tag is outside `[mintag, maxtag]` continues at
the address after its table. -/
theorem case_s_out_of_range (env : Env) (s : State)
    (hop : env.disp (bc_op (fetch env s.pc)) = Label.op_CASE_S)
    (hnn : s.reg (bc_a (fetch env s.pc)) ≠ 0)
    (hty : env.infoType (s.info (s.reg (bc_a (fetch env s.pc)))) = .CONSTR)
    (hout : getTag env s (s.reg (bc_a (fetch env s.pc))) < u2 (bc_case_mintag (fetch env (s.pc + 1)))
      ∨ u2 (bc_case_maxtag (fetch env (s.pc + 1))) < getTag env s (s.reg (bc_a (fetch env s.pc)))) :
    step env s = .next { s with pc := s.pc + 1 + 1 + ((u2 (bc_d (fetch env s.pc)) : Nat) : Int) } := by
  have hnn1 : ¬ s.stack (s.base + (bc_a (fetch env s.pc) : Int)) = 0 := hnn
  have hty1 : env.infoType (s.info (s.stack (s.base + (bc_a (fetch env s.pc) : Int))))
      = .CONSTR := hty
  have hu : u2 (getTag env { s with pc := s.pc + 1 }
      (s.stack (s.base + (bc_a (fetch env s.pc) : Int))))
      = getTag env s (s.reg (bc_a (fetch env s.pc))) := by
    show u2 (u2 _) = u2 _
    unfold u2
    exact Nat.mod_mod _ _
  have hr : ¬ (u2 (bc_case_mintag (fetch env (s.pc + 1)))
      ≤ getTag env s (s.reg (bc_a (fetch env s.pc))) ∧
      getTag env s (s.reg (bc_a (fetch env s.pc)))
      ≤ u2 (bc_case_maxtag (fetch env (s.pc + 1)))) := by
    omega
  simp only [step, hop, op_CASE_S, State.reg, hnn1, hty1, hu, ne_eq,
    not_true_eq_false, or_self, if_false]
  exact if_neg hr


/-! ## Small sparse tables -/

/-- With at most 4 entries left the binary-search loop of CASE_S is not
entered. -/
theorem case_s_while_small (env : Env) (table : Int) (tag : Nat) (istart ilen : Int)
    (h : ilen ≤ 4) : op_CASE_S_while env table tag istart ilen = .linear istart ilen := by
  rw [op_CASE_S_while]
  have h4 : ¬ ilen > 4 := by omega
  simp only [h4, dite_false]

/-- A hit of the linear loop of CASE_S is the first match of the reference
search. -/
theorem case_s_for_some (env : Env) (table : Int) (tag : Nat) (n : Nat) (i imid : Int)
    (h : op_CASE_S_for env table tag n i = some imid) :
    bc_case_tag (fetch env (table + imid)) = tag ∧
    caseS_linear_ref env table tag n i = some (bc_case_target (fetch env (table + imid))) := by
  induction n generalizing i with
  | zero => simp [op_CASE_S_for] at h
  | succ n ih =>
    simp only [op_CASE_S_for] at h
    by_cases ht : bc_case_tag (fetch env (table + i)) = tag
    · rw [if_pos ht] at h
      injection h with h
      subst h
      exact ⟨ht, by simp only [caseS_linear_ref, ht, if_true]⟩
    · rw [if_neg ht] at h
      obtain ⟨h1, h2⟩ := ih (i + 1) h
      exact ⟨h1, by simp only [caseS_linear_ref, ht, if_false]; exact h2⟩

/-- A miss of the linear loop of CASE_S is a miss of the reference search. -/
theorem case_s_for_none (env : Env) (table : Int) (tag : Nat) (n : Nat) (i : Int)
    (h : op_CASE_S_for env table tag n i = none) :
    caseS_linear_ref env table tag n i = none := by
  induction n generalizing i with
  | zero => rfl
  | succ n ih =>
    simp only [op_CASE_S_for] at h
    by_cases ht : bc_case_tag (fetch env (table + i)) = tag
    · rw [if_pos ht] at h
      cases h
    · rw [if_neg ht] at h
      simp only [caseS_linear_ref, ht, if_false]
      exact ih (i + 1) h

/-- The reference search finds entry `i` when it has the tag and no entry
from `j` up to `i` has it. -/
theorem caseS_linear_ref_first (env : Env) (table : Int) (tag : Nat) (n j i : Nat)
    (hji : j ≤ i) (hin : i < j + n)
    (hi : bc_case_tag (fetch env (table + (i : Int))) = tag)
    (hbefore : ∀ k : Nat, j ≤ k → k < i → bc_case_tag (fetch env (table + (k : Int))) ≠ tag) :
    caseS_linear_ref env table tag n (j : Int)
      = some (bc_case_target (fetch env (table + (i : Int)))) := by
  induction n generalizing j with
  | zero => omega
  | succ n ih =>
    by_cases hij : j = i
    · subst hij
      simp only [caseS_linear_ref, hi, if_true]
    · have hj : bc_case_tag (fetch env (table + (j : Int))) ≠ tag :=
        hbefore j (le_refl _) (by omega)
      simp only [caseS_linear_ref, hj, if_false]
      have hcast : ((j : Int) + 1) = ((j + 1 : Nat) : Int) := by push_cast; rfl
      rw [hcast]
      exact ih (j + 1) (by omega) (by omega) (fun k hk1 hk2 => hbefore k (by omega) hk2)

/-- The reference search finds nothing when no entry has the tag. -/
theorem caseS_linear_ref_none (env : Env) (table : Int) (tag : Nat) (n j : Nat)
    (hnone : ∀ k : Nat, j ≤ k → k < j + n →
      bc_case_tag (fetch env (table + (k : Int))) ≠ tag) :
    caseS_linear_ref env table tag n (j : Int) = none := by
  induction n generalizing j with
  | zero => rfl
  | succ n ih =>
    have hj : bc_case_tag (fetch env (table + (j : Int))) ≠ tag :=
      hnone j (le_refl _) (by omega)
    simp only [caseS_linear_ref, hj, if_false]
    have hcast : ((j : Int) + 1) = ((j + 1 : Nat) : Int) := by push_cast; rfl
    rw [hcast]
    exact ih (j + 1) (fun k hk1 hk2 => hnone k (by omega) (by omega))

/-- A CASE_S with at most 4 entries and a tag inside `[mintag, maxtag]`
continues where the reference linear search says. -/
theorem case_s_small_in_range (env : Env) (s : State)
    (hop : env.disp (bc_op (fetch env s.pc)) = Label.op_CASE_S)
    (hnn : s.reg (bc_a (fetch env s.pc)) ≠ 0)
    (hty : env.infoType (s.info (s.reg (bc_a (fetch env s.pc)))) = .CONSTR)
    (hn : bc_d (fetch env s.pc) ≤ 4)
    (hmin : u2 (bc_case_mintag (fetch env (s.pc + 1)))
      ≤ getTag env s (s.reg (bc_a (fetch env s.pc))))
    (hmax : getTag env s (s.reg (bc_a (fetch env s.pc)))
      ≤ u2 (bc_case_maxtag (fetch env (s.pc + 1)))) :
    step env s = .next { s with
      pc := caseS_pc_ref env (s.pc + 2) (bc_d (fetch env s.pc))
        (getTag env s (s.reg (bc_a (fetch env s.pc))))
        (s.pc + 2 + ((bc_d (fetch env s.pc) : Nat) : Int)) } := by
  have hd : u2 (bc_d (fetch env s.pc)) = bc_d (fetch env s.pc) := by
    have := bc_d_fetch_lt env s.pc
    unfold u2
    exact Nat.mod_eq_of_lt this
  have hnn1 : ¬ s.stack (s.base + (bc_a (fetch env s.pc) : Int)) = 0 := hnn
  have hty1 : env.infoType (s.info (s.stack (s.base + (bc_a (fetch env s.pc) : Int))))
      = .CONSTR := hty
  have hu : u2 (getTag env { s with pc := s.pc + 1 }
      (s.stack (s.base + (bc_a (fetch env s.pc) : Int))))
      = getTag env s (s.stack (s.base + (bc_a (fetch env s.pc) : Int))) := by
    show u2 (u2 _) = u2 _
    unfold u2
    exact Nat.mod_mod _ _
  have hr : u2 (bc_case_mintag (fetch env (s.pc + 1)))
      ≤ getTag env s (s.stack (s.base + (bc_a (fetch env s.pc) : Int))) ∧
      getTag env s (s.stack (s.base + (bc_a (fetch env s.pc) : Int)))
      ≤ u2 (bc_case_maxtag (fetch env (s.pc + 1))) := ⟨hmin, hmax⟩
  have e2 : s.pc + 1 + 1 = s.pc + 2 := by omega
  have hw := case_s_while_small env (s.pc + 2)
    (getTag env s (s.stack (s.base + (bc_a (fetch env s.pc) : Int)))) 0
    ((bc_d (fetch env s.pc) : Nat) : Int) (by omega)
  simp only [step, hop, op_CASE_S, State.reg, hnn1, hty1, hu, hd, e2, hw, ne_eq,
    not_true_eq_false, or_self, if_false, hr, and_self, if_true, Int.toNat_ofNat]
  cases hfor : op_CASE_S_for env (s.pc + 2)
      (getTag env s (s.stack (s.base + (bc_a (fetch env s.pc) : Int))))
      (bc_d (fetch env s.pc)) 0 with
  | none =>
    have href := case_s_for_none env _ _ _ _ hfor
    simp only [caseS_pc_ref, href]
  | some imid =>
    obtain ⟨htag, href⟩ := case_s_for_some env _ _ _ _ _ hfor
    simp only [caseS_pc_ref, href, op_CASE_S_found, htag, if_true]

/-- C19: small sparse tables.  For a CASE_S with `n <= 4` entries whose
scrutinee `base[A]` is a non-null constructor with tag `t`: when `t` is inside
`[mintag, maxtag]` the handler continues where the linear search over the
entries says, that is at (address after the table) + `target_i` when entry `i`
is the first entry with tag `t`, and at the address after the table when no
entry has tag `t`; when `t` is outside `[mintag, maxtag]` it continues at the
address after the table. -/
theorem C19_small_sparse_table (env : Env) (s : State)
    (hop : env.disp (bc_op (fetch env s.pc)) = Label.op_CASE_S)
    (hnn : s.reg (bc_a (fetch env s.pc)) ≠ 0)
    (hty : env.infoType (s.info (s.reg (bc_a (fetch env s.pc)))) = .CONSTR)
    (hn : bc_d (fetch env s.pc) ≤ 4) :
    let n := bc_d (fetch env s.pc)
    let t := getTag env s (s.reg (bc_a (fetch env s.pc)))
    let mintag := u2 (bc_case_mintag (fetch env (s.pc + 1)))
    let maxtag := u2 (bc_case_maxtag (fetch env (s.pc + 1)))
    let table : Int := s.pc + 2
    let after : Int := s.pc + 2 + ((n : Nat) : Int)
    (mintag ≤ t ∧ t ≤ maxtag →
      step env s = .next { s with pc := caseS_pc_ref env table n t after }) ∧
    (mintag ≤ t ∧ t ≤ maxtag →
      ∀ i : Nat, i < n → bc_case_tag (fetch env (table + (i : Int))) = t →
        (∀ k : Nat, k < i → bc_case_tag (fetch env (table + (k : Int))) ≠ t) →
        step env s = .next { s with
          pc := after + ((bc_case_target (fetch env (table + (i : Int))) : Nat) : Int) }) ∧
    (mintag ≤ t ∧ t ≤ maxtag →
      (∀ i : Nat, i < n → bc_case_tag (fetch env (table + (i : Int))) ≠ t) →
      step env s = .next { s with pc := after }) ∧
    (t < mintag ∨ maxtag < t → step env s = .next { s with pc := after }) := by
  intro n t mintag maxtag table after
  refine ⟨fun hr => ?_, fun hr i hi htag hbefore => ?_, fun hr hnone => ?_, fun hout => ?_⟩
  · exact case_s_small_in_range env s hop hnn hty hn hr.1 hr.2
  · rw [case_s_small_in_range env s hop hnn hty hn hr.1 hr.2]
    have href := caseS_linear_ref_first env table t n 0 i (Nat.zero_le _) (by omega) htag
      (fun k _ hk => hbefore k hk)
    have h0 : ((0 : Nat) : Int) = 0 := rfl
    rw [h0] at href
    simp only [caseS_pc_ref]
    rw [href]
  · rw [case_s_small_in_range env s hop hnn hty hn hr.1 hr.2]
    have href := caseS_linear_ref_none env table t n 0 (fun k _ hk => hnone k (by omega))
    have h0 : ((0 : Nat) : Int) = 0 := rfl
    rw [h0] at href
    simp only [caseS_pc_ref]
    rw [href]
  · have h := case_s_out_of_range env s hop hnn hty hout
    have hd : u2 (bc_d (fetch env s.pc)) = bc_d (fetch env s.pc) := by
      have := bc_d_fetch_lt env s.pc
      unfold u2
      exact Nat.mod_eq_of_lt this
    rw [h, hd]
    have e2 : s.pc + 1 + 1 = s.pc + 2 := by omega
    rw [e2]

/-- Witness of C19, the scenario of the specification: `CASE_S r0, 3` at 8400
with mintag 5, maxtag 9 and the entries (5, 11), (7, 22), (9, 33); the table
ends at 8405.  Tag 7 jumps to 8405 + 22, tag 6 falls through to 8405. -/
theorem C19_small_sparse_table_witness :
    getTag exEnv2 (exRegs 8400 590 0 0) ((exRegs 8400 590 0 0).reg 0) = 7 ∧
    step exEnv2 (exRegs 8400 590 0 0)
      = .next { exRegs 8400 590 0 0 with pc := 8405 + 22 } ∧
    getTag exEnv2 (exRegs 8400 580 0 0) ((exRegs 8400 580 0 0).reg 0) = 6 ∧
    step exEnv2 (exRegs 8400 580 0 0) = .next { exRegs 8400 580 0 0 with pc := 8405 } := by
  refine ⟨by decide, ?_, by decide, ?_⟩
  · exact (C19_small_sparse_table exEnv2 (exRegs 8400 590 0 0) (by decide) (by decide)
      (by decide) (by decide)).2.1 ⟨by decide, by decide⟩ 1 (by decide) (by decide)
      (by intro k hk; interval_cases k; decide)
  · exact (C19_small_sparse_table exEnv2 (exRegs 8400 580 0 0) (by decide) (by decide)
      (by decide) (by decide)).2.2.1 ⟨by decide, by decide⟩
      (by intro i hi
          have h3 : bc_d (fetch exEnv2 (exRegs 8400 580 0 0).pc) = 3 := by decide
          rw [h3] at hi
          interval_cases i <;> decide)

/-! ## ALLOC -/

/-- C20, evaluated at a failing input.  On the second example machine the
instruction at 8300 is `ALLOC r2, r0, 1` (A = 2, B = 0, C = 1) followed by
argument bytes that all name `r1`; `r0` holds the info table 120, `r1` holds
3 and `r2` holds 0; the allocator returns the closure 20000, whose payload is
all 0 before.  The handler sets the info of 20000 to 120 and writes the three
payload words 0, 1 and 2 (the size is the contents 3 of the register named by
C, not C = 1), and it leaves `r2` at 0: the new closure is stored in no
register. -/
theorem C20_alloc_size_and_target :
    exEnv2.disp (bc_op (fetch exEnv2 (exRegs 8300 120 3 0).pc)) = Label.op_ALLOC ∧
    bc_a (fetch exEnv2 (exRegs 8300 120 3 0).pc) = 2 ∧
    bc_b_from_d (bc_d (fetch exEnv2 (exRegs 8300 120 3 0).pc)) = 0 ∧
    bc_c_from_d (bc_d (fetch exEnv2 (exRegs 8300 120 3 0).pc)) = 1 ∧
    exEnv2.alloc (exRegs 8300 120 3 0).nalloc = 20000 ∧
    ((exRegs 8300 120 3 0).payload 20000 0, (exRegs 8300 120 3 0).payload 20000 1,
      (exRegs 8300 120 3 0).payload 20000 2, (exRegs 8300 120 3 0).reg 2) = (0, 0, 0, 0) ∧
    (step exEnv2 (exRegs 8300 120 3 0)).toState.map
      (fun s1 => (s1.info 20000, s1.payload 20000 0, s1.payload 20000 1, s1.payload 20000 2,
        s1.payload 20000 3)) = some (120, 3, 3, 3, 0) ∧
    (step exEnv2 (exRegs 8300 120 3 0)).toState.map
      (fun s1 => (s1.reg 2, decide (s1.reg 2 = 20000), s1.pc)) = some (0, false, 8302) := by
  refine ⟨by decide, by decide, by decide, by decide, by decide, by decide, by decide,
    by decide⟩

/-! ## Signed words -/

/-- The signed reading of the word 0 is 0. -/
theorem toSigned_zero (env : Env) : toSigned env 0 = 0 := by
  unfold toSigned wrapW
  simp

/-- Reducing twice to the range of `Word` is reducing once. -/
theorem wrapW_wrapW (env : Env) (x : Int) : wrapW env (wrapW env x) = wrapW env x := by
  unfold wrapW
  exact Int.emod_emod _ _

/-- The signed reading of a word depends on the word only. -/
theorem toSigned_wrapW (env : Env) (x : Int) : toSigned env (wrapW env x) = toSigned env x := by
  unfold toSigned
  rw [wrapW_wrapW]

/-- Storing the signed reading of a word gives the word back. -/
theorem wrapW_toSigned (env : Env) (x : Int) : wrapW env (toSigned env x) = wrapW env x := by
  unfold toSigned
  split
  · exact wrapW_wrapW env x
  · unfold wrapW
    rw [Int.sub_emod, Int.emod_self, sub_zero, Int.emod_emod, Int.emod_emod]

/-- The signed reading of a word lies in `[-2^(w-1), 2^(w-1))`. -/
theorem toSigned_range (env : Env) (k : Nat) (hw : env.wordBits = k + 1) (x : Int) :
    -(2 : Int) ^ k ≤ toSigned env x ∧ toSigned env x < (2 : Int) ^ k := by
  have hP : (0 : Int) < 2 ^ k := by positivity
  have hm : (2 : Int) ^ env.wordBits = 2 * 2 ^ k := by rw [hw, pow_succ]; ring
  have h0 : 0 ≤ x % (2 * 2 ^ k : Int) := Int.emod_nonneg _ (by omega)
  have h1 : x % (2 * 2 ^ k : Int) < 2 * 2 ^ k := Int.emod_lt_of_pos _ (by omega)
  unfold toSigned wrapW
  rw [hm]
  generalize x % (2 * 2 ^ k : Int) = r at h0 h1
  generalize (2 : Int) ^ k = P at hP h0 h1
  split <;> constructor <;> omega

/-- A value in `[-2^(w-1), 2^(w-1))` is the signed reading of the word it is
stored as. -/
theorem toSigned_of_range (env : Env) (k : Nat) (hw : env.wordBits = k + 1) (q : Int)
    (hlo : -(2 : Int) ^ k ≤ q) (hhi : q < (2 : Int) ^ k) :
    toSigned env (wrapW env q) = q := by
  rw [toSigned_wrapW]
  have hP : (0 : Int) < 2 ^ k := by positivity
  have hm : (2 : Int) ^ env.wordBits = 2 * 2 ^ k := by rw [hw, pow_succ]; ring
  unfold toSigned wrapW
  rw [hm]
  rcases le_or_lt 0 q with hq | hq
  · have he : q % (2 * 2 ^ k : Int) = q := Int.emod_eq_of_lt hq (by omega)
    rw [he]
    generalize (2 : Int) ^ k = P at hP hlo hhi
    split <;> omega
  · have he : q % (2 * 2 ^ k : Int) = q + 2 * 2 ^ k := by
      rw [← Int.add_emod_self]
      exact Int.emod_eq_of_lt (by omega) (by omega)
    rw [he]
    generalize (2 : Int) ^ k = P at hP hlo hhi hq
    split <;> omega

/-! ## KINT -/

/-- A KINT step stores the D operand, a value in `[0, 65535]`, in `base[A]`
and changes nothing else but `pc`. -/
theorem step_kint (env : Env) (s : State)
    (hop : env.disp (bc_op (fetch env s.pc)) = Label.op_KINT) :
    step env s = .next { s with
      pc := s.pc + 1,
      stack := wr s.stack (s.base + (bc_a (fetch env s.pc) : Int))
        ((bc_d (fetch env s.pc) : Nat) : Int) } := by
  simp only [step, hop, op_KINT, State.setReg]

/-- C21, evaluated at failing inputs.  On the third example machine the word
at 9000 is `KINT r0, -1` as built by `asd` (its `sd()` field decodes to -1).
The handler stores 65535 in `r0`, whose signed reading is 65535 and not -1,
with 64-bit words and with 32-bit words alike.  The `KINT r1, -32768` at 9001
stores 32768. -/
theorem C21_kint_is_zero_extended :
    exEnv3.disp (bc_op (fetch exEnv3 9000)) = Label.op_KINT ∧
    fetch exEnv3 9000 = BcIns.asd 22 0 (-1) ∧
    BcIns.sd (fetch exEnv3 9000) = -1 ∧
    (step exEnv3 (exRegs 9000 5 6 7)).toState.map
      (fun s1 => (s1.reg 0, toSigned exEnv3 (s1.reg 0),
        decide (toSigned exEnv3 (s1.reg 0) = -1))) = some (65535, 65535, false) ∧
    (step exEnv3w32 (exRegs 9000 5 6 7)).toState.map
      (fun s1 => (s1.reg 0, toSigned exEnv3w32 (s1.reg 0),
        decide (toSigned exEnv3w32 (s1.reg 0) = -1))) = some (65535, 65535, false) ∧
    BcIns.sd (fetch exEnv3 9001) = -32768 ∧
    (step exEnv3 (exRegs 9001 5 6 7)).toState.map
      (fun s1 => (s1.reg 1, toSigned exEnv3 (s1.reg 1),
        decide (toSigned exEnv3 (s1.reg 1) = -32768))) = some (32768, 32768, false) := by
  refine ⟨by decide, by decide, by decide, by decide, by decide, by decide, by decide⟩

/-! ## NEW_INT -/

/-- C22: NEW_INT boxing.  With `v` the signed reading of the register named
by the D operand: if `-128 <= v <= 127` the step stores the address of the
static closure `smallInt(v)` in `base[A]` and changes nothing else but `pc`
(nothing is allocated); otherwise it makes one allocation, stores the address
of the new closure in `base[A]`, sets the closure's info to `stg_Izh_con_info`
and its payload word 0 to `v`, and changes no other closure, payload word or
stack slot. -/
theorem C22_new_int_boxing (env : Env) (s : State)
    (hop : env.disp (bc_op (fetch env s.pc)) = Label.op_NEW_INT) :
    let A := bc_a (fetch env s.pc)
    let v := toSigned env (s.reg (bc_d (fetch env s.pc)))
    (-128 ≤ v ∧ v ≤ 127 →
      step env s = .next { s with
        pc := s.pc + 1,
        stack := wr s.stack (s.base + (A : Int)) (env.smallInt v) }) ∧
    (v < -128 ∨ 127 < v →
      ∃ s1, step env s = .next s1 ∧
        s1.reg A = env.alloc s.nalloc ∧
        s1.nalloc = s.nalloc + 1 ∧
        s1.info (env.alloc s.nalloc) = env.stg_Izh_con_info ∧
        toSigned env (s1.payload (env.alloc s.nalloc) 0) = v ∧
        s1.stack = wr s.stack (s.base + (A : Int)) (env.alloc s.nalloc) ∧
        (∀ c, c ≠ env.alloc s.nalloc → s1.info c = s.info c) ∧
        (∀ c i, ¬ (c = env.alloc s.nalloc ∧ i = 0) → s1.payload c i = s.payload c i) ∧
        s1.pc = s.pc + 1 ∧ s1.base = s.base ∧ s1.top = s.top ∧
        s1.last_result = s.last_result) := by
  intro A v
  constructor
  · intro hr
    have hr1 : -128 ≤ toSigned env (s.stack (s.base + (bc_d (fetch env s.pc) : Int))) ∧
        toSigned env (s.stack (s.base + (bc_d (fetch env s.pc) : Int))) ≤ 127 := hr
    simp only [step, hop, op_NEW_INT, State.reg, State.setReg, hr1, and_self, if_true]
    rfl
  · intro hout
    have hr1 : ¬ (-128 ≤ toSigned env (s.stack (s.base + (bc_d (fetch env s.pc) : Int))) ∧
        toSigned env (s.stack (s.base + (bc_d (fetch env s.pc) : Int))) ≤ 127) := by
      intro h
      have hv : v = toSigned env (s.stack (s.base + (bc_d (fetch env s.pc) : Int))) := rfl
      omega
    simp only [step, hop, op_NEW_INT, State.reg, State.setReg, hr1, if_false]
    refine ⟨_, rfl, ?_, rfl, ?_, ?_, rfl, ?_, ?_, rfl, rfl, rfl, rfl⟩
    · exact wr_same _ _ _
    · exact wr_same _ _ _
    · show toSigned env (wrPayload _ _ _ _ _ _) = v
      simp only [wrPayload, and_self, if_true]
      rw [wrapW_toSigned, toSigned_wrapW]
      rfl
    · intro c hc
      exact wr_other _ _ _ _ hc
    · intro c i hci
      simp only [wrPayload, hci, if_false]

/-- Witness of C22 on the third example machine, the `NEW_INT r0, r0` at
9100 with 64-bit words: the values 127 and -128 give the static closures
`smallInt(127)` and `smallInt(-128)` (addresses 10000 + v), the values 128 and
-129 give the newly allocated closure 20000. -/
theorem C22_new_int_boxing_witness :
    step exEnv3 (exRegs 9100 127 0 0)
      = .next { exRegs 9100 127 0 0 with
          pc := 9101,
          stack := wr (exRegs 9100 127 0 0).stack 13 10127 } ∧
    toSigned exEnv3 ((exRegs 9100 (2 ^ 64 - 128) 0 0).reg 0) = -128 ∧
    step exEnv3 (exRegs 9100 (2 ^ 64 - 128) 0 0)
      = .next { exRegs 9100 (2 ^ 64 - 128) 0 0 with
          pc := 9101,
          stack := wr (exRegs 9100 (2 ^ 64 - 128) 0 0).stack 13 9872 } ∧
    (∃ s1, step exEnv3 (exRegs 9100 128 0 0) = .next s1 ∧
      s1.reg 0 = 20000 ∧ s1.nalloc = 1 ∧ s1.info 20000 = 150 ∧
      toSigned exEnv3 (s1.payload 20000 0) = 128) ∧
    toSigned exEnv3 ((exRegs 9100 (2 ^ 64 - 129) 0 0).reg 0) = -129 ∧
    (∃ s1, step exEnv3 (exRegs 9100 (2 ^ 64 - 129) 0 0) = .next s1 ∧
      s1.reg 0 = 20000 ∧ s1.nalloc = 1 ∧ s1.info 20000 = 150 ∧
      toSigned exEnv3 (s1.payload 20000 0) = -129) := by
  refine ⟨?_, by decide, ?_, ?_, by decide, ?_⟩
  · exact (C22_new_int_boxing exEnv3 (exRegs 9100 127 0 0) (by decide)).1
      ⟨by decide, by decide⟩
  · exact (C22_new_int_boxing exEnv3 (exRegs 9100 (2 ^ 64 - 128) 0 0) (by decide)).1
      ⟨by decide, by decide⟩
  · obtain ⟨s1, h, hA, hn, hi, hp, _⟩ :=
      (C22_new_int_boxing exEnv3 (exRegs 9100 128 0 0) (by decide)).2 (Or.inr (by decide))
    exact ⟨s1, h, hA, hn, hi, hp⟩
  · obtain ⟨s1, h, hA, hn, hi, hp, _⟩ :=
      (C22_new_int_boxing exEnv3 (exRegs 9100 (2 ^ 64 - 129) 0 0) (by decide)).2
        (Or.inl (by decide))
    exact ⟨s1, h, hA, hn, hi, hp⟩

/-! ## DIVRR -/

/-- The quotient truncated toward zero of two values of `[-P, P)` lies in
`[-P, P)`, except for `-P / -1`. -/
theorem tdiv_range (P a b : Int) (hlo : -P ≤ a) (hhi : a < P) (hb : b ≠ 0)
    (hov : ¬ (a = -P ∧ b = -1)) : -P ≤ a.tdiv b ∧ a.tdiv b < P := by
  have hn : (a.tdiv b).natAbs = a.natAbs / b.natAbs := Int.natAbs_tdiv a b
  rcases Nat.lt_or_ge b.natAbs 2 with h2 | h2
  · have hb1 : b = 1 ∨ b = -1 := by omega
    rcases hb1 with rfl | rfl
    · rw [Int.tdiv_one]
      omega
    · have hneg : a.tdiv (-1) = -a := by rw [Int.tdiv_neg, Int.tdiv_one]
      rw [hneg]
      omega
  · have h3 : a.natAbs / b.natAbs ≤ a.natAbs / 2 := Nat.div_le_div_left h2 (by decide)
    omega

/-- C24: DIVRR A,B,C.  When `base[C]` is 0 the step changes nothing but `pc`,
which moves to the next instruction: every register, the stack, the heap,
`top` and `last_result` are unchanged and no status is returned.  When the
signed reading of `base[C]` is not 0 and the division is not the overflow case
(minimum divided by -1), the step stores in `base[A]` a word whose signed
reading is the quotient of the signed readings of `base[B]` and `base[C]`
truncated toward zero, and changes nothing else but `pc`. -/
theorem C24_divrr_zero_divisor_is_no_op (env : Env) (s : State)
    (hop : env.disp (bc_op (fetch env s.pc)) = Label.op_DIVRR) :
    let A := bc_a (fetch env s.pc)
    let B := bc_b_from_d (bc_d (fetch env s.pc))
    let C := bc_c_from_d (bc_d (fetch env s.pc))
    (s.reg C = 0 → step env s = .next { s with pc := s.pc + 1 }) ∧
    (∀ k : Nat, env.wordBits = k + 1 →
      toSigned env (s.reg C) ≠ 0 →
      ¬ (toSigned env (s.reg B) = -(2 : Int) ^ k ∧ toSigned env (s.reg C) = -1) →
      ∃ s1, step env s = .next s1 ∧
        toSigned env (s1.reg A) = Int.tdiv (toSigned env (s.reg B)) (toSigned env (s.reg C)) ∧
        s1 = { s with pc := s.pc + 1, stack := wr s.stack (s.base + (A : Int)) (s1.reg A) }) := by
  intro A B C
  constructor
  · intro hz
    have hz1 : s.stack (s.base + (bc_c_from_d (bc_d (fetch env s.pc)) : Int)) = 0 := hz
    simp only [step, hop, op_DIVRR, State.reg, hz1, toSigned_zero, ne_eq, not_true_eq_false,
      if_false]
  · intro k hw hnz hov
    have hnz1 : toSigned env (s.stack (s.base + (bc_c_from_d (bc_d (fetch env s.pc)) : Int)))
        ≠ 0 := hnz
    have hB := toSigned_range env k hw (s.reg B)
    have hq := tdiv_range ((2 : Int) ^ k) (toSigned env (s.reg B)) (toSigned env (s.reg C))
      hB.1 hB.2 hnz hov
    have hval := toSigned_of_range env k hw _ hq.1 hq.2
    simp only [step, hop, op_DIVRR, State.reg, State.setReg, hnz1, ne_eq, not_false_eq_true,
      if_true]
    refine ⟨_, rfl, ?_, ?_⟩
    · show toSigned env (wr _ _ _ _) = _
      rw [wr_same]
      exact hval
    · show _ = ({ s with pc := s.pc + 1, stack := wr s.stack _ (wr _ _ _ _) } : State)
      rw [wr_same]

/-- Witness of C24 on the third example machine, the `DIVRR r2, r0, r1` at
9300: with `r1 = 0` nothing but `pc` changes; with `r0 = -7` and `r1 = 2` the
register `r2` receives -3. -/
theorem C24_divrr_zero_divisor_is_no_op_witness :
    step exEnv3 (exRegs 9300 7 0 5) = .next { exRegs 9300 7 0 5 with pc := 9301 } ∧
    toSigned exEnv3 ((exRegs 9300 (2 ^ 64 - 7) 2 5).reg 0) = -7 ∧
    (∃ s1, step exEnv3 (exRegs 9300 (2 ^ 64 - 7) 2 5) = .next s1 ∧
      toSigned exEnv3 (s1.reg 2) = -3) := by
  refine ⟨?_, by decide, ?_⟩
  · exact (C24_divrr_zero_divisor_is_no_op exEnv3 (exRegs 9300 7 0 5) (by decide)).1
      (by decide)
  · obtain ⟨s1, h, hv, _⟩ :=
      (C24_divrr_zero_divisor_is_no_op exEnv3 (exRegs 9300 (2 ^ 64 - 7) 2 5) (by decide)).2
        63 (by decide) (by decide) (by decide)
    have hv2 : toSigned exEnv3 (s1.reg 2)
        = Int.tdiv (toSigned exEnv3 ((exRegs 9300 (2 ^ 64 - 7) 2 5).reg 0))
            (toSigned exEnv3 ((exRegs 9300 (2 ^ 64 - 7) 2 5).reg 1)) := hv
    refine ⟨s1, h, ?_⟩
    rw [hv2]
    decide

/-! ## The branch scenario -/

/-- Opcode of a word built by `BcIns::ad`. -/
theorem bc_op_ad (op a d : Nat) (ho : op < 256) (ha : a < 256) (hd : d < 65536) :
    bc_op (BcIns.ad op a d) = op := by
  rw [ad_value op a d ho ha hd]
  unfold bc_op
  omega

/-- Operand A of a word built by `BcIns::ad`. -/
theorem bc_a_ad (op a d : Nat) (ho : op < 256) (ha : a < 256) (hd : d < 65536) :
    bc_a (BcIns.ad op a d) = a := by
  rw [ad_value op a d ho ha hd]
  unfold bc_a
  rw [Nat.shiftRight_eq_div_pow]
  omega

/-- Operand D of a word built by `BcIns::ad`. -/
theorem bc_d_ad (op a d : Nat) (ho : op < 256) (ha : a < 256) (hd : d < 65536) :
    bc_d (BcIns.ad op a d) = d := by
  rw [ad_value op a d ho ha hd]
  unfold bc_d
  rw [Nat.shiftRight_eq_div_pow]
  omega

/-- A small non-negative word is its own signed reading. -/
theorem toSigned_small (env : Env) (hw : env.wordBits = 32 ∨ env.wordBits = 64) (q : Int)
    (h0 : 0 ≤ q) (h1 : q < 2 ^ 31) : toSigned env q = q := by
  unfold toSigned wrapW
  rcases hw with h | h <;> rw [h] <;> split <;> omega

/-- The state after a KINT built by `ad`. -/
theorem step_kint_ad (env : Env) (s : State) (op a d : Nat)
    (ho : op < 256) (ha : a < 256) (hd : d < 65536)
    (hK : env.disp op = Label.op_KINT) (hf : fetch env s.pc = BcIns.ad op a d) :
    step env s = .next { s with
      pc := s.pc + 1, stack := wr s.stack (s.base + (a : Int)) (d : Int) } := by
  have hop : env.disp (bc_op (fetch env s.pc)) = Label.op_KINT := by
    rw [hf, bc_op_ad op a d ho ha hd]
    exact hK
  rw [step_kint env s hop, hf, bc_a_ad op a d ho ha hd, bc_d_ad op a d ho ha hd]

/-- The state after an ISLT built by `ad` whose condition holds. -/
theorem step_islt_taken (env : Env) (s : State) (op a d : Nat)
    (ho : op < 256) (ha : a < 256) (hd : d < 65536)
    (hL : env.disp op = Label.op_ISLT) (hf : fetch env s.pc = BcIns.ad op a d)
    (hlt : toSigned env (s.reg a) < toSigned env (s.reg d)) :
    step env s = .next { s with pc := s.pc + 2 + bc_j (fetch env (s.pc + 1)) } := by
  have hop : env.disp (bc_op (fetch env s.pc)) = Label.op_ISLT := by
    rw [hf, bc_op_ad op a d ho ha hd]
    exact hL
  have hstep : step env s = condJump env { s with pc := s.pc + 1 }
      (decide (toSigned env (s.reg (bc_a (fetch env s.pc)))
        < toSigned env (s.reg (bc_d (fetch env s.pc))))) := by
    simp only [step, hop, op_ISLT]
    rfl
  rw [hstep, condJump_eq, hf, bc_a_ad op a d ho ha hd, bc_d_ad op a d ho ha hd]
  simp only [hlt, decide_True, if_true]

/-- C23 (as amended): the branch scenario.  The program
`[KINT r0,1; KINT r1,2; ISLT r0,r1; JMP +1; KINT r2,100; KINT r2,200; RET1 r2]`,
run from its first instruction on a machine with 32-bit or 64-bit words, in a
frame whose header saves a previous base at or below the current one with a
non-null FUN or THUNK closure as its Node, executes five instructions and
returns the result 200: the comparison holds, so after the third instruction
`pc` is five words past the start (the `KINT r2,100` is skipped), and the RET1
leaves `last_result = 200` and returns to the frame saved in `base[-3]`,
`base[-2]`, whose Node is unchanged and whose Code record becomes `code`. -/
theorem C23_branch_scenario (env : Env) (s : State) (opK opL opJ opR : Nat)
    (hoK : opK < 256) (hoL : opL < 256) (hoJ : opJ < 256) (hoR : opR < 256)
    (hK : env.disp opK = Label.op_KINT) (hL : env.disp opL = Label.op_ISLT)
    (hR : env.disp opR = Label.op_RET1)
    (hw : env.wordBits = 32 ∨ env.wordBits = 64)
    (h0 : fetch env s.pc = BcIns.ad opK 0 1)
    (h1 : fetch env (s.pc + 1) = BcIns.ad opK 1 2)
    (h2 : fetch env (s.pc + 1 + 1) = BcIns.ad opL 0 1)
    (h3 : fetch env (s.pc + 1 + 1 + 1) = BcIns.aj opJ 0 1)
    (_h4 : fetch env (s.pc + 1 + 1 + 1 + 1) = BcIns.ad opK 2 100)
    (h5 : fetch env (s.pc + 1 + 1 + 2 + 1) = BcIns.ad opK 2 200)
    (h6 : fetch env (s.pc + 1 + 1 + 2 + 1 + 1) = BcIns.ad opR 2 0)
    (hprev : s.stack (s.base - 3) ≤ s.base)
    (hnode : s.stack (s.stack (s.base - 3) - 1) ≠ 0)
    (hty : env.infoType (s.info (s.stack (s.stack (s.base - 3) - 1))) = .FUN ∨
      env.infoType (s.info (s.stack (s.stack (s.base - 3) - 1))) = .THUNK) :
    (∃ s3, runN env 3 s = .next s3 ∧ s3.pc = s.pc + 5) ∧
    (∃ s5, runN env 5 s = .next s5 ∧
      s5.last_result = 200 ∧
      s5.pc = s.stack (s.base - 2) ∧
      s5.base = s.stack (s.base - 3) ∧
      s5.top = s.base - 3 ∧
      s5.stack (s5.base - 1) = s.stack (s.stack (s.base - 3) - 1) ∧
      nodeInvariant env s5) := by
  have ne01 : s.base + 0 ≠ s.base + 1 := by omega
  have e1 : step env s
      = .next { s with pc := s.pc + 1, stack := wr s.stack (s.base + 0) 1 } :=
    step_kint_ad env s opK 0 1 hoK (by decide) (by decide) hK h0
  have e2 : step env { s with pc := s.pc + 1, stack := wr s.stack (s.base + 0) 1 }
      = .next { s with
          pc := s.pc + 1 + 1,
          stack := wr (wr s.stack (s.base + 0) 1) (s.base + 1) 2 } :=
    step_kint_ad env { s with pc := s.pc + 1, stack := wr s.stack (s.base + 0) 1 }
      opK 1 2 hoK (by decide) (by decide) hK h1
  have hj : bc_j (BcIns.aj opJ 0 1) = 1 :=
    bc_j_aj opJ 0 1 hoJ (by decide) (by decide) (by decide)
  have e3 : step env { s with
        pc := s.pc + 1 + 1,
        stack := wr (wr s.stack (s.base + 0) 1) (s.base + 1) 2 }
      = .next { s with
          pc := s.pc + 1 + 1 + 2 + 1,
          stack := wr (wr s.stack (s.base + 0) 1) (s.base + 1) 2 } := by
    have h := step_islt_taken env
      { s with
        pc := s.pc + 1 + 1,
        stack := wr (wr s.stack (s.base + 0) 1) (s.base + 1) 2 }
      opL 0 1 hoL (by decide) (by decide) hL h2
      (by
        show toSigned env (wr _ _ _ (s.base + 0)) < toSigned env (wr _ _ _ (s.base + 1))
        rw [wr_other _ _ _ _ ne01, wr_same, wr_same]
        rw [toSigned_small env hw _ (by decide) (by decide),
          toSigned_small env hw _ (by decide) (by decide)]
        decide)
    rw [h]
    show Outcome.next { s with
        pc := s.pc + 1 + 1 + 2 + bc_j (fetch env (s.pc + 1 + 1 + 1)),
        stack := wr (wr s.stack (s.base + 0) 1) (s.base + 1) 2 } = _
    rw [h3, hj]
  have e4 : step env { s with
        pc := s.pc + 1 + 1 + 2 + 1,
        stack := wr (wr s.stack (s.base + 0) 1) (s.base + 1) 2 }
      = .next { s with
          pc := s.pc + 1 + 1 + 2 + 1 + 1,
          stack := wr (wr (wr s.stack (s.base + 0) 1) (s.base + 1) 2) (s.base + 2) 200 } :=
    step_kint_ad env
      { s with
        pc := s.pc + 1 + 1 + 2 + 1,
        stack := wr (wr s.stack (s.base + 0) 1) (s.base + 1) 2 }
      opK 2 200 hoK (by decide) (by decide) hK h5
  have hop5 : env.disp (bc_op (fetch env (s.pc + 1 + 1 + 2 + 1 + 1))) = Label.op_RET1 := by
    rw [h6, bc_op_ad opR 2 0 hoR (by decide) (by decide)]
    exact hR
  have e5 := step_ret1 env
    { s with
      pc := s.pc + 1 + 1 + 2 + 1 + 1,
      stack := wr (wr (wr s.stack (s.base + 0) 1) (s.base + 1) 2) (s.base + 2) 200 }
    hop5
  have hB : wr (wr (wr s.stack (s.base + 0) 1) (s.base + 1) 2) (s.base + 2) 200 (s.base - 3)
      = s.stack (s.base - 3) := by
    rw [wr_other _ _ _ _ (by omega), wr_other _ _ _ _ (by omega),
      wr_other _ _ _ _ (by omega)]
  have hN : wr (wr (wr s.stack (s.base + 0) 1) (s.base + 1) 2) (s.base + 2) 200
      (s.stack (s.base - 3) - 1) = s.stack (s.stack (s.base - 3) - 1) := by
    rw [wr_other _ _ _ _ (by omega), wr_other _ _ _ _ (by omega),
      wr_other _ _ _ _ (by omega)]
  constructor
  · simp only [runN, e1, e2, e3]
    refine ⟨_, rfl, ?_⟩
    show s.pc + 1 + 1 + 2 + 1 = s.pc + 5
    omega
  · simp only [runN, e1, e2, e3, e4, e5]
    refine ⟨_, rfl, ?_, ?_, hB, rfl, ?_, ?_⟩
    · show wr _ _ _ (s.base + ((bc_a (fetch env (s.pc + 1 + 1 + 2 + 1 + 1)) : Nat) : Int)) = 200
      rw [h6, bc_a_ad opR 2 0 hoR (by decide) (by decide)]
      exact wr_same _ _ _
    · show wr _ _ _ (s.base - 2) = _
      rw [wr_other _ _ _ _ (by omega), wr_other _ _ _ _ (by omega),
        wr_other _ _ _ _ (by omega)]
    · simp only [hB, hN]
    · simp only [nodeInvariant, codeMatchesNode, hB, hN]
      exact ⟨hnode, hty, trivial⟩

/-- Witness of C23 on the third example machine: the program at 9200, run in
the frame with `base = 13` whose header saves the base 5 and the return
address 4; the Node of the frame with base 5 is the function closure 540. -/
theorem C23_branch_scenario_witness :
    (∃ s3, runN exEnv3 3 exBranchState = .next s3 ∧ s3.pc = exBranchState.pc + 5) ∧
    (∃ s5, runN exEnv3 5 exBranchState = .next s5 ∧
      s5.last_result = 200 ∧
      s5.pc = exBranchState.stack (exBranchState.base - 2) ∧
      s5.base = exBranchState.stack (exBranchState.base - 3) ∧
      s5.top = exBranchState.base - 3 ∧
      s5.stack (s5.base - 1)
        = exBranchState.stack (exBranchState.stack (exBranchState.base - 3) - 1) ∧
      nodeInvariant exEnv3 s5) :=
  C23_branch_scenario exEnv3 exBranchState 22 0 30 29 (by decide) (by decide)
    (by decide) (by decide) (by decide) (by decide) (by decide) (Or.inr (by decide))
    (by decide) (by decide) (by decide) (by decide) (by decide) (by decide) (by decide)
    (by decide) (by decide) (Or.inl (by decide))

/-- C23 as stated fails: on the third example machine the program at 9200,
started in a frame that satisfies the Node/code invariant and that returns to
a frame with base 5 whose Node is the function closure 540, returns 200 and
not 100.  After three instructions `pc` is 9205, the address of
`KINT r2, 200`; after five instructions the RET1 has returned to address 4 and
base 5 with `last_result = 200`. -/
theorem C23_result_is_200 :
    nodeInvariant exEnv3 exBranchState ∧
    exBranchState.stack (exBranchState.stack (exBranchState.base - 3) - 1) = 540 ∧
    exEnv3.infoType (exBranchState.info 540) = .FUN ∧
    (runN exEnv3 3 exBranchState).toState.map (fun s1 => s1.pc) = some 9205 ∧
    fetch exEnv3 9205 = BcIns.ad 22 2 200 ∧
    (runN exEnv3 5 exBranchState).toState.map
      (fun s1 => (s1.last_result, decide (s1.last_result = 100), s1.pc, s1.base))
      = some (200, false, 4, 5) ∧
    (runN exEnv3 5 exBranchState).toState.map
      (fun s1 => (s1.stack (s1.base - 1), s1.code)) = some (540, 110) := by
  refine ⟨?_, by decide, by decide, by decide, by decide, by decide, by decide⟩
  unfold nodeInvariant codeMatchesNode
  decide

/-! ## The table reads of CASE_S -/

/-- With at most 4 entries left the binary-search loop of CASE_S reads
nothing. -/
theorem case_s_while_reads_small (env : Env) (table : Int) (tag : Nat) (istart ilen : Int)
    (h : ilen ≤ 4) : op_CASE_S_while_reads env table tag istart ilen = [] := by
  rw [op_CASE_S_while_reads]
  have h4 : ¬ ilen > 4 := by omega
  simp only [h4, dite_false]

/-- The binary search of the example table for tag 2: the midpoint entry 2 has
tag 3, which is larger, and the search continues with `istart = 3` and
`ilen = 4`. -/
theorem ex_case_s_while_tag2 : op_CASE_S_while exEnv 6002 2 0 5 = .linear 3 4 := by
  rw [op_CASE_S_while]
  have h1 : Int.tdiv (0 + 0 + 5) 2 = 2 := by decide
  have h2 : bc_case_tag (fetch exEnv (6002 + 2)) = 3 := by decide
  have h3 : (2 : Int) + 1 = 3 := by decide
  have h4 : (0 : Int) + 5 + 1 - 2 = 4 := by decide
  have h5 : ¬ (3 : Nat) = 2 := by decide
  have h6 : ¬ (3 : Nat) < 2 := by decide
  have h7 : (5 : Int) > 4 := by decide
  simp only [h1, h2, h3, h4, h5, h6, h7, dite_true, if_false]
  exact case_s_while_small exEnv 6002 2 3 4 (by decide)

/-- The reads of the binary search of the example table for tag 2: the
midpoint entry 2 only. -/
theorem ex_case_s_while_reads_tag2 : op_CASE_S_while_reads exEnv 6002 2 0 5 = [2] := by
  rw [op_CASE_S_while_reads]
  have h1 : Int.tdiv (0 + 0 + 5) 2 = 2 := by decide
  have h2 : bc_case_tag (fetch exEnv (6002 + 2)) = 3 := by decide
  have h3 : (2 : Int) + 1 = 3 := by decide
  have h4 : (0 : Int) + 5 + 1 - 2 = 4 := by decide
  have h5 : ¬ (3 : Nat) = 2 := by decide
  have h6 : ¬ (3 : Nat) < 2 := by decide
  have h7 : (5 : Int) > 4 := by decide
  simp only [h1, h2, h3, h4, h5, h6, h7, dite_true, if_false]
  rw [case_s_while_reads_small exEnv 6002 2 3 4 (by decide)]

/-- C25, evaluated at failing inputs.  The `CASE_S r0, 5` at 6000 of the first
example machine has the five entries (1,10), (2,20), (3,30), (4,40), (5,50) at
6002 to 6006, mintag 1 and maxtag 5.  For the scrutinee tag 2 the binary
search reads entry 2 (tag 3, larger than 2) and continues with `istart = 3`,
`ilen = 4`; the linear search then reads the entries 3, 4, 5 and 6, of which 5
and 6 are outside the table `0 <= i < 5`; entry 1, which has the tag 2, is not
read and the handler continues at the default arm 6007.  For the scrutinee
tag 3 the binary search hits entry 2, but `op_CASE_S_found` is entered with
`imid = 0`, an entry whose tag is 1 and not 3: the assertion there fails. -/
theorem C25_case_s_reads_outside_table :
    exEnv.disp (bc_op (fetch exEnv (exCaseSState 520).pc)) = Label.op_CASE_S ∧
    bc_d (fetch exEnv (exCaseSState 520).pc) = 5 ∧
    u2 (bc_case_mintag (fetch exEnv 6001)) = 1 ∧
    u2 (bc_case_maxtag (fetch exEnv 6001)) = 5 ∧
    getTag exEnv (exCaseSState 520) ((exCaseSState 520).reg 0) = 2 ∧
    op_CASE_S_reads exEnv 6002 2 5 = [2, 3, 4, 5, 6] ∧
    (op_CASE_S_reads exEnv 6002 2 5).map (fun i => decide (0 ≤ i ∧ i < 5))
      = [true, true, true, false, false] ∧
    bc_case_tag (fetch exEnv (6002 + 1)) = 2 ∧
    step exEnv (exCaseSState 520) = .next { exCaseSState 520 with pc := 6007 } ∧
    getTag exEnv (exCaseSState 570) ((exCaseSState 570).reg 0) = 3 ∧
    op_CASE_S_while exEnv 6002 3 0 5 = .found ∧
    bc_case_tag (fetch exEnv (6002 + 0)) = 1 ∧
    step exEnv (exCaseSState 570) = .assertFail := by
  have hreads : op_CASE_S_reads exEnv 6002 2 5 = [2, 3, 4, 5, 6] := by
    unfold op_CASE_S_reads
    have hc : ((5 : Nat) : Int) = 5 := rfl
    rw [hc, ex_case_s_while_reads_tag2, ex_case_s_while_tag2]
    decide
  refine ⟨by decide, by decide, by decide, by decide, by decide, hreads, ?_, by decide, ?_,
    by decide, ex_case_s_while_tag3, by decide, ?_⟩
  · rw [hreads]
    decide
  · exact case_s_not_found exEnv (exCaseSState 520) 3 4 (by decide) (by decide) (by decide)
      ex_case_s_while_tag2 (by decide)
  · exact case_s_found_in_while exEnv (exCaseSState 570) (by decide) (by decide) (by decide)
      (by decide) (by decide) ex_case_s_while_tag3 (by decide)

/-! ## The temporary area of CALLT -/

/-- The first loop of CALLT leaves `callt_temp[i]` alone for `i` at or above
its iteration count. -/
theorem callt_save_ge (env : Env) (s : State) (n i : Nat) (hi : n ≤ i) :
    op_CALLT_save env s n i = s.callt_temp i := by
  unfold op_CALLT_save
  induction n with
  | zero => simp
  | succ n ih =>
    simp only [List.range_succ, List.foldl_append, List.foldl_cons, List.foldl_nil]
    have hne : ¬ i = n := by omega
    simp only [wrTemp, hne, if_false]
    exact ih (by omega)

/-- The second loop of CALLT leaves every slot above `base + count` alone. -/
theorem callt_restore_gt (base : Int) (temp : Nat → Int) (n : Nat) (st : Int → Int)
    (a : Int) (ha : base + (n : Int) < a) : op_CALLT_restore base temp n st a = st a := by
  unfold op_CALLT_restore
  induction n with
  | zero => simp
  | succ n ih =>
    have hne : a ≠ base + ((n + 1 : Nat) : Int) := by
      clear ih
      push_cast at ha ⊢
      omega
    have hlt : base + (n : Int) < a := by
      clear ih
      push_cast at ha
      omega
    simp only [List.range_succ, List.foldl_append, List.foldl_cons, List.foldl_nil]
    rw [wr_other _ _ _ _ hne]
    exact ih hlt

/-- The writes of a CALLT step that passes the arity check and the
too-many-arguments check, with `count` the `u4` value of `nargs - 1`: the
temporary area is written at the indices below `count` and nowhere else, the
stack at `base[0]` to `base[count]` and nowhere else. -/
theorem step_callt_writes (env : Env) (s : State)
    (hop : env.disp (bc_op (fetch env s.pc)) = Label.op_CALLT)
    (hnn : s.reg (bc_a (fetch env s.pc)) ≠ 0)
    (hfun : env.infoType (s.info (s.reg (bc_a (fetch env s.pc)))) = .FUN)
    (har : (env.infoCode (s.info (s.reg (bc_a (fetch env s.pc))))).arity
      = bc_b_from_d (bc_d (fetch env s.pc)))
    (hmax : bc_b_from_d (bc_d (fetch env s.pc)) ≤ 13) :
    ∃ s1, step env s = .next s1 ∧
      (∀ i : Nat, i < u4 (bc_b_from_d (bc_d (fetch env s.pc)) + 2 ^ 32 - 1) →
        s1.callt_temp i = s.reg (argByte env (s.pc + 1) i)) ∧
      (∀ i : Nat, u4 (bc_b_from_d (bc_d (fetch env s.pc)) + 2 ^ 32 - 1) ≤ i →
        s1.callt_temp i = s.callt_temp i) ∧
      (∀ i : Nat, i < u4 (bc_b_from_d (bc_d (fetch env s.pc)) + 2 ^ 32 - 1) →
        s1.stack (s.base + ((i + 1 : Nat) : Int)) = s.reg (argByte env (s.pc + 1) i)) ∧
      (∀ a : Int, a < s.base ∨
          s.base + ((u4 (bc_b_from_d (bc_d (fetch env s.pc)) + 2 ^ 32 - 1) : Nat) : Int) < a →
        s1.stack a = s.stack a) := by
  have hnn1 : ¬ s.stack (s.base + (bc_a (fetch env s.pc) : Int)) = 0 := hnn
  have hfun1 : env.infoType (s.info (s.stack (s.base + (bc_a (fetch env s.pc) : Int))))
      = .FUN := hfun
  have har1 : (env.infoCode (s.info (s.stack (s.base + (bc_a (fetch env s.pc) : Int))))).arity
      = bc_b_from_d (bc_d (fetch env s.pc)) := har
  have hmax1 : ¬ bc_b_from_d (bc_d (fetch env s.pc)) > 12 + 1 := by omega
  simp only [step, hop, op_CALLT, State.reg, hnn1, hfun1, har1, stackOverflow,
    MAX_CALLT_ARGS, hmax1, ne_eq, not_true_eq_false, or_self, and_false, if_false]
  generalize u4 (bc_b_from_d (bc_d (fetch env s.pc)) + 2 ^ 32 - 1) = count
  have hstack : ∀ (temp : Nat → Int) (a : Int), a < s.base ∨ s.base + (count : Int) < a →
      op_CALLT_restore s.base temp count
        (wr s.stack (s.base + 0)
          (s.stack (s.base + (bc_c_from_d (bc_d (fetch env s.pc)) : Int)))) a = s.stack a := by
    intro temp a ha
    rcases ha with ha | ha
    · rw [callt_restore_le _ _ _ _ _ (by omega), wr_other _ _ _ _ (by omega)]
    · rw [callt_restore_gt _ _ _ _ _ ha, wr_other _ _ _ _ (by omega)]
  by_cases hg : u4 (env.infoCode (s.info (s.stack (s.base + (bc_a (fetch env s.pc) : Int))))).framesize
      > u4OfInt (s.top - s.base)
  · simp only [hg, if_true]
    refine ⟨_, rfl, ?_, ?_, ?_, ?_⟩
    · intro i hi
      exact callt_save_at env _ count i hi
    · intro i hi
      exact callt_save_ge env _ count i hi
    · intro i hi
      show op_CALLT_restore s.base _ count _ (s.base + ((i + 1 : Nat) : Int)) = _
      rw [callt_restore_at _ _ _ _ i hi]
      exact callt_save_at env _ count i hi
    · intro a ha
      exact hstack _ a ha
  · simp only [hg, if_false]
    refine ⟨_, rfl, ?_, ?_, ?_, ?_⟩
    · intro i hi
      exact callt_save_at env _ count i hi
    · intro i hi
      exact callt_save_ge env _ count i hi
    · intro i hi
      show op_CALLT_restore s.base _ count _ (s.base + ((i + 1 : Nat) : Int)) = _
      rw [callt_restore_at _ _ _ _ i hi]
      exact callt_save_at env _ count i hi
    · intro a ha
      exact hstack _ a ha

/-- For a CALLT that passes both checks with `1 <= nargs <= 13` the
temporary area is written inside `callt_temp[0..11]` only and the stack inside
`base[0..nargs-1]` only. -/
theorem callt_writes_in_bounds (env : Env) (s : State)
    (hop : env.disp (bc_op (fetch env s.pc)) = Label.op_CALLT)
    (hnn : s.reg (bc_a (fetch env s.pc)) ≠ 0)
    (hfun : env.infoType (s.info (s.reg (bc_a (fetch env s.pc)))) = .FUN)
    (har : (env.infoCode (s.info (s.reg (bc_a (fetch env s.pc))))).arity
      = bc_b_from_d (bc_d (fetch env s.pc)))
    (hmin : 1 ≤ bc_b_from_d (bc_d (fetch env s.pc)))
    (hmax : bc_b_from_d (bc_d (fetch env s.pc)) ≤ 13) :
    ∃ s1, step env s = .next s1 ∧
      (∀ i : Nat, 12 ≤ i → s1.callt_temp i = s.callt_temp i) ∧
      (∀ a : Int, a < s.base ∨ s.base + (bc_b_from_d (bc_d (fetch env s.pc)) : Int) ≤ a →
        s1.stack a = s.stack a) := by
  obtain ⟨s1, hstep, _, htemp, _, hstack⟩ := step_callt_writes env s hop hnn hfun har hmax
  have hcount : u4 (bc_b_from_d (bc_d (fetch env s.pc)) + 2 ^ 32 - 1)
      = bc_b_from_d (bc_d (fetch env s.pc)) - 1 := by
    unfold u4
    omega
  rw [hcount] at htemp hstack
  refine ⟨s1, hstep, fun i hi => htemp i (by omega), fun a ha => hstack a ?_⟩
  rcases ha with ha | ha
  · exact Or.inl ha
  · right
    omega

/-- C26, evaluated at a failing input.  On the third example machine the
instruction at 9400 is `CALLT r2, 0, r1` (nargs = 0) and `r2` holds the
closure 530 of a FUN with arity 0, so the arity check and the
too-many-arguments check (`0 > MAX_CALLT_ARGS + 1` is false) pass.  The loop
bound `nargs - 1` is computed in `u4` and is 4294967295, not 0.  The first loop
writes `callt_temp[12]`, outside `callt_temp[0..11]` (it receives 222, the
contents of the register `r1` named by argument byte 12), and the second loop
writes `base[13]`, outside `base[0..0]`. -/
theorem C26_callt_nargs_zero_overruns :
    exEnv3.disp (bc_op (fetch exEnv3 (exRegs 9400 111 222 530).pc)) = Label.op_CALLT ∧
    bc_b_from_d (bc_d (fetch exEnv3 (exRegs 9400 111 222 530).pc)) = 0 ∧
    exEnv3.infoType ((exRegs 9400 111 222 530).info ((exRegs 9400 111 222 530).reg 2))
      = .FUN ∧
    (exEnv3.infoCode ((exRegs 9400 111 222 530).info
      ((exRegs 9400 111 222 530).reg 2))).arity = 0 ∧
    ¬ (0 > MAX_CALLT_ARGS + 1) ∧
    u4 (0 + 2 ^ 32 - 1) = 4294967295 ∧
    (exRegs 9400 111 222 530).callt_temp 12 = 0 ∧
    (exRegs 9400 111 222 530).stack ((exRegs 9400 111 222 530).base + 13) = 0 ∧
    ∃ s1, step exEnv3 (exRegs 9400 111 222 530) = .next s1 ∧
      s1.callt_temp 12 = 222 ∧
      s1.stack ((exRegs 9400 111 222 530).base + 13) = 222 := by
  refine ⟨by decide, by decide, by decide, by decide, by decide, by decide, by decide,
    by decide, ?_⟩
  obtain ⟨s1, hstep, htemp, _, hstack, _⟩ :=
    step_callt_writes exEnv3 (exRegs 9400 111 222 530) (by decide) (by decide) (by decide)
      (by decide) (by decide)
  refine ⟨s1, hstep, ?_, ?_⟩
  · rw [htemp 12 (by decide)]
    decide
  · have h := hstack 12 (by decide)
    have e : (exRegs 9400 111 222 530).base + ((12 + 1 : Nat) : Int)
        = (exRegs 9400 111 222 530).base + 13 := by decide
    rw [e] at h
    rw [h]
    decide

/-! ## Trailing payloads: where the next instruction is decoded -/

end Lambdachine
